import Mathlib

/-!
# EffectEqualizer (cyanogen-dsp): embedding and verified properties

Embedding of `src/cyanogen-dsp/EffectEqualizer.cpp`.

Modelling conventions.

* `float` values are exact rationals (`ℚ`): `value / 100.0f` is the rational `value / 100`.
  The loudness estimator and the curve engine are embedded a second time on float32
  values, with the rounding of every operation and with NaN (`F32`,
  `updateLoudnessEstimateF32`, `getAdjustedBandF32`), for the properties that depend on
  either.
* Machine integers are `Int`; where a result may leave its type it is reduced with
  `wrapInt16` / `wrapInt32` / `wrapInt64` (two's complement).
* A conversion `intN_t(x)` of a floating value discards the fractional part
  (rounds toward zero), see `truncate`.
* Operations whose behaviour is undefined in C++ and that the code does not guard
  (indexing a 6-element array with an arbitrary `int32_t`, integer division by zero)
  return `Option`.
* Everything declared outside the file (the `Effect` base class, the `Biquad` filter,
  `logf`, the numeric values of the protocol constants) is collected in `Env` and taken
  as a parameter.
-/

/-! ## Machine arithmetic -/

/-- Two's complement reduction to the range of `int16_t`. -/
def wrapInt16 (x : Int) : Int := (x + 32768) % 65536 - 32768

/-- Two's complement reduction to the range of `int32_t`. -/
def wrapInt32 (x : Int) : Int := (x + 2147483648) % 4294967296 - 2147483648

/-- Two's complement reduction to the range of `int64_t`. -/
def wrapInt64 (x : Int) : Int :=
  (x + 9223372036854775808) % 18446744073709551616 - 9223372036854775808

/-- Floating to integer conversion in C++: the fractional part is discarded. -/
def truncate (q : ℚ) : Int := if 0 ≤ q then ⌊q⌋ else ⌈q⌉

/-- The cast `int16_t(x)` of a floating value. -/
def toInt16 (q : ℚ) : Int := wrapInt16 (truncate q)

/-- The cast `int32_t(x)` of a floating value. -/
def toInt32 (q : ℚ) : Int := wrapInt32 (truncate q)

/-- Read of a fixed-size C array at an arbitrary signed index; `none` outside the array. -/
def arrayAt {n : Nat} {α : Type} (a : Fin n → α) (i : Int) : Option α :=
  if h : 0 ≤ i ∧ i < (n : Int) then some (a ⟨i.toNat, by omega⟩) else none

/-! ## Data model -/

/-- The part of the base class `Effect` that `EffectEqualizer.cpp` reads. -/
structure Effect where
  mEnable : Bool
  mSamplingRate : ℚ

/-- The arguments of one `Biquad::setHighShelf` call, in the order of the call. -/
structure HighShelfArgs where
  steps : Int
  centerFrequency : ℚ
  samplingRate : ℚ
  gaindB : ℚ
  slope : ℚ
  overallGain : ℚ

/-- The members of `EffectEqualizer`; `F` is the state of one `Biquad` filter. -/
structure EffectEqualizer (F : Type) extends Effect where
  mBand : Fin 6 → ℚ
  mLoudnessAdjustment : ℚ
  mLoudnessL : ℚ
  mLoudnessR : ℚ
  mNextUpdate : Int
  mNextUpdateInterval : Int
  mPowerSquaredL : Int
  mPowerSquaredR : Int
  mFade : Int
  mFilterL : Fin 5 → F
  mFilterR : Fin 5 → F

/-- The fields of the command buffer, read as `effect_param_t`, that the code reads.
`word3`/`word4` are `((int32_t *) cep)[3]` and `[4]`, `half8`/`half10` are
`((int16_t *) cep)[8]` and `[10]`. No execution path reads both `word4` and `half8`,
the only two of these that share bytes. -/
structure effect_param_t where
  psize : Nat
  vsize : Nat
  word3 : Int
  word4 : Int
  half8 : Int
  half10 : Int

/-- The command buffer `pCmdData`: read as `effect_param_t` by the parameter commands
and handed unread to `Effect::configure`, whose view of it is `config`. -/
structure CmdData (Cfg : Type) where
  config : Cfg
  param : effect_param_t

/-- What a command stores through `pReplyData`. The constructor is the struct the
buffer is written as (and `*replySize` is the size of that struct); only the fields
the code assigns are recorded. `status` is the bare `int32_t` reply, which leaves
`*replySize` alone. -/
inductive Reply where
  | status (status : Int)
  | reply1x4_1x2 (status : Int) (vsize : Nat) (data : Int)
  | reply1x4_2x2 (status : Int) (vsize : Nat) (data1 data2 : Int)
  | reply2x4_1x2 (status : Int) (vsize : Nat) (data : Int)
  | reply2x4_1x4 (status : Int) (vsize : Nat) (data : Int)
  | effect_param (status : Int) (vsize : Nat)
  | untouched
  deriving DecidableEq, Repr

/-- The `status` field of a reply, when one was written. -/
def Reply.getStatus : Reply → Option Int
  | .status s => some s
  | .reply1x4_1x2 s _ _ => some s
  | .reply1x4_2x2 s _ _ _ => some s
  | .reply2x4_1x2 s _ _ => some s
  | .reply2x4_1x4 s _ _ => some s
  | .effect_param s _ => some s
  | .untouched => none

/-- The `vsize` field of a reply, when one was written. -/
def Reply.getVsize : Reply → Option Nat
  | .status _ => none
  | .reply1x4_1x2 _ v _ => some v
  | .reply1x4_2x2 _ v _ _ => some v
  | .reply2x4_1x2 _ v _ => some v
  | .reply2x4_1x4 _ v _ => some v
  | .effect_param _ v => some v
  | .untouched => none

/-- The value words of a reply, in order. -/
def Reply.getData : Reply → List Int
  | .status _ => []
  | .reply1x4_1x2 _ _ d => [d]
  | .reply1x4_2x2 _ _ d1 d2 => [d1, d2]
  | .reply2x4_1x2 _ _ d => [d]
  | .reply2x4_1x4 _ _ d => [d]
  | .effect_param _ _ => []
  | .untouched => []

/-- Everything `EffectEqualizer.cpp` uses and does not define: the numeric values of
the command codes, parameter identifiers and error numbers (system headers), the base
class `Effect`, the `Biquad` filter and `logf`. -/
structure Env (F Cfg : Type) where
  EFFECT_CMD_SET_CONFIG : Nat
  EFFECT_CMD_GET_PARAM : Nat
  EFFECT_CMD_SET_PARAM : Nat
  EQ_PARAM_NUM_BANDS : Int
  EQ_PARAM_LEVEL_RANGE : Int
  EQ_PARAM_BAND_LEVEL : Int
  EQ_PARAM_CENTER_FREQ : Int
  EQ_PARAM_GET_NUM_OF_PRESETS : Int
  CUSTOM_EQ_PARAM_LOUDNESS_CORRECTION : Int
  EINVAL : Int
  ENODATA : Int
  /-- The base step `Effect::configure(pCmdData)`: its return code and the base state after it. -/
  configure : Effect → Cfg → Int × Effect
  /-- The fall-through `Effect::command(cmdCode, cmdSize, pCmdData, replySize, pReplyData)`. -/
  baseCommand : Effect → Nat → Nat → CmdData Cfg → Int × Effect × Reply
  /-- The library function `logf`. -/
  logf : ℚ → ℚ
  /-- The method `Biquad::setHighShelf`. -/
  setHighShelf : F → HighShelfArgs → F
  /-- The method `Biquad::process`: the output sample and the filter after it. -/
  filterProcess : F → Int → Int × F
  /-- The base state after `Effect::Effect()`. -/
  baseInit : Effect
  /-- The filter after `Biquad::Biquad()`. -/
  filterInit : F

/-- The parameter identifiers, the three command codes and the error numbers are what
the headers make them: pairwise different within each group, and the error numbers
nonzero. -/
def Env.distinct {F Cfg : Type} (E : Env F Cfg) : Prop :=
  E.EFFECT_CMD_SET_CONFIG ≠ E.EFFECT_CMD_GET_PARAM ∧
  E.EFFECT_CMD_SET_CONFIG ≠ E.EFFECT_CMD_SET_PARAM ∧
  E.EFFECT_CMD_GET_PARAM ≠ E.EFFECT_CMD_SET_PARAM ∧
  E.EQ_PARAM_NUM_BANDS ≠ E.EQ_PARAM_LEVEL_RANGE ∧
  E.EQ_PARAM_NUM_BANDS ≠ E.EQ_PARAM_GET_NUM_OF_PRESETS ∧
  E.EQ_PARAM_LEVEL_RANGE ≠ E.EQ_PARAM_GET_NUM_OF_PRESETS ∧
  E.EQ_PARAM_BAND_LEVEL ≠ E.EQ_PARAM_CENTER_FREQ ∧
  E.EINVAL ≠ 0 ∧ E.ENODATA ≠ 0

instance {F Cfg : Type} (E : Env F Cfg) : Decidable E.distinct := by
  unfold Env.distinct; infer_instance

namespace EffectEqualizer

variable {F Cfg : Type}

/-- Source lines 63-70: the constructor. -/
def init (E : Env F Cfg) : EffectEqualizer F :=
  { toEffect := E.baseInit
    mBand := fun _ => 0
    mLoudnessAdjustment := 10000
    mLoudnessL := 50
    mLoudnessR := 50
    mNextUpdate := 0
    mNextUpdateInterval := 1000
    mPowerSquaredL := 0
    mPowerSquaredR := 0
    mFade := 0
    mFilterL := fun _ => E.filterInit
    mFilterR := fun _ => E.filterInit }

/-- The array index of a band number the code has checked with `arg >= 0 && arg < 6`. -/
def bandIndex (arg : Int) (h : 0 ≤ arg ∧ arg < 6) : Fin 6 := ⟨arg.toNat, by omega⟩

/-- Source lines 91-149: the reply of `EFFECT_CMD_GET_PARAM` (the command returns 0 on
every path). -/
def getParam (E : Env F Cfg) (s : EffectEqualizer F) (cep : effect_param_t) : Reply :=
  if cep.psize = 4 then
    let cmd := cep.word3
    if cmd = E.EQ_PARAM_NUM_BANDS then
      Reply.reply1x4_1x2 0 2 6
    else if cmd = E.EQ_PARAM_LEVEL_RANGE then
      Reply.reply1x4_2x2 0 4 (-1000) 1000
    else if cmd = E.EQ_PARAM_GET_NUM_OF_PRESETS then
      Reply.reply1x4_1x2 0 2 0
    else
      Reply.effect_param (-E.EINVAL) 0
  else if cep.psize = 8 then
    let cmd := cep.word3
    let arg := cep.word4
    if h : cmd = E.EQ_PARAM_BAND_LEVEL ∧ 0 ≤ arg ∧ arg < 6 then
      Reply.reply2x4_1x2 0 2 (toInt16 (s.mBand (bandIndex arg h.2) * 100 + 0.5))
    else if cmd = E.EQ_PARAM_CENTER_FREQ ∧ 0 ≤ arg ∧ arg < 6 then
      let centerFrequency : ℚ := 15.625 * (4 : ℚ) ^ arg
      Reply.reply2x4_1x4 0 4 (toInt32 (centerFrequency * 1000))
    else
      Reply.effect_param (-E.EINVAL) 0
  else
    Reply.effect_param (-E.EINVAL) 0

/-- Source lines 151-182: the state after and the reply of `EFFECT_CMD_SET_PARAM` (the
command returns 0 on every path). -/
def setParam (E : Env F Cfg) (s : EffectEqualizer F) (cep : effect_param_t) :
    EffectEqualizer F × Reply :=
  if cep.psize = 4 ∧ cep.vsize = 2 ∧ cep.word3 = E.CUSTOM_EQ_PARAM_LOUDNESS_CORRECTION then
    let value := cep.half8
    ({ s with mLoudnessAdjustment := (value : ℚ) / 100 }, Reply.status 0)
  else if h : cep.psize = 8 ∧ cep.vsize = 2 ∧
      cep.word3 = E.EQ_PARAM_BAND_LEVEL ∧ 0 ≤ cep.word4 ∧ cep.word4 < 6 then
    let value := cep.half10
    ({ s with mBand := Function.update s.mBand (bandIndex cep.word4 h.2.2.2) ((value : ℚ) / 100) },
      Reply.status 0)
  else
    (s, Reply.status (-E.EINVAL))

/-- Source lines 72-185: `EffectEqualizer::command`. The result is the return value,
the state after the call and what was written to the reply buffer. -/
def command (E : Env F Cfg) (s : EffectEqualizer F) (cmdCode cmdSize : Nat)
    (pCmdData : CmdData Cfg) : Int × EffectEqualizer F × Reply :=
  if cmdCode = E.EFFECT_CMD_SET_CONFIG then
    let r := E.configure s.toEffect pCmdData.config
    let ret := r.1
    let s1 : EffectEqualizer F := { s with toEffect := r.2 }
    if ret ≠ 0 then
      (0, s1, Reply.status ret)
    else
      (0, { s1 with mNextUpdateInterval := toInt32 (s1.mSamplingRate / 100) }, Reply.status 0)
  else if cmdCode = E.EFFECT_CMD_GET_PARAM then
    (0, s, getParam E s pCmdData.param)
  else if cmdCode = E.EFFECT_CMD_SET_PARAM then
    let r := setParam E s pCmdData.param
    (0, r.1, r.2)
  else
    let r := E.baseCommand s.toEffect cmdCode cmdSize pCmdData
    (r.1, { s with toEffect := r.2.1 }, r.2.2)

/-- Source line 210. -/
def adj_beg : Fin 6 → ℚ := ![0.0, 0.0, 0.0, 0.0, -1.0, -1.5]

/-- Source line 211. -/
def adj_end : Fin 6 → ℚ := ![42.3, 28.0, 10.0, 0.0, -3.0, 8.0]

/-- Source lines 208-230: `EffectEqualizer::getAdjustedBand`, in exact arithmetic;
`none` when `band` is outside the three 6-element arrays. (`getAdjustedBandF32` is the
same function on float32 values.) -/
def getAdjustedBand (s : EffectEqualizer F) (band : Int) (loudness : ℚ) : Option ℚ :=
  let loudnessLevel : ℚ := loudness + s.mLoudnessAdjustment
  let loudnessLevel : ℚ := if loudnessLevel > 100 then 100 else loudnessLevel
  let loudnessLevel : ℚ := if loudnessLevel < 20 then 20 else loudnessLevel
  let loudnessLevel : ℚ := (loudnessLevel - 20) / (100 - 20)
  (arrayAt s.mBand band).bind fun f =>
  (arrayAt adj_beg band).bind fun b =>
  (arrayAt adj_end band).bind fun e =>
  let f : ℚ := f + (b + (e - b) * (1 - loudnessLevel))
  some (f * ((s.mFade : ℚ) / 100))

/-- Source lines 236-240 (and 242-244): the arguments `refreshBands` passes to
`setHighShelf` for shelf `band` of the channel whose loudness estimate is `loudness`. -/
def shelfArgs (s : EffectEqualizer F) (band : Int) (loudness : ℚ) : Option HighShelfArgs :=
  let centerFrequency : ℚ := 15.625 * (4 : ℚ) ^ band
  (getAdjustedBand s (band + 1) loudness).bind fun hi =>
  (getAdjustedBand s band loudness).bind fun lo =>
  (if band = 0 then getAdjustedBand s 0 loudness else some 0).bind fun overallGain =>
  some { steps := s.mNextUpdateInterval
         centerFrequency := centerFrequency * 2
         samplingRate := s.mSamplingRate
         gaindB := hi - lo
         slope := 1
         overallGain := overallGain }

/-- One iteration of the loop of `refreshBands` (source lines 234-245). -/
def refreshBand (E : Env F Cfg) (s : EffectEqualizer F) (band : Fin 5) :
    Option (EffectEqualizer F) :=
  (shelfArgs s (band : Nat) s.mLoudnessL).bind fun aL =>
  (shelfArgs s (band : Nat) s.mLoudnessR).bind fun aR =>
  some { s with
    mFilterL := Function.update s.mFilterL band (E.setHighShelf (s.mFilterL band) aL)
    mFilterR := Function.update s.mFilterR band (E.setHighShelf (s.mFilterR band) aR) }

/-- Source lines 232-246: `EffectEqualizer::refreshBands`, `band` running over 0..4. -/
def refreshBands (E : Env F Cfg) (s : EffectEqualizer F) : Option (EffectEqualizer F) :=
  ([0, 1, 2, 3, 4] : List (Fin 5)).foldlM (refreshBand E) s

/-- Source lines 248-256: `EffectEqualizer::updateLoudnessEstimate`, in exact
arithmetic, returning the new value of `loudness`. The quotient
`powerSquared / mNextUpdateInterval` is an integer division (`int64_t` by `int32_t`),
undefined for a zero divisor. (`updateLoudnessEstimateF32` is the same function on
float32 values.) -/
def updateLoudnessEstimate (E : Env F Cfg) (s : EffectEqualizer F) (loudness : ℚ)
    (powerSquared : Int) : Option ℚ :=
  if s.mNextUpdateInterval = 0 then none
  else
    let meanSquare : Int := wrapInt64 (powerSquared.tdiv s.mNextUpdateInterval)
    let signalPowerDb : ℚ :=
      96 + E.logf ((meanSquare : ℚ) / ((2 : ℚ) ^ 48) + 1e-10) / E.logf 10 * 10
    if loudness > signalPowerDb + 0.1 then some (loudness - 0.1) else some signalPowerDb

/-- Source lines 273-278: the two guarded steps of `mFade`. -/
def fadeStep (enable : Bool) (fade : Int) : Int :=
  let fade := if enable ∧ fade < 100 then fade + 1 else fade
  if ¬ enable ∧ fade > 0 then fade - 1 else fade

/-- Source lines 263-280: the body of `if (mNextUpdate == 0)` in `process`, one
update-window rollover. -/
def updateWindow (E : Env F Cfg) (s : EffectEqualizer F) : Option (EffectEqualizer F) :=
  let s1 : EffectEqualizer F := { s with mNextUpdate := s.mNextUpdateInterval }
  (updateLoudnessEstimate E s1 s1.mLoudnessL s1.mPowerSquaredL).bind fun l =>
  (updateLoudnessEstimate E s1 s1.mLoudnessR s1.mPowerSquaredR).bind fun r =>
  let s2 : EffectEqualizer F :=
    { s1 with mLoudnessL := l, mLoudnessR := r, mPowerSquaredL := 0, mPowerSquaredR := 0 }
  let s3 : EffectEqualizer F := { s2 with mFade := fadeStep s2.mEnable s2.mFade }
  refreshBands E s3

/-- Source lines 292-295 for one channel: the sample through the five filters in order. -/
def cascade (E : Env F Cfg) (filters : Fin 5 → F) (tmp : Int) : Int × (Fin 5 → F) :=
  ([0, 1, 2, 3, 4] : List (Fin 5)).foldl
    (fun acc j =>
      let r := E.filterProcess (acc.2 j) acc.1
      (r.1, Function.update acc.2 j r.2))
    (tmp, filters)

/-- Source lines 261-298: the loop body of `process` for one frame; `frame` is the pair
`(read(in, i * 2), read(in, i * 2 + 1))`, the result holds the pair written to `out`. -/
def processFrame (E : Env F Cfg) (s : EffectEqualizer F) (frame : Int × Int) :
    Option (EffectEqualizer F × (Int × Int)) :=
  (if s.mNextUpdate = 0 then updateWindow E s else some s).bind fun s1 =>
  let s2 : EffectEqualizer F := { s1 with mNextUpdate := wrapInt32 (s1.mNextUpdate - 1) }
  let tmpL := frame.1
  let tmpR := frame.2
  let s3 : EffectEqualizer F :=
    { s2 with
      mPowerSquaredL := wrapInt64 (s2.mPowerSquaredL + tmpL * tmpL)
      mPowerSquaredR := wrapInt64 (s2.mPowerSquaredR + tmpR * tmpR) }
  let outL := cascade E s3.mFilterL tmpL
  let outR := cascade E s3.mFilterR tmpR
  some ({ s3 with mFilterL := outL.2, mFilterR := outR.2 }, (outL.1, outR.1))

/-- Source lines 260-299: the loop of `process` over the frames of the input buffer. -/
def processLoop (E : Env F Cfg) (s : EffectEqualizer F) :
    List (Int × Int) → Option (EffectEqualizer F × List (Int × Int))
  | [] => some (s, [])
  | frame :: rest =>
    (processFrame E s frame).bind fun r =>
    (processLoop E r.1 rest).bind fun r2 =>
    some (r2.1, r.2 :: r2.2)

/-- Source lines 258-302: `EffectEqualizer::process`. The result is the return value,
the state after the call and the frames written to `out`. -/
def process (E : Env F Cfg) (s : EffectEqualizer F) (input : List (Int × Int)) :
    Option (Int × EffectEqualizer F × List (Int × Int)) :=
  (processLoop E s input).bind fun r =>
  some (if r.1.mEnable ∨ r.1.mFade ≠ 0 then 0 else -E.ENODATA, r.1, r.2)

end EffectEqualizer

/-! ## A concrete environment

The values the Android headers give the constants, a one-word filter state and a base
class whose configuration step is dictated by the command buffer: `config` is the pair
of the return code and the sampling rate the base step stores on success. -/

/-- The concrete environment used to evaluate the model. -/
def testEnv : Env Unit (Int × ℚ) :=
  { EFFECT_CMD_SET_CONFIG := 1
    EFFECT_CMD_GET_PARAM := 8
    EFFECT_CMD_SET_PARAM := 5
    EQ_PARAM_NUM_BANDS := 0
    EQ_PARAM_LEVEL_RANGE := 1
    EQ_PARAM_BAND_LEVEL := 2
    EQ_PARAM_CENTER_FREQ := 3
    EQ_PARAM_GET_NUM_OF_PRESETS := 7
    CUSTOM_EQ_PARAM_LOUDNESS_CORRECTION := 1000
    EINVAL := 22
    ENODATA := 61
    configure := fun e cfg => (cfg.1, if cfg.1 = 0 then { e with mSamplingRate := cfg.2 } else e)
    baseCommand := fun e _ _ _ => (-22, e, Reply.untouched)
    logf := fun _ => 1
    setHighShelf := fun f _ => f
    filterProcess := fun f x => (x, f)
    baseInit := { mEnable := false, mSamplingRate := 44100 }
    filterInit := () }

/-- A parameter request with the given sizes, identifier, band and value; the value is
stored where a request of that parameter size carries it. -/
def mkParam (psize vsize : Nat) (cmd arg value : Int) : CmdData (Int × ℚ) :=
  { config := (0, 0)
    param := { psize := psize, vsize := vsize, word3 := cmd, word4 := arg,
               half8 := if psize = 4 then value else arg, half10 := value } }

/-- A configuration request whose base step returns `ret` and, on success, stores
sampling rate `rate`. -/
def mkConfig (ret : Int) (rate : ℚ) : CmdData (Int × ℚ) :=
  { config := (ret, rate)
    param := { psize := 0, vsize := 0, word3 := 0, word4 := 0, half8 := 0, half10 := 0 } }

/-! ## The curve engine in the words of the specification -/

/-- The compensation term of `getAdjustedBand` (source line 227) for a band inside the
tables: `adj_beg[band] + (adj_end[band] - adj_beg[band]) * (1.0f - loudnessLevel)`,
with `loudnessLevel` computed as in source lines 214-222. -/
def EffectEqualizer.compensation {F : Type} (s : EffectEqualizer F) (band : Fin 6)
    (loudness : ℚ) : ℚ :=
  let loudnessLevel : ℚ := loudness + s.mLoudnessAdjustment
  let loudnessLevel : ℚ := if loudnessLevel > 100 then 100 else loudnessLevel
  let loudnessLevel : ℚ := if loudnessLevel < 20 then 20 else loudnessLevel
  let loudnessLevel : ℚ := (loudnessLevel - 20) / (100 - 20)
  EffectEqualizer.adj_beg band
    + (EffectEqualizer.adj_end band - EffectEqualizer.adj_beg band) * (1 - loudnessLevel)

/-- The value `getAdjustedBand` returns for a band inside the tables (source lines
225-229): the user setting plus the compensation, scaled by `mFade / 100.f`. -/
def EffectEqualizer.getAdjustedBandIn {F : Type} (s : EffectEqualizer F) (band : Fin 6)
    (loudness : ℚ) : ℚ :=
  (s.mBand band + EffectEqualizer.compensation s band loudness) * ((s.mFade : ℚ) / 100)

/-- The arguments `shelfArgs` computes for shelf `band` in 0..4, every table read being
inside the tables (source lines 236-240). -/
def EffectEqualizer.shelfArgsIn {F : Type} (s : EffectEqualizer F) (band : Fin 5)
    (loudness : ℚ) : HighShelfArgs :=
  { steps := s.mNextUpdateInterval
    centerFrequency := 15.625 * (4 : ℚ) ^ (((band : Nat) : Int)) * 2
    samplingRate := s.mSamplingRate
    gaindB := EffectEqualizer.getAdjustedBandIn s band.succ loudness
                - EffectEqualizer.getAdjustedBandIn s band.castSucc loudness
    slope := 1
    overallGain := if band = 0 then EffectEqualizer.getAdjustedBandIn s 0 loudness else 0 }

/-- The table of compensation endpoints of the specification: for each band the pair
the specification calls (low-loudness, high-loudness). -/
def specTable : Fin 6 → ℚ × ℚ :=
  ![(0, 42.3), (0, 28.0), (0, 10.0), (0, 0.0), (-1, -3.0), (-1.5, 8.0)]

/-- The specification: `level = clamp(loudnessEstimate + loudnessReference, 20, 100)`. -/
def specLevel (loudnessEstimate loudnessReference : ℚ) : ℚ :=
  max 20 (min (loudnessEstimate + loudnessReference) 100)

/-- The specification: `t = (level - 20) / 80`. -/
def specT (loudnessEstimate loudnessReference : ℚ) : ℚ :=
  (specLevel loudnessEstimate loudnessReference - 20) / 80

/-- The specification: effective compensation `low + (high - low) * (1 - t)` and final
gain `userBandGain[bandIndex] + compensation`, scaled by `fadeLevel / 100`. -/
def specAdjustedGain (userBandGain : Fin 6 → ℚ) (loudnessReference : ℚ) (fadeLevel : Int)
    (bandIndex : Fin 6) (loudnessEstimate : ℚ) : ℚ :=
  let low := (specTable bandIndex).1
  let high := (specTable bandIndex).2
  let t := specT loudnessEstimate loudnessReference
  let compensation := low + (high - low) * (1 - t)
  (userBandGain bandIndex + compensation) * (fadeLevel : ℚ) / 100

/-- The freshly constructed state of the concrete environment with the fade at 100 and
the loudness reference at 0 dB (disabled, interval 1000, countdown 0). -/
def fullFadeState : EffectEqualizer Unit :=
  { EffectEqualizer.init testEnv with mFade := 100, mLoudnessAdjustment := 0 }

/-! ## Predicates on requests -/

/-- The get-parameter requests of the protocol table: parameter size 4 with
`NUM_BANDS`, `LEVEL_RANGE` or `NUM_PRESETS`, or parameter size 8 with `BAND_LEVEL` or
`CENTER_FREQ` and a band index in 0..5. -/
def supportedGet {F Cfg : Type} (E : Env F Cfg) (cep : effect_param_t) : Prop :=
  (cep.psize = 4 ∧ (cep.word3 = E.EQ_PARAM_NUM_BANDS ∨ cep.word3 = E.EQ_PARAM_LEVEL_RANGE ∨
      cep.word3 = E.EQ_PARAM_GET_NUM_OF_PRESETS)) ∨
  (cep.psize = 8 ∧ (cep.word3 = E.EQ_PARAM_BAND_LEVEL ∨ cep.word3 = E.EQ_PARAM_CENTER_FREQ) ∧
      0 ≤ cep.word4 ∧ cep.word4 < 6)

/-- The set-parameter requests of the protocol table: (psize 4, vsize 2,
`LOUDNESS_CORRECTION`) or (psize 8, vsize 2, `BAND_LEVEL`, band index in 0..5). -/
def supportedSet {F Cfg : Type} (E : Env F Cfg) (cep : effect_param_t) : Prop :=
  (cep.psize = 4 ∧ cep.vsize = 2 ∧ cep.word3 = E.CUSTOM_EQ_PARAM_LOUDNESS_CORRECTION) ∨
  (cep.psize = 8 ∧ cep.vsize = 2 ∧ cep.word3 = E.EQ_PARAM_BAND_LEVEL ∧
      0 ≤ cep.word4 ∧ cep.word4 < 6)

instance {F Cfg : Type} (E : Env F Cfg) (cep : effect_param_t) : Decidable (supportedGet E cep) := by
  unfold supportedGet; infer_instance

instance {F Cfg : Type} (E : Env F Cfg) (cep : effect_param_t) : Decidable (supportedSet E cep) := by
  unfold supportedSet; infer_instance

/-! ## The instantaneous level -/

/-- The instantaneous level `signalPowerDb` of source line 249, for the accumulated
energy `powerSquared` and the interval of state `s`. -/
def EffectEqualizer.signalPowerDb {F Cfg : Type} (E : Env F Cfg) (s : EffectEqualizer F)
    (powerSquared : Int) : ℚ :=
  96 + E.logf (((wrapInt64 (powerSquared.tdiv s.mNextUpdateInterval) : Int) : ℚ)
      / ((2 : ℚ) ^ 48) + 1e-10) / E.logf 10 * 10

/-! ## Reachable states -/

/-- The states reachable from the freshly constructed one by configure, get-parameter
and set-parameter commands and `process` calls that return. `okRate` is the condition
on the sampling rate a successful base configuration step leaves. -/
inductive Reachable {F Cfg : Type} (E : Env F Cfg) (okRate : ℚ → Prop) :
    EffectEqualizer F → Prop where
  | init : Reachable E okRate (EffectEqualizer.init E)
  | configure (s : EffectEqualizer F) (cmdSize : Nat) (d : CmdData Cfg) :
      Reachable E okRate s →
      ((E.configure s.toEffect d.config).1 = 0 →
        okRate (E.configure s.toEffect d.config).2.mSamplingRate) →
      Reachable E okRate (EffectEqualizer.command E s E.EFFECT_CMD_SET_CONFIG cmdSize d).2.1
  | getParam (s : EffectEqualizer F) (cmdSize : Nat) (d : CmdData Cfg) :
      Reachable E okRate s →
      Reachable E okRate (EffectEqualizer.command E s E.EFFECT_CMD_GET_PARAM cmdSize d).2.1
  | setParam (s : EffectEqualizer F) (cmdSize : Nat) (d : CmdData Cfg) :
      Reachable E okRate s →
      Reachable E okRate (EffectEqualizer.command E s E.EFFECT_CMD_SET_PARAM cmdSize d).2.1
  | process (s : EffectEqualizer F) (input : List (Int × Int))
      (r : Int × EffectEqualizer F × List (Int × Int)) :
      Reachable E okRate s → EffectEqualizer.process E s input = some r →
      Reachable E okRate r.2.1

/-- The fresh state of the concrete environment after a successful configuration at
48000 Hz: interval 480, countdown 0. -/
def configured48000 : EffectEqualizer Unit :=
  (EffectEqualizer.command testEnv (EffectEqualizer.init testEnv)
    testEnv.EFFECT_CMD_SET_CONFIG 56 (mkConfig 0 48000)).2.1

/-- The fresh state of the concrete environment after a successful configuration at
50 Hz: interval `int32_t(50 / 100.) = 0`, countdown 0. -/
def configured50 : EffectEqualizer Unit :=
  (EffectEqualizer.command testEnv (EffectEqualizer.init testEnv)
    testEnv.EFFECT_CMD_SET_CONFIG 56 (mkConfig 0 50)).2.1

/-- The fresh state of the concrete environment with the fade at 1 (disabled, interval
1000, countdown 0): the last window of a fade-out. -/
def lastFadeState : EffectEqualizer Unit :=
  { EffectEqualizer.init testEnv with mFade := 1 }

/-! ## Float32 values

The loudness estimator and the curve engine once more, on float32 values: every
operation rounds its exact result to the nearest float32 (ties to even, subnormals
below `2^-126`) and a value may be NaN. Infinities and the sign of zero are not
represented, and the exponent is not bounded above. -/

/-- The integer nearest to a non-negative rational, the even one of the two nearest
at a tie. -/
def roundHalfEven (m : ℚ) : Int :=
  if m - ⌊m⌋ < 1 / 2 then ⌊m⌋
  else if 1 / 2 < m - ⌊m⌋ then ⌊m⌋ + 1
  else if ⌊m⌋ % 2 = 0 then ⌊m⌋ else ⌊m⌋ + 1

/-- The binary exponent of the float32 grid at magnitude `a`: `⌊log2 a⌋`, and -126
below the smallest normal number. -/
def f32Exponent (a : ℚ) : Int := max (Int.log 2 a) (-126)

/-- The spacing of the float32 numbers at magnitude `a` (24 significant bits). -/
def f32Ulp (a : ℚ) : ℚ := (2 : ℚ) ^ (f32Exponent a - 23)

/-- The float32 nearest to a non-negative rational. -/
def roundF32Abs (a : ℚ) : ℚ := (roundHalfEven (a / f32Ulp a) : ℚ) * f32Ulp a

/-- The float32 nearest to a rational (round to nearest, ties to even). -/
def roundF32 (q : ℚ) : ℚ := if 0 ≤ q then roundF32Abs q else -roundF32Abs (-q)

/-- A value of type `float`: a number or NaN. -/
inductive F32 where
  | val (q : ℚ)
  | nan
  deriving DecidableEq

/-- A literal or a number converted to `float`. -/
def F32.ofRat (q : ℚ) : F32 := F32.val (roundF32 q)

/-- Float addition. -/
def F32.add : F32 → F32 → F32
  | F32.val a, F32.val b => F32.val (roundF32 (a + b))
  | _, _ => F32.nan

/-- Float subtraction. -/
def F32.sub : F32 → F32 → F32
  | F32.val a, F32.val b => F32.val (roundF32 (a - b))
  | _, _ => F32.nan

/-- Float multiplication. -/
def F32.mul : F32 → F32 → F32
  | F32.val a, F32.val b => F32.val (roundF32 (a * b))
  | _, _ => F32.nan

/-- Float division. A zero divisor, whose quotient is infinite or NaN, gives `nan`
here; the divisors in the source are the constants 80, 100 and `2^48`, and
`logf(10.0f)`. -/
def F32.div : F32 → F32 → F32
  | F32.val a, F32.val b => if b = 0 then F32.nan else F32.val (roundF32 (a / b))
  | _, _ => F32.nan

/-- The comparison `a > b`, false when either side is NaN. -/
def F32.gt : F32 → F32 → Bool
  | F32.val a, F32.val b => decide (a > b)
  | _, _ => false

/-- The comparison `a < b`, false when either side is NaN. -/
def F32.lt : F32 → F32 → Bool
  | F32.val a, F32.val b => decide (a < b)
  | _, _ => false

/-- The library function `logf` on float values: NaN for a negative argument and for
NaN, the rounded value of `E.logf` for a positive one. For the argument 0 the result is
`-∞`, which is not represented, and is `nan` here; line 249 takes `logf` of a multiple
of `2^-57` that is not 0, and of 10. -/
def logfF32 {F Cfg : Type} (E : Env F Cfg) : F32 → F32
  | F32.val a => if a ≤ 0 then F32.nan else F32.val (roundF32 (E.logf a))
  | F32.nan => F32.nan

/-- Source line 249 on float values: the instantaneous level `signalPowerDb`; `none`
for the integer division by a zero interval. -/
def signalPowerDbF32 {F Cfg : Type} (E : Env F Cfg) (s : EffectEqualizer F)
    (powerSquared : Int) : Option F32 :=
  if s.mNextUpdateInterval = 0 then none
  else
    let meanSquare : Int := wrapInt64 (powerSquared.tdiv s.mNextUpdateInterval)
    some (F32.add (F32.ofRat 96)
      (F32.mul
        (F32.div
          (logfF32 E (F32.add (F32.div (F32.ofRat (meanSquare : ℚ)) (F32.ofRat ((2 : ℚ) ^ 48)))
            (F32.ofRat 1e-10)))
          (logfF32 E (F32.ofRat 10)))
        (F32.ofRat 10)))

/-- Source lines 251-255 on float values: the new value of `loudness` for the value
`signalPowerDb` that line 249 computed. -/
def loudnessStepF32 (loudness signalPowerDb : F32) : F32 :=
  if F32.gt loudness (F32.add signalPowerDb (F32.ofRat 0.1)) then
    F32.sub loudness (F32.ofRat 0.1)
  else
    signalPowerDb

/-- Source lines 248-256 on float values: `EffectEqualizer::updateLoudnessEstimate`,
returning the new value of `loudness`. -/
def updateLoudnessEstimateF32 {F Cfg : Type} (E : Env F Cfg) (s : EffectEqualizer F)
    (loudness : F32) (powerSquared : Int) : Option F32 :=
  (signalPowerDbF32 E s powerSquared).map (loudnessStepF32 loudness)

/-- The estimate after `k` windows whose instantaneous level is `signalPowerDb` every
time, starting from the estimate `loudness`. -/
def loudnessAfterF32 (signalPowerDb : F32) : Nat → F32 → F32
  | 0, loudness => loudness
  | k + 1, loudness =>
    loudnessAfterF32 signalPowerDb k (loudnessStepF32 loudness signalPowerDb)

/-- Source lines 214-222 on float values: the normalised `loudnessLevel` of
`getAdjustedBand` for a loudness estimate that is a float or NaN. -/
def loudnessLevelF32 {F : Type} (s : EffectEqualizer F) (loudness : F32) : F32 :=
  let loudnessLevel : F32 := F32.add loudness (F32.ofRat s.mLoudnessAdjustment)
  let loudnessLevel : F32 :=
    if F32.gt loudnessLevel (F32.ofRat 100) then F32.ofRat 100 else loudnessLevel
  let loudnessLevel : F32 :=
    if F32.lt loudnessLevel (F32.ofRat 20) then F32.ofRat 20 else loudnessLevel
  F32.div (F32.sub loudnessLevel (F32.ofRat 20)) (F32.sub (F32.ofRat 100) (F32.ofRat 20))

/-- Source lines 208-230 on float values: `getAdjustedBand` for a loudness estimate
that is a float or NaN. The members and table entries the state and the tables hold as
rationals are the floats nearest to them. -/
def getAdjustedBandF32 {F : Type} (s : EffectEqualizer F) (band : Int) (loudness : F32) :
    Option F32 :=
  let loudnessLevel : F32 := loudnessLevelF32 s loudness
  (arrayAt s.mBand band).bind fun f =>
  (arrayAt EffectEqualizer.adj_beg band).bind fun b =>
  (arrayAt EffectEqualizer.adj_end band).bind fun e =>
  let f : F32 := F32.add (F32.ofRat f)
    (F32.add (F32.ofRat b)
      (F32.mul (F32.sub (F32.ofRat e) (F32.ofRat b)) (F32.sub (F32.ofRat 1) loudnessLevel)))
  some (F32.mul f (F32.div (F32.ofRat (s.mFade : ℚ)) (F32.ofRat 100)))

/-- Source lines 238-239 on float values: the gain step `dB` and the DC gain
`overallGain` that `refreshBands` passes for shelf `band` of a channel whose loudness
estimate is `loudness`. -/
def shelfGainsF32 {F : Type} (s : EffectEqualizer F) (band : Int) (loudness : F32) :
    Option (F32 × F32) :=
  (getAdjustedBandF32 s (band + 1) loudness).bind fun hi =>
  (getAdjustedBandF32 s band loudness).bind fun lo =>
  (if band = 0 then getAdjustedBandF32 s 0 loudness else some (F32.ofRat 0)).bind
    fun overallGain =>
  some (F32.sub hi lo, overallGain)

/-! ## Auxiliary lemmas -/

section Lemmas

variable {F Cfg : Type}

theorem testEnv_distinct : testEnv.distinct := by decide

theorem wrapInt16_of_range (x : Int) (h : -32768 ≤ x ∧ x ≤ 32767) : wrapInt16 x = x := by
  unfold wrapInt16; omega

theorem wrapInt32_of_range (x : Int) (h : -2147483648 ≤ x ∧ x ≤ 2147483647) :
    wrapInt32 x = x := by
  unfold wrapInt32; omega

theorem truncate_intCast (z : Int) : truncate (z : ℚ) = z := by
  unfold truncate; split <;> simp

theorem truncate_of_nonneg (q : ℚ) (h : 0 ≤ q) : truncate q = ⌊q⌋ := by
  unfold truncate; simp [h]

theorem truncate_of_neg (q : ℚ) (h : q < 0) : truncate q = ⌈q⌉ := by
  unfold truncate; simp [not_le.mpr h]

/-- Adding one half and truncating is the identity on the non-negative integers and
the successor on the negative ones. -/
theorem truncate_int_add_half (z : Int) :
    truncate ((z : ℚ) + 0.5) = if 0 ≤ z then z else z + 1 := by
  have hfl : ⌊(0.5 : ℚ)⌋ = 0 := by rw [Int.floor_eq_iff]; norm_num
  have hce : ⌈(0.5 : ℚ)⌉ = 1 := by rw [Int.ceil_eq_iff]; norm_num
  by_cases hz : 0 ≤ z
  · have hq : (0 : ℚ) ≤ (z : ℚ) + 0.5 := by
      have : (0 : ℚ) ≤ (z : ℚ) := by exact_mod_cast hz
      norm_num; linarith
    rw [truncate_of_nonneg _ hq, Int.floor_int_add, hfl]; simp [hz]
  · have hz1 : z ≤ -1 := by omega
    have hq : (z : ℚ) + 0.5 < 0 := by
      have : (z : ℚ) ≤ -1 := by exact_mod_cast hz1
      norm_num; linarith
    rw [truncate_of_neg _ hq, add_comm, Int.ceil_add_int, hce]; simp [hz, add_comm]

theorem EffectEqualizer.command_get (E : Env F Cfg) (hE : E.distinct) (s : EffectEqualizer F)
    (cmdSize : Nat) (d : CmdData Cfg) :
    EffectEqualizer.command E s E.EFFECT_CMD_GET_PARAM cmdSize d
      = (0, s, EffectEqualizer.getParam E s d.param) := by
  have h := hE.1
  simp [EffectEqualizer.command, Ne.symm h]

theorem EffectEqualizer.command_set (E : Env F Cfg) (hE : E.distinct) (s : EffectEqualizer F)
    (cmdSize : Nat) (d : CmdData Cfg) :
    EffectEqualizer.command E s E.EFFECT_CMD_SET_PARAM cmdSize d
      = (0, (EffectEqualizer.setParam E s d.param).1,
          (EffectEqualizer.setParam E s d.param).2) := by
  have h1 := hE.2.1
  have h2 := hE.2.2.1
  simp [EffectEqualizer.command, Ne.symm h1, Ne.symm h2]

end Lemmas

/-! ## The control protocol -/

section Protocol

variable {F Cfg : Type}

open EffectEqualizer

/-- What `getParam` replies to a well-formed `BAND_LEVEL` request. -/
theorem EffectEqualizer.getParam_band_level (E : Env F Cfg) (s : EffectEqualizer F)
    (cep : effect_param_t) (h8 : cep.psize = 8) (hc : cep.word3 = E.EQ_PARAM_BAND_LEVEL)
    (hb : 0 ≤ cep.word4 ∧ cep.word4 < 6) :
    getParam E s cep
      = Reply.reply2x4_1x2 0 2 (toInt16 (s.mBand (bandIndex cep.word4 hb) * 100 + 0.5)) := by
  unfold getParam
  simp [h8, hc, hb]

/-- What `setParam` does with a well-formed `BAND_LEVEL` request. -/
theorem EffectEqualizer.setParam_band_level (E : Env F Cfg) (s : EffectEqualizer F)
    (cep : effect_param_t) (h8 : cep.psize = 8) (h2 : cep.vsize = 2)
    (hc : cep.word3 = E.EQ_PARAM_BAND_LEVEL) (hb : 0 ≤ cep.word4 ∧ cep.word4 < 6) :
    setParam E s cep
      = ({ s with mBand := Function.update s.mBand (bandIndex cep.word4 hb)
                              ((cep.half10 : ℚ) / 100) }, Reply.status 0) := by
  unfold setParam
  simp [h8, h2, hc, hb]

/-- What `setParam` does with a well-formed `LOUDNESS_CORRECTION` request. -/
theorem EffectEqualizer.setParam_loudness (E : Env F Cfg) (s : EffectEqualizer F)
    (cep : effect_param_t) (h4 : cep.psize = 4) (h2 : cep.vsize = 2)
    (hc : cep.word3 = E.CUSTOM_EQ_PARAM_LOUDNESS_CORRECTION) :
    setParam E s cep
      = ({ s with mLoudnessAdjustment := (cep.half8 : ℚ) / 100 }, Reply.status 0) := by
  unfold setParam
  simp [h4, h2, hc]

/-- The value `getParam` computes from a band gain of `v` hundredths. -/
theorem toInt16_hundredths (v : Int) (hv : -32768 ≤ v ∧ v ≤ 32766) :
    toInt16 ((v : ℚ) / 100 * 100 + 0.5) = if 0 ≤ v then v else v + 1 := by
  have h : (v : ℚ) / 100 * 100 = (v : ℚ) := by field_simp
  rw [h]
  unfold toInt16
  rw [truncate_int_add_half]
  split <;> exact wrapInt16_of_range _ (by omega)

/-- A `BAND_LEVEL` set of `V` followed by a `BAND_LEVEL` get of the same band replies
`V` for `V ≥ 0` and `V + 1` for `V < 0`. -/
theorem EffectEqualizer.band_level_set_get (E : Env F Cfg) (hE : E.distinct)
    (s : EffectEqualizer F) (szSet szGet : Nat) (dSet dGet : CmdData Cfg) (band V : Int)
    (hband : 0 ≤ band ∧ band < 6) (hV : -32768 ≤ V ∧ V ≤ 32766)
    (hSet : dSet.param.psize = 8 ∧ dSet.param.vsize = 2 ∧
      dSet.param.word3 = E.EQ_PARAM_BAND_LEVEL ∧ dSet.param.word4 = band ∧
      dSet.param.half10 = V)
    (hGet : dGet.param.psize = 8 ∧ dGet.param.word3 = E.EQ_PARAM_BAND_LEVEL ∧
      dGet.param.word4 = band) :
    (command E (command E s E.EFFECT_CMD_SET_PARAM szSet dSet).2.1
        E.EFFECT_CMD_GET_PARAM szGet dGet).2.2
      = Reply.reply2x4_1x2 0 2 (if 0 ≤ V then V else V + 1) := by
  obtain ⟨hs8, hs2, hsc, hsb, hsv⟩ := hSet
  obtain ⟨hg8, hgc, hgb⟩ := hGet
  have hb1 : 0 ≤ dSet.param.word4 ∧ dSet.param.word4 < 6 := by rw [hsb]; exact hband
  have hb2 : 0 ≤ dGet.param.word4 ∧ dGet.param.word4 < 6 := by rw [hgb]; exact hband
  have hidx : bandIndex dGet.param.word4 hb2 = bandIndex dSet.param.word4 hb1 := by
    simp [bandIndex, hsb, hgb]
  rw [command_set E hE, command_get E hE, setParam_band_level E s _ hs8 hs2 hsc hb1,
    getParam_band_level E _ _ hg8 hgc hb2]
  rw [hidx, hsv]
  simp only [Function.update_same]
  rw [toInt16_hundredths V hV]

/-- C1: for every band index in 0..5 and every value `V` with `-1000 ≤ V ≤ 1000`, a
set-parameter `BAND_LEVEL` request (psize 8, vsize 2) carrying `V` followed by a
get-parameter `BAND_LEVEL` request for the same band replies with status 0 and a
value `R` with `|R - V| ≤ 1`. -/
theorem C1_band_level_roundtrip (E : Env F Cfg) (hE : E.distinct) (s : EffectEqualizer F)
    (szSet szGet : Nat) (dSet dGet : CmdData Cfg) (band V : Int)
    (hband : 0 ≤ band ∧ band < 6) (hV : -1000 ≤ V ∧ V ≤ 1000)
    (hSet : dSet.param.psize = 8 ∧ dSet.param.vsize = 2 ∧
      dSet.param.word3 = E.EQ_PARAM_BAND_LEVEL ∧ dSet.param.word4 = band ∧
      dSet.param.half10 = V)
    (hGet : dGet.param.psize = 8 ∧ dGet.param.word3 = E.EQ_PARAM_BAND_LEVEL ∧
      dGet.param.word4 = band) :
    ∃ R : Int,
      (command E (command E s E.EFFECT_CMD_SET_PARAM szSet dSet).2.1
          E.EFFECT_CMD_GET_PARAM szGet dGet).2.2 = Reply.reply2x4_1x2 0 2 R ∧
      |R - V| ≤ 1 := by
  refine ⟨if 0 ≤ V then V else V + 1,
    band_level_set_get E hE s szSet szGet dSet dGet band V hband (by omega) hSet hGet, ?_⟩
  split
  · simp
  · simp

/-- C1 at a concrete request: band 3 set to -250 in the concrete environment. -/
theorem C1_band_level_roundtrip_witness :
    ∃ R : Int,
      (command testEnv (command testEnv (init testEnv) testEnv.EFFECT_CMD_SET_PARAM 22
          (mkParam 8 2 2 3 (-250))).2.1
          testEnv.EFFECT_CMD_GET_PARAM 20 (mkParam 8 0 2 3 0)).2.2
        = Reply.reply2x4_1x2 0 2 R ∧ |R - (-250)| ≤ 1 :=
  C1_band_level_roundtrip testEnv testEnv_distinct (init testEnv) 22 20
    (mkParam 8 2 2 3 (-250)) (mkParam 8 0 2 3 0) 3 (-250) (by decide) (by decide)
    (by simp [mkParam, testEnv]) (by simp [mkParam, testEnv])

/-- For a band gain `g ≥ 0` whose hundredths fit `int16_t`, the `BAND_LEVEL` get
replies the integer nearest to `g * 100`. -/
theorem EffectEqualizer.getParam_band_level_nonneg (E : Env F Cfg) (s : EffectEqualizer F)
    (cep : effect_param_t) (h8 : cep.psize = 8) (hc : cep.word3 = E.EQ_PARAM_BAND_LEVEL)
    (hb : 0 ≤ cep.word4 ∧ cep.word4 < 6)
    (hg : 0 ≤ s.mBand (bandIndex cep.word4 hb))
    (hr : round (s.mBand (bandIndex cep.word4 hb) * 100) ≤ 32767) :
    getParam E s cep
      = Reply.reply2x4_1x2 0 2 (round (s.mBand (bandIndex cep.word4 hb) * 100)) := by
  rw [getParam_band_level E s cep h8 hc hb]
  have h0 : (0 : ℚ) ≤ s.mBand (bandIndex cep.word4 hb) * 100 + 0.5 := by
    norm_num; linarith
  have hround : round (s.mBand (bandIndex cep.word4 hb) * 100)
      = ⌊s.mBand (bandIndex cep.word4 hb) * 100 + 0.5⌋ := by
    rw [round_eq]; norm_num
  have hfl : 0 ≤ ⌊s.mBand (bandIndex cep.word4 hb) * 100 + 0.5⌋ := Int.floor_nonneg.mpr h0
  unfold toInt16
  rw [truncate_of_nonneg _ h0, hround, wrapInt16_of_range]
  rw [hround] at hr
  omega

/-- C2 (the code at a negative band gain): after band 0 is set to -500 hundredths the
band gain is -5 dB, whose hundredths round to -500, and the `BAND_LEVEL` get replies
-499. -/
theorem C2_band_level_negative_gain :
    (command testEnv (init testEnv) testEnv.EFFECT_CMD_SET_PARAM 22
        (mkParam 8 2 2 0 (-500))).2.1.mBand 0 = -5 ∧
    round ((-5 : ℚ) * 100) = -500 ∧
    (command testEnv (command testEnv (init testEnv) testEnv.EFFECT_CMD_SET_PARAM 22
        (mkParam 8 2 2 0 (-500))).2.1
        testEnv.EFFECT_CMD_GET_PARAM 20 (mkParam 8 0 2 0 0)).2.2
      = Reply.reply2x4_1x2 0 2 (-499) := by
  refine ⟨?_, ?_, ?_⟩
  · rw [command_set testEnv testEnv_distinct,
      setParam_band_level testEnv _ _ rfl rfl rfl (by simp [mkParam])]
    simp [bandIndex, mkParam]
    norm_num
  · have h : ((-5 : ℚ) * 100) = ((-500 : Int) : ℚ) := by norm_num
    rw [h, round_intCast]
  · exact band_level_set_get testEnv testEnv_distinct (init testEnv) 22 20
      (mkParam 8 2 2 0 (-500)) (mkParam 8 0 2 0 0) 0 (-500) (by decide) (by decide)
      (by simp [mkParam, testEnv]) (by simp [mkParam, testEnv])

end Protocol

section ProtocolErrors

variable {F Cfg : Type}

open EffectEqualizer

/-- C3: a get-parameter request returns 0 and leaves the state alone; a request of the
protocol table (psize 4 with `NUM_BANDS`, `LEVEL_RANGE` or `NUM_PRESETS`; psize 8 with
`BAND_LEVEL` or `CENTER_FREQ` and band index in 0..5) is answered with status 0, and
every other request, a band index outside 0..5 included, with status `-EINVAL` and
value size 0. -/
theorem C3_get_param_status (E : Env F Cfg) (hE : E.distinct) (s : EffectEqualizer F)
    (cmdSize : Nat) (d : CmdData Cfg) :
    (command E s E.EFFECT_CMD_GET_PARAM cmdSize d).1 = 0 ∧
    (command E s E.EFFECT_CMD_GET_PARAM cmdSize d).2.1 = s ∧
    ((supportedGet E d.param ∧
        (command E s E.EFFECT_CMD_GET_PARAM cmdSize d).2.2.getStatus = some 0) ∨
     (¬ supportedGet E d.param ∧
        (command E s E.EFFECT_CMD_GET_PARAM cmdSize d).2.2
          = Reply.effect_param (-E.EINVAL) 0)) := by
  rw [command_get E hE]
  refine ⟨rfl, rfl, ?_⟩
  simp only [supportedGet, getParam]
  (split_ifs <;> simp_all [Reply.getStatus]); tauto

/-- C3 at a concrete request: `BAND_LEVEL` for band 6 in the concrete environment. -/
theorem C3_get_param_status_witness :
    (command testEnv (init testEnv) testEnv.EFFECT_CMD_GET_PARAM 20 (mkParam 8 0 2 6 0)).1 = 0 ∧
    (command testEnv (init testEnv) testEnv.EFFECT_CMD_GET_PARAM 20 (mkParam 8 0 2 6 0)).2.1
      = init testEnv ∧
    ((supportedGet testEnv (mkParam 8 0 2 6 0).param ∧
        (command testEnv (init testEnv) testEnv.EFFECT_CMD_GET_PARAM 20
          (mkParam 8 0 2 6 0)).2.2.getStatus = some 0) ∨
     (¬ supportedGet testEnv (mkParam 8 0 2 6 0).param ∧
        (command testEnv (init testEnv) testEnv.EFFECT_CMD_GET_PARAM 20 (mkParam 8 0 2 6 0)).2.2
          = Reply.effect_param (-testEnv.EINVAL) 0)) :=
  C3_get_param_status testEnv testEnv_distinct (init testEnv) 20 (mkParam 8 0 2 6 0)

/-- C4: a set-parameter request returns 0; its reply status is 0 if and only if the
request is (psize 4, vsize 2, `LOUDNESS_CORRECTION`) or (psize 8, vsize 2, `BAND_LEVEL`,
band index in 0..5); every other request is answered with status `-EINVAL` and leaves
the whole state as it was. -/
theorem C4_set_param_status (E : Env F Cfg) (hE : E.distinct) (s : EffectEqualizer F)
    (cmdSize : Nat) (d : CmdData Cfg) :
    (command E s E.EFFECT_CMD_SET_PARAM cmdSize d).1 = 0 ∧
    ((command E s E.EFFECT_CMD_SET_PARAM cmdSize d).2.2.getStatus = some 0
      ↔ supportedSet E d.param) ∧
    (supportedSet E d.param ∨
      ((command E s E.EFFECT_CMD_SET_PARAM cmdSize d).2.2 = Reply.status (-E.EINVAL) ∧
       (command E s E.EFFECT_CMD_SET_PARAM cmdSize d).2.1 = s)) := by
  have hinv : E.EINVAL ≠ 0 := hE.2.2.2.2.2.2.2.1
  rw [command_set E hE]
  refine ⟨rfl, ?_, ?_⟩
  · simp only [supportedSet, setParam]
    (split_ifs <;> simp_all [Reply.getStatus])
  · simp only [supportedSet, setParam]
    (split_ifs <;> simp_all)

/-- C4 at a concrete request: `BAND_LEVEL` with value size 4 in the concrete environment. -/
theorem C4_set_param_status_witness :
    (command testEnv (init testEnv) testEnv.EFFECT_CMD_SET_PARAM 24 (mkParam 8 4 2 1 300)).1 = 0 ∧
    ((command testEnv (init testEnv) testEnv.EFFECT_CMD_SET_PARAM 24
        (mkParam 8 4 2 1 300)).2.2.getStatus = some 0
      ↔ supportedSet testEnv (mkParam 8 4 2 1 300).param) ∧
    (supportedSet testEnv (mkParam 8 4 2 1 300).param ∨
      ((command testEnv (init testEnv) testEnv.EFFECT_CMD_SET_PARAM 24 (mkParam 8 4 2 1 300)).2.2
          = Reply.status (-testEnv.EINVAL) ∧
       (command testEnv (init testEnv) testEnv.EFFECT_CMD_SET_PARAM 24 (mkParam 8 4 2 1 300)).2.1
          = init testEnv)) :=
  C4_set_param_status testEnv testEnv_distinct (init testEnv) 24 (mkParam 8 4 2 1 300)

/-- C5: a successful set-parameter changes exactly the addressed field. `BAND_LEVEL`
for band `k` with value `v` makes `mBand[k] = v / 100` and keeps the other five band
gains and every other member; `LOUDNESS_CORRECTION` with value `v` makes
`mLoudnessAdjustment = v / 100` and keeps every other member, the six band gains
included. -/
theorem C5_set_param_frame (E : Env F Cfg) (hE : E.distinct) (s : EffectEqualizer F)
    (cmdSize : Nat) (dBand dLoud : CmdData Cfg) (k : Fin 6)
    (hBand : dBand.param.psize = 8 ∧ dBand.param.vsize = 2 ∧
      dBand.param.word3 = E.EQ_PARAM_BAND_LEVEL ∧ dBand.param.word4 = (k : Int))
    (hLoud : dLoud.param.psize = 4 ∧ dLoud.param.vsize = 2 ∧
      dLoud.param.word3 = E.CUSTOM_EQ_PARAM_LOUDNESS_CORRECTION) :
    ((command E s E.EFFECT_CMD_SET_PARAM cmdSize dBand).2.1
        = { s with mBand := Function.update s.mBand k ((dBand.param.half10 : ℚ) / 100) } ∧
      (command E s E.EFFECT_CMD_SET_PARAM cmdSize dBand).2.1.mBand k
        = (dBand.param.half10 : ℚ) / 100 ∧
      ∀ j : Fin 6, j ≠ k →
        (command E s E.EFFECT_CMD_SET_PARAM cmdSize dBand).2.1.mBand j = s.mBand j) ∧
    ((command E s E.EFFECT_CMD_SET_PARAM cmdSize dLoud).2.1
        = { s with mLoudnessAdjustment := (dLoud.param.half8 : ℚ) / 100 } ∧
      (command E s E.EFFECT_CMD_SET_PARAM cmdSize dLoud).2.1.mLoudnessAdjustment
        = (dLoud.param.half8 : ℚ) / 100 ∧
      (command E s E.EFFECT_CMD_SET_PARAM cmdSize dLoud).2.1.mBand = s.mBand) := by
  obtain ⟨hb8, hb2, hbc, hbk⟩ := hBand
  obtain ⟨hl4, hl2, hlc⟩ := hLoud
  have hk : 0 ≤ dBand.param.word4 ∧ dBand.param.word4 < 6 := by
    rw [hbk]; have := k.isLt; omega
  have hidx : bandIndex dBand.param.word4 hk = k := by
    apply Fin.ext; simp [bandIndex, hbk]
  rw [command_set E hE, command_set E hE, setParam_band_level E s _ hb8 hb2 hbc hk,
    setParam_loudness E s _ hl4 hl2 hlc, hidx]
  refine ⟨⟨rfl, ?_, ?_⟩, rfl, rfl, rfl⟩
  · simp
  · intro j hj
    simp [Function.update_noteq hj]

/-- C5 at concrete requests: band 2 set to 750 and the loudness reference set to 9000
in the concrete environment. -/
theorem C5_set_param_frame_witness :
    ((command testEnv (init testEnv) testEnv.EFFECT_CMD_SET_PARAM 22 (mkParam 8 2 2 2 750)).2.1
        = { init testEnv with
            mBand := Function.update (init testEnv).mBand 2
              (((mkParam 8 2 2 2 750).param.half10 : ℚ) / 100) } ∧
      (command testEnv (init testEnv) testEnv.EFFECT_CMD_SET_PARAM 22
          (mkParam 8 2 2 2 750)).2.1.mBand 2
        = (((mkParam 8 2 2 2 750).param.half10 : ℚ)) / 100 ∧
      ∀ j : Fin 6, j ≠ 2 →
        (command testEnv (init testEnv) testEnv.EFFECT_CMD_SET_PARAM 22
          (mkParam 8 2 2 2 750)).2.1.mBand j = (init testEnv).mBand j) ∧
    ((command testEnv (init testEnv) testEnv.EFFECT_CMD_SET_PARAM 22
          (mkParam 4 2 1000 0 9000)).2.1
        = { init testEnv with
            mLoudnessAdjustment := (((mkParam 4 2 1000 0 9000).param.half8 : ℚ)) / 100 } ∧
      (command testEnv (init testEnv) testEnv.EFFECT_CMD_SET_PARAM 22
          (mkParam 4 2 1000 0 9000)).2.1.mLoudnessAdjustment
        = (((mkParam 4 2 1000 0 9000).param.half8 : ℚ)) / 100 ∧
      (command testEnv (init testEnv) testEnv.EFFECT_CMD_SET_PARAM 22
          (mkParam 4 2 1000 0 9000)).2.1.mBand = (init testEnv).mBand) :=
  C5_set_param_frame testEnv testEnv_distinct (init testEnv) 22
    (mkParam 8 2 2 2 750) (mkParam 4 2 1000 0 9000) 2
    (by simp [mkParam, testEnv]) (by simp [mkParam, testEnv])

end ProtocolErrors

/-! ## The curve engine -/

section Curve

variable {F Cfg : Type}

open EffectEqualizer

theorem arrayAt_fin {n : Nat} {α : Type} (a : Fin n → α) (i : Fin n) :
    arrayAt a ((i : Nat) : Int) = some (a i) := by
  have h : 0 ≤ ((i : Nat) : Int) ∧ ((i : Nat) : Int) < (n : Int) := by
    have := i.isLt; omega
  unfold arrayAt
  rw [dif_pos h]
  simp

theorem arrayAt_eq_none {n : Nat} {α : Type} (a : Fin n → α) (i : Int)
    (h : i < 0 ∨ (n : Int) ≤ i) : arrayAt a i = none := by
  unfold arrayAt
  rw [dif_neg (by omega)]

/-- Inside the tables `getAdjustedBand` returns the user gain plus the compensation,
scaled by the fade. -/
theorem EffectEqualizer.getAdjustedBand_fin (s : EffectEqualizer F) (band : Fin 6)
    (loudness : ℚ) :
    getAdjustedBand s ((band : Nat) : Int) loudness
      = some (getAdjustedBandIn s band loudness) := by
  unfold getAdjustedBand getAdjustedBandIn compensation
  simp only [arrayAt_fin, Option.some_bind]

theorem adj_beg_eq_specTable (b : Fin 6) : adj_beg b = (specTable b).1 := by
  fin_cases b
  · show (0.0 : ℚ) = 0; norm_num
  · show (0.0 : ℚ) = 0; norm_num
  · show (0.0 : ℚ) = 0; norm_num
  · show (0.0 : ℚ) = 0; norm_num
  · show (-1.0 : ℚ) = -1; norm_num
  · show (-1.5 : ℚ) = -1.5; rfl

theorem adj_end_eq_specTable (b : Fin 6) : adj_end b = (specTable b).2 := by
  fin_cases b
  · show (42.3 : ℚ) = 42.3; rfl
  · show (28.0 : ℚ) = 28.0; rfl
  · show (10.0 : ℚ) = 10.0; rfl
  · show (0.0 : ℚ) = 0.0; rfl
  · show (-3.0 : ℚ) = -3.0; rfl
  · show (8.0 : ℚ) = 8.0; rfl

/-- The two clamping steps of source lines 215-220 are `clamp(x, 20, 100)`. -/
theorem clamp_eq_specLevel (x : ℚ) :
    (if (if x > 100 then 100 else x) < 20 then 20 else (if x > 100 then (100 : ℚ) else x))
      = max 20 (min x 100) := by
  by_cases h1 : x > 100
  · have h2 : min x 100 = 100 := min_eq_right (le_of_lt h1)
    rw [if_pos h1, h2]
    norm_num
  · have h1' : x ≤ 100 := not_lt.mp h1
    rw [if_neg h1, min_eq_left h1']
    by_cases h2 : x < 20
    · rw [if_pos h2, max_eq_left (le_of_lt h2)]
    · rw [if_neg h2, max_eq_right (not_lt.mp h2)]

theorem specLevel_bounds (L r : ℚ) : 20 ≤ specLevel L r ∧ specLevel L r ≤ 100 := by
  unfold specLevel
  refine ⟨le_max_left _ _, max_le (by norm_num) (min_le_right _ _)⟩

theorem EffectEqualizer.compensation_eq_spec (s : EffectEqualizer F) (b : Fin 6) (L : ℚ) :
    compensation s b L
      = (specTable b).1 + ((specTable b).2 - (specTable b).1)
          * (1 - specT L s.mLoudnessAdjustment) := by
  unfold compensation specT specLevel
  simp only []
  rw [clamp_eq_specLevel, adj_beg_eq_specTable, adj_end_eq_specTable]
  norm_num

/-- C8: for every band index `b` in 0..5, every loudness estimate `L` and every state,
`getAdjustedBand(b, L)` is `(bandGain[b] + low_b + (high_b - low_b) * (1 - t)) *
fadeLevel / 100` with `level = clamp(L + loudnessReference, 20, 100)`,
`t = (level - 20) / 80` and `(low_b, high_b)` the `b`-th pair of the table; and
`0 ≤ t ≤ 1`. -/
theorem C8_getAdjustedBand_formula (s : EffectEqualizer F) (b : Fin 6) (L : ℚ) :
    getAdjustedBand s ((b : Nat) : Int) L
      = some (specAdjustedGain s.mBand s.mLoudnessAdjustment s.mFade b L) ∧
    specAdjustedGain s.mBand s.mLoudnessAdjustment s.mFade b L
      = (s.mBand b + (specTable b).1 + ((specTable b).2 - (specTable b).1)
          * (1 - (max 20 (min (L + s.mLoudnessAdjustment) 100) - 20) / 80))
        * (s.mFade : ℚ) / 100 ∧
    0 ≤ specT L s.mLoudnessAdjustment ∧ specT L s.mLoudnessAdjustment ≤ 1 := by
  have hb := specLevel_bounds L s.mLoudnessAdjustment
  refine ⟨?_, ?_, ?_, ?_⟩
  · rw [getAdjustedBand_fin]
    unfold getAdjustedBandIn
    rw [compensation_eq_spec]
    unfold specAdjustedGain
    simp only []
    congr 1
    ring
  · unfold specAdjustedGain specT specLevel
    simp only []
    ring
  · unfold specT
    apply div_nonneg _ (by norm_num)
    linarith [hb.1]
  · unfold specT
    rw [div_le_one (by norm_num)]
    linarith [hb.2]

theorem specT_mono (L1 L2 r : ℚ) (h : L1 ≤ L2) : specT L1 r ≤ specT L2 r := by
  unfold specT specLevel
  have h1 : max 20 (min (L1 + r) 100) ≤ max 20 (min (L2 + r) 100) :=
    max_le_max le_rfl (min_le_min (by linarith) le_rfl)
  apply div_le_div_of_nonneg_right _ (by norm_num)
  linarith

theorem specT_of_ge (L r : ℚ) (h : 100 ≤ L + r) : specT L r = 1 := by
  unfold specT specLevel
  rw [min_eq_right h]
  norm_num

theorem specT_of_le (L r : ℚ) (h : L + r ≤ 20) : specT L r = 0 := by
  unfold specT specLevel
  rw [min_eq_left (by linarith), max_eq_left h]
  norm_num

/-- The sign of the slope `adj_end - adj_beg` of each band: negative for band 4 only. -/
theorem specTable_slope (b : Fin 6) :
    if b = 4 then (specTable b).2 - (specTable b).1 ≤ 0
    else 0 ≤ (specTable b).2 - (specTable b).1 := by
  fin_cases b
  · show (0 : ℚ) ≤ 42.3 - 0; norm_num
  · show (0 : ℚ) ≤ 28.0 - 0; norm_num
  · show (0 : ℚ) ≤ 10.0 - 0; norm_num
  · show (0 : ℚ) ≤ 0.0 - 0; norm_num
  · show (-3.0 : ℚ) - (-1) ≤ 0; norm_num
  · show (0 : ℚ) ≤ 8.0 - (-1.5); norm_num

/-- C7 (as stated, refuted): with fade 100, user gains 0 and loudness reference 0, at
`loudnessEstimate + loudnessReference = 100` band 0 gets compensation 0, not the
second table element 42.3; and the compensation of band 4 rises from -3 at loudness 20
to -1 at loudness 100. -/
theorem C7_compensation_counterexample :
    fullFadeState.mFade = 100 ∧ fullFadeState.mBand = (fun _ => 0) ∧
    (100 : ℚ) + fullFadeState.mLoudnessAdjustment = 100 ∧
    getAdjustedBand fullFadeState 0 100 = some 0 ∧ (specTable 0).2 = 42.3 ∧
    getAdjustedBand fullFadeState 4 20 = some (-3) ∧
    getAdjustedBand fullFadeState 4 100 = some (-1) := by
  have h0 := getAdjustedBand_fin fullFadeState 0 100
  have h1 := getAdjustedBand_fin fullFadeState 4 20
  have h2 := getAdjustedBand_fin fullFadeState 4 100
  have t0 : specT 100 fullFadeState.mLoudnessAdjustment = 1 :=
    specT_of_ge _ _ (by norm_num [fullFadeState])
  have t1 : specT 20 fullFadeState.mLoudnessAdjustment = 0 :=
    specT_of_le _ _ (by norm_num [fullFadeState])
  have b0 : (specTable 0).1 = 0 := rfl
  have e0 : (specTable 0).2 = 42.3 := rfl
  have b4 : (specTable 4).1 = -1 := rfl
  have e4 : (specTable 4).2 = -3.0 := rfl
  unfold getAdjustedBandIn at h0 h1 h2
  rw [compensation_eq_spec] at h0 h1 h2
  rw [t0, b0, e0] at h0
  rw [t1, b4, e4] at h1
  rw [t0, b4, e4] at h2
  refine ⟨rfl, rfl, by norm_num [fullFadeState], ?_, rfl, ?_, ?_⟩
  · rw [show (0 : Int) = (((0 : Fin 6) : Nat) : Int) from rfl, h0]
    norm_num [fullFadeState, init]
  · rw [show (4 : Int) = (((4 : Fin 6) : Nat) : Int) from rfl, h1]
    norm_num [fullFadeState, init]
  · rw [show (4 : Int) = (((4 : Fin 6) : Nat) : Int) from rfl, h2]
    norm_num [fullFadeState, init]

/-- C7 (amended): with `fadeLevel = 100`, `getAdjustedBand` is the user band gain plus a
compensation that, as the loudness estimate increases, is non-increasing for bands
0, 1, 2, 3 and 5 and non-decreasing for band 4; the compensation equals the first
element of the band's table pair whenever `loudnessEstimate + loudnessReference ≥ 100`
and the second element whenever `loudnessEstimate + loudnessReference ≤ 20`. -/
theorem C7_compensation_amended (s : EffectEqualizer F) (b : Fin 6) (hfade : s.mFade = 100) :
    (∀ L : ℚ, getAdjustedBand s ((b : Nat) : Int) L = some (s.mBand b + compensation s b L)) ∧
    (∀ L1 L2 : ℚ, L1 ≤ L2 →
      if b = 4 then compensation s b L1 ≤ compensation s b L2
      else compensation s b L2 ≤ compensation s b L1) ∧
    (∀ L : ℚ, 100 ≤ L + s.mLoudnessAdjustment → compensation s b L = (specTable b).1) ∧
    (∀ L : ℚ, L + s.mLoudnessAdjustment ≤ 20 → compensation s b L = (specTable b).2) := by
  refine ⟨?_, ?_, ?_, ?_⟩
  · intro L
    rw [getAdjustedBand_fin]
    unfold getAdjustedBandIn
    rw [hfade]
    norm_num
  · intro L1 L2 h
    have hm := specT_mono L1 L2 s.mLoudnessAdjustment h
    have hs := specTable_slope b
    rw [compensation_eq_spec, compensation_eq_spec]
    split_ifs with hb
    · rw [if_pos hb] at hs
      nlinarith
    · rw [if_neg hb] at hs
      nlinarith
  · intro L h
    rw [compensation_eq_spec, specT_of_ge _ _ h]
    ring
  · intro L h
    rw [compensation_eq_spec, specT_of_le _ _ h]
    ring

/-- C7 (amended) at band 0 of the full-fade state, for the loudness pairs 50 ≤ 60 and
the endpoints 100 and 20. -/
theorem C7_compensation_amended_witness :
    fullFadeState.mFade = 100 ∧
    getAdjustedBand fullFadeState 0 50
      = some (fullFadeState.mBand 0 + compensation fullFadeState 0 50) ∧
    compensation fullFadeState 0 60 ≤ compensation fullFadeState 0 50 ∧
    compensation fullFadeState 0 100 = (specTable 0).1 ∧
    compensation fullFadeState 0 20 = (specTable 0).2 :=
  ⟨rfl, (C7_compensation_amended fullFadeState 0 rfl).1 50,
    by simpa using (C7_compensation_amended fullFadeState 0 rfl).2.1 50 60 (by norm_num),
    (C7_compensation_amended fullFadeState 0 rfl).2.2.1 100 (by norm_num [fullFadeState]),
    (C7_compensation_amended fullFadeState 0 rfl).2.2.2 20 (by norm_num [fullFadeState])⟩

end Curve

/-! ## Band refresh and the update window -/

section Refresh

variable {F Cfg : Type}

open EffectEqualizer

/-- For a shelf in 0..4 every table read of `shelfArgs` is inside the tables. -/
theorem EffectEqualizer.shelfArgs_fin (s : EffectEqualizer F) (band : Fin 5) (loudness : ℚ) :
    shelfArgs s ((band : Nat) : Int) loudness = some (shelfArgsIn s band loudness) := by
  have h1 : ((band : Nat) : Int) + 1 = (((band.succ : Fin 6) : Nat) : Int) := by
    simp
  have h2 : ((band : Nat) : Int) = (((band.castSucc : Fin 6) : Nat) : Int) := by
    simp
  have h0 : (0 : Int) = (((0 : Fin 6) : Nat) : Int) := rfl
  have hz : (((band : Nat) : Int) = 0) ↔ band = 0 := by
    constructor
    · intro h; apply Fin.ext; simp; omega
    · intro h; rw [h]; rfl
  unfold shelfArgs shelfArgsIn
  simp only []
  rw [h1, getAdjustedBand_fin]
  nth_rewrite 1 [h2]
  rw [getAdjustedBand_fin, h0, getAdjustedBand_fin]
  by_cases hb : band = 0
  · simp [hb]
  · simp [hb, hz]

theorem EffectEqualizer.refreshBand_eq (E : Env F Cfg) (s : EffectEqualizer F) (band : Fin 5) :
    refreshBand E s band = some { s with
      mFilterL := Function.update s.mFilterL band
        (E.setHighShelf (s.mFilterL band) (shelfArgsIn s band s.mLoudnessL))
      mFilterR := Function.update s.mFilterR band
        (E.setHighShelf (s.mFilterR band) (shelfArgsIn s band s.mLoudnessR)) } := by
  unfold refreshBand
  rw [shelfArgs_fin, shelfArgs_fin]
  rfl

/-- The arguments of a shelf do not depend on the filters. -/
theorem EffectEqualizer.shelfArgsIn_filters (s : EffectEqualizer F) (fL fR : Fin 5 → F)
    (band : Fin 5) (loudness : ℚ) :
    shelfArgsIn { s with mFilterL := fL, mFilterR := fR } band loudness
      = shelfArgsIn s band loudness := rfl

/-- The function `refreshBands` always returns: it reconfigures each of the ten filters
with the arguments of its shelf and changes nothing else. -/
theorem EffectEqualizer.refreshBands_eq (E : Env F Cfg) (s : EffectEqualizer F) :
    refreshBands E s = some { s with
      mFilterL := fun j => E.setHighShelf (s.mFilterL j) (shelfArgsIn s j s.mLoudnessL)
      mFilterR := fun j => E.setHighShelf (s.mFilterR j) (shelfArgsIn s j s.mLoudnessR) } := by
  unfold refreshBands
  simp only [List.foldlM, refreshBand_eq, Option.bind_eq_bind, Option.some_bind, Option.pure_def,
    shelfArgsIn_filters]
  congr 2
  · funext j
    fin_cases j <;> simp [Function.update]
  · funext j
    fin_cases j <;> simp [Function.update]

/-- The two guarded steps of `mFade` as one case distinction. -/
theorem EffectEqualizer.fadeStep_eq (enable : Bool) (fade : Int) :
    fadeStep enable fade
      = if enable = true ∧ fade < 100 then fade + 1
        else if enable = false ∧ 0 < fade then fade - 1 else fade := by
  unfold fadeStep
  cases enable <;> simp

theorem EffectEqualizer.fadeStep_range (enable : Bool) (fade : Int)
    (h : 0 ≤ fade ∧ fade ≤ 100) :
    0 ≤ fadeStep enable fade ∧ fadeStep enable fade ≤ 100 := by
  rw [fadeStep_eq]
  split_ifs <;> omega

theorem EffectEqualizer.updateLoudnessEstimate_isSome (E : Env F Cfg) (s : EffectEqualizer F)
    (loudness : ℚ) (powerSquared : Int) (h : s.mNextUpdateInterval ≠ 0) :
    ∃ l, updateLoudnessEstimate E s loudness powerSquared = some l := by
  unfold updateLoudnessEstimate
  rw [if_neg h]
  simp only []
  split_ifs
  · exact ⟨_, rfl⟩
  · exact ⟨_, rfl⟩

/-- One rollover with a nonzero interval returns, and what it leaves in each member. -/
theorem EffectEqualizer.updateWindow_some (E : Env F Cfg) (s : EffectEqualizer F)
    (h : s.mNextUpdateInterval ≠ 0) :
    ∃ s1, updateWindow E s = some s1 ∧
      s1.toEffect = s.toEffect ∧ s1.mBand = s.mBand ∧
      s1.mLoudnessAdjustment = s.mLoudnessAdjustment ∧
      s1.mNextUpdate = s.mNextUpdateInterval ∧
      s1.mNextUpdateInterval = s.mNextUpdateInterval ∧
      s1.mPowerSquaredL = 0 ∧ s1.mPowerSquaredR = 0 ∧
      s1.mFade = fadeStep s.mEnable s.mFade ∧
      updateLoudnessEstimate E s s.mLoudnessL s.mPowerSquaredL = some s1.mLoudnessL ∧
      updateLoudnessEstimate E s s.mLoudnessR s.mPowerSquaredR = some s1.mLoudnessR := by
  obtain ⟨l, hl⟩ := updateLoudnessEstimate_isSome E s s.mLoudnessL s.mPowerSquaredL h
  obtain ⟨r, hr⟩ := updateLoudnessEstimate_isSome E s s.mLoudnessR s.mPowerSquaredR h
  have hl1 : updateLoudnessEstimate E { s with mNextUpdate := s.mNextUpdateInterval }
      s.mLoudnessL s.mPowerSquaredL = some l := hl
  have hr1 : updateLoudnessEstimate E { s with mNextUpdate := s.mNextUpdateInterval }
      s.mLoudnessR s.mPowerSquaredR = some r := hr
  unfold updateWindow
  simp only [hl1, hr1, Option.some_bind, refreshBands_eq]
  exact ⟨_, rfl, rfl, rfl, rfl, rfl, rfl, rfl, rfl, rfl, hl, hr⟩

/-- One frame with a nonzero interval returns, and what it leaves in each member the
filters apart: a rollover happens exactly when the countdown is 0. -/
theorem EffectEqualizer.processFrame_some (E : Env F Cfg) (s : EffectEqualizer F)
    (frame : Int × Int) (h : s.mNextUpdateInterval ≠ 0) :
    ∃ r, processFrame E s frame = some r ∧
      r.1.toEffect = s.toEffect ∧ r.1.mBand = s.mBand ∧
      r.1.mLoudnessAdjustment = s.mLoudnessAdjustment ∧
      r.1.mNextUpdateInterval = s.mNextUpdateInterval ∧
      r.1.mNextUpdate
        = wrapInt32 ((if s.mNextUpdate = 0 then s.mNextUpdateInterval else s.mNextUpdate) - 1) ∧
      r.1.mFade = (if s.mNextUpdate = 0 then fadeStep s.mEnable s.mFade else s.mFade) ∧
      r.1.mPowerSquaredL
        = wrapInt64 ((if s.mNextUpdate = 0 then 0 else s.mPowerSquaredL) + frame.1 * frame.1) ∧
      r.1.mPowerSquaredR
        = wrapInt64 ((if s.mNextUpdate = 0 then 0 else s.mPowerSquaredR) + frame.2 * frame.2) ∧
      (if s.mNextUpdate = 0
        then updateLoudnessEstimate E s s.mLoudnessL s.mPowerSquaredL = some r.1.mLoudnessL ∧
          updateLoudnessEstimate E s s.mLoudnessR s.mPowerSquaredR = some r.1.mLoudnessR
        else r.1.mLoudnessL = s.mLoudnessL ∧ r.1.mLoudnessR = s.mLoudnessR) := by
  unfold processFrame
  by_cases hc : s.mNextUpdate = 0
  · obtain ⟨s1, hs1, h1, h2, h3, h4, h5, h6, h7, h8, h9, h10⟩ := updateWindow_some E s h
    simp only [hc, if_true, hs1, Option.some_bind]
    refine ⟨_, rfl, h1, h2, h3, h5, ?_, h8, ?_, ?_, h9, h10⟩
    · simp only [h4]
    · simp only [h6]
    · simp only [h7]
  · simp only [hc, if_false, Option.some_bind]
    exact ⟨_, rfl, rfl, rfl, rfl, rfl, rfl, rfl, rfl, rfl, rfl, rfl⟩

/-- With a nonzero interval `processLoop` returns for every buffer, writes one frame
per frame read, keeps the base state, the parameter store and the interval, and keeps
a fade in [0, 100] in [0, 100]. -/
theorem EffectEqualizer.processLoop_some (E : Env F Cfg) (input : List (Int × Int)) :
    ∀ s : EffectEqualizer F, s.mNextUpdateInterval ≠ 0 →
    ∃ r, processLoop E s input = some r ∧
      r.1.toEffect = s.toEffect ∧ r.1.mBand = s.mBand ∧
      r.1.mLoudnessAdjustment = s.mLoudnessAdjustment ∧
      r.1.mNextUpdateInterval = s.mNextUpdateInterval ∧
      r.2.length = input.length ∧
      (0 ≤ s.mFade ∧ s.mFade ≤ 100 → 0 ≤ r.1.mFade ∧ r.1.mFade ≤ 100) := by
  induction input with
  | nil =>
    intro s _
    exact ⟨(s, []), rfl, rfl, rfl, rfl, rfl, rfl, fun hf => hf⟩
  | cons frame rest ih =>
    intro s h
    obtain ⟨r1, hr1, e1, e2, e3, e4, _, e6, _⟩ := processFrame_some E s frame h
    obtain ⟨r2, hr2, g1, g2, g3, g4, g5, g6⟩ := ih r1.1 (by rw [e4]; exact h)
    refine ⟨(r2.1, r1.2 :: r2.2), ?_, ?_, ?_, ?_, ?_, ?_, ?_⟩
    · simp only [processLoop, hr1, hr2, Option.some_bind]
    · simp only [g1, e1]
    · simp only [g2, e2]
    · simp only [g3, e3]
    · simp only [g4, e4]
    · simp only [List.length_cons, g5]
    · intro hf
      apply g6
      rw [e6]
      split_ifs
      · exact fadeStep_range _ _ hf
      · exact hf

end Refresh

/-! ## The fade state machine -/

section Fade

variable {F Cfg : Type}

open EffectEqualizer

/-- While disabled, a buffer that makes `k` rollovers lowers a fade of at least `k` by
exactly `k`. With countdown `c` and interval `N`, a buffer of `n` frames makes no
rollover when `n ≤ c` and otherwise `k ≥ 1` rollovers, where
`(k - 1) * N < n - c ≤ k * N`. -/
theorem EffectEqualizer.processLoop_fade_down (E : Env F Cfg) (input : List (Int × Int)) :
    ∀ (s : EffectEqualizer F) (k : Int),
      0 < s.mNextUpdateInterval → s.mNextUpdateInterval ≤ 2147483647 →
      0 ≤ s.mNextUpdate → s.mNextUpdate ≤ s.mNextUpdateInterval →
      s.mEnable = false → 0 ≤ k → k ≤ s.mFade →
      (1 ≤ k → (k - 1) * s.mNextUpdateInterval < (input.length : Int) - s.mNextUpdate) →
      (input.length : Int) - s.mNextUpdate ≤ k * s.mNextUpdateInterval →
      ∃ r, processLoop E s input = some r ∧ r.1.mFade = s.mFade - k := by
  induction input with
  | nil =>
    intro s k hN _ hc0 _ _ hk0 _ hlo _
    have hk : k = 0 := by
      by_contra hne
      have hk1 : 1 ≤ k := by omega
      have h1 := hlo hk1
      have h2 : 0 ≤ (k - 1) * s.mNextUpdateInterval :=
        mul_nonneg (by omega) (le_of_lt hN)
      simp only [List.length_nil, Int.ofNat_zero] at h1
      omega
    subst hk
    exact ⟨(s, []), rfl, by simp⟩
  | cons frame rest ih =>
    intro s k hN hN32 hc0 hcN hen hk0 hkf hlo hhi
    obtain ⟨r1, hr1, e1, _, _, e4, e5, e6, _⟩ :=
      processFrame_some E s frame (ne_of_gt hN)
    have hen1 : r1.1.mEnable = false := by
      have : r1.1.mEnable = s.mEnable := by rw [e1]
      rw [this, hen]
    have hlen : ((frame :: rest).length : Int) = (rest.length : Int) + 1 := by
      simp
    rw [hlen] at hlo hhi
    by_cases hc : s.mNextUpdate = 0
    · -- a rollover: the fade steps down and the countdown restarts
      rw [hc] at hlo hhi
      have hk1 : 1 ≤ k := by
        by_contra hne
        have hk : k = 0 := by omega
        rw [hk] at hhi
        simp at hhi
        omega
      have hmul : (k - 1) * s.mNextUpdateInterval
          = k * s.mNextUpdateInterval - s.mNextUpdateInterval := by ring
      have hlo1 := hlo hk1
      rw [hmul] at hlo1
      rw [if_pos hc, wrapInt32_of_range _ (by omega)] at e5
      rw [if_pos hc, hen, fadeStep_eq] at e6
      have hf1 : r1.1.mFade = s.mFade - 1 := by
        rw [e6]
        simp
        intro h0
        omega
      obtain ⟨r2, hr2, g⟩ := ih r1.1 (k - 1) (by rw [e4]; exact hN) (by rw [e4]; exact hN32)
        (by rw [e5]; omega) (by rw [e5, e4]; omega) hen1 (by omega) (by rw [hf1]; omega)
        (by
          intro hk2
          rw [e4, e5]
          have hmul2 : (k - 1 - 1) * s.mNextUpdateInterval
              = k * s.mNextUpdateInterval - s.mNextUpdateInterval - s.mNextUpdateInterval := by
            ring
          rw [hmul2]
          omega)
        (by
          rw [e4, e5, hmul]
          omega)
      refine ⟨(r2.1, r1.2 :: r2.2), ?_, ?_⟩
      · simp only [processLoop, hr1, hr2, Option.some_bind]
      · show r2.1.mFade = s.mFade - k
        rw [g, hf1]
        ring
    · -- inside a window: only the countdown moves
      rw [if_neg hc, wrapInt32_of_range _ (by omega)] at e5
      rw [if_neg hc] at e6
      obtain ⟨r2, hr2, g⟩ := ih r1.1 k (by rw [e4]; exact hN) (by rw [e4]; exact hN32)
        (by rw [e5]; omega) (by rw [e5, e4]; omega) hen1 hk0 (by rw [e6]; exact hkf)
        (by
          intro hk1
          have := hlo hk1
          rw [e4, e5]
          omega)
        (by
          rw [e4, e5]
          omega)
      refine ⟨(r2.1, r1.2 :: r2.2), ?_, ?_⟩
      · simp only [processLoop, hr1, hr2, Option.some_bind]
      · show r2.1.mFade = s.mFade - k
        rw [g, e6]

/-- C6: the fade state machine. In `process`, a frame whose countdown is 0 (an
update-window rollover) makes `mFade` into `mFade + 1` if enabled and `mFade < 100`,
into `mFade - 1` if not enabled and `mFade > 0`, and leaves it otherwise; every other
frame leaves it; `mEnable` is not written. So a fade in [0, 100] stays in [0, 100] over
every buffer. With `mEnable = false`, starting at the beginning of a window with
`mFade = 100`, a buffer that makes `k ≤ 100` rollovers (`(k - 1) * N < n ≤ k * N`
frames, `N > 0` the interval) ends with `mFade = 100 - k`: the fade is 0 after 100
update windows and not before. The interval is nonzero throughout (a rollover divides
by it). -/
theorem C6_fade_state_machine (E : Env F Cfg) (s : EffectEqualizer F)
    (hN : s.mNextUpdateInterval ≠ 0) :
    (∃ s1, updateWindow E s = some s1 ∧ s1.mEnable = s.mEnable ∧
      s1.mFade = (if s.mEnable = true ∧ s.mFade < 100 then s.mFade + 1
        else if s.mEnable = false ∧ 0 < s.mFade then s.mFade - 1 else s.mFade)) ∧
    (∀ frame : Int × Int, ∃ r, processFrame E s frame = some r ∧ r.1.mEnable = s.mEnable ∧
      r.1.mFade = (if s.mNextUpdate = 0
        then (if s.mEnable = true ∧ s.mFade < 100 then s.mFade + 1
          else if s.mEnable = false ∧ 0 < s.mFade then s.mFade - 1 else s.mFade)
        else s.mFade)) ∧
    (0 ≤ s.mFade ∧ s.mFade ≤ 100 → ∀ input : List (Int × Int),
      ∃ r, processLoop E s input = some r ∧ r.1.mEnable = s.mEnable ∧
        0 ≤ r.1.mFade ∧ r.1.mFade ≤ 100) ∧
    (s.mEnable = false → s.mFade = 100 → s.mNextUpdate = 0 →
      0 < s.mNextUpdateInterval → s.mNextUpdateInterval ≤ 2147483647 →
      ∀ (k : Int) (input : List (Int × Int)), 0 ≤ k → k ≤ 100 →
        (k - 1) * s.mNextUpdateInterval < (input.length : Int) →
        (input.length : Int) ≤ k * s.mNextUpdateInterval →
        ∃ r, processLoop E s input = some r ∧ r.1.mEnable = false ∧
          r.1.mFade = 100 - k ∧ (r.1.mFade = 0 ↔ k = 100)) := by
  have hne : s.mNextUpdateInterval ≠ 0 := hN
  refine ⟨?_, ?_, ?_, ?_⟩
  · obtain ⟨s1, hs1, h1, _, _, _, _, _, _, h8, _⟩ := updateWindow_some E s hne
    refine ⟨s1, hs1, by rw [h1], ?_⟩
    rw [h8, fadeStep_eq]
  · intro frame
    obtain ⟨r, hr, e1, _, _, _, _, e6, _⟩ := processFrame_some E s frame hne
    refine ⟨r, hr, by rw [e1], ?_⟩
    rw [e6, fadeStep_eq]
  · intro hf input
    obtain ⟨r, hr, g1, _, _, _, _, g6⟩ := processLoop_some E input s hne
    exact ⟨r, hr, by rw [g1], g6 hf⟩
  · intro hen hf hc hpos h32 k input hk0 hk100 hlo hhi
    obtain ⟨r, hr, g⟩ := processLoop_fade_down E input s k hpos h32 (by rw [hc])
      (by rw [hc]; exact le_of_lt hpos) hen hk0 (by rw [hf]; exact hk100)
      (by intro _; rw [hc]; simpa using hlo) (by rw [hc]; simpa using hhi)
    obtain ⟨_, hr2, g1, _⟩ := processLoop_some E input s hne
    rw [hr] at hr2
    have hrr := Option.some.inj hr2
    refine ⟨r, hr, ?_, ?_, ?_⟩
    · rw [hrr, g1, hen]
    · rw [g, hf]
    · rw [g, hf]
      constructor <;> intro h <;> omega

/-- C6 on the full-fade state of the concrete environment (disabled, fade 100, interval
1000, countdown 0): a buffer of 2000 frames makes two rollovers and leaves fade 98. -/
theorem C6_fade_state_machine_witness :
    fullFadeState.mNextUpdateInterval ≠ 0 ∧
    ∃ r, processLoop testEnv fullFadeState (List.replicate 2000 (0, 0)) = some r ∧
      r.1.mEnable = false ∧ r.1.mFade = 100 - 2 ∧ (r.1.mFade = 0 ↔ (2 : Int) = 100) :=
  ⟨by decide,
    (C6_fade_state_machine testEnv fullFadeState (by decide)).2.2.2 rfl rfl rfl
      (by decide) (by decide) 2
      (List.replicate 2000 (0, 0)) (by decide) (by decide)
      (by rw [List.length_replicate]; decide) (by rw [List.length_replicate]; decide)⟩

end Fade

/-! ## The configuration command -/

section Configure

variable {F Cfg : Type}

open EffectEqualizer

/-- C9: when the base configuration step succeeds and leaves sampling rate `r` (with
`r / 100` in the range of `int32_t`), the configure command returns 0, replies status 0
and sets `mNextUpdateInterval` to `r / 100` truncated to an integer, 480 for
`r = 48000`; the band gains, the loudness reference, the fade and the countdown (and
every member other than the interval and the base state) are unchanged. -/
theorem C9_configure_success (E : Env F Cfg) (s : EffectEqualizer F) (cmdSize : Nat)
    (d : CmdData Cfg)
    (hret : (E.configure s.toEffect d.config).1 = 0)
    (hrange : -2147483648 ≤ truncate ((E.configure s.toEffect d.config).2.mSamplingRate / 100) ∧
      truncate ((E.configure s.toEffect d.config).2.mSamplingRate / 100) ≤ 2147483647) :
    command E s E.EFFECT_CMD_SET_CONFIG cmdSize d
      = (0, { s with
              toEffect := (E.configure s.toEffect d.config).2
              mNextUpdateInterval :=
                truncate ((E.configure s.toEffect d.config).2.mSamplingRate / 100) },
          Reply.status 0) ∧
    ((E.configure s.toEffect d.config).2.mSamplingRate = 48000 →
      (command E s E.EFFECT_CMD_SET_CONFIG cmdSize d).2.1.mNextUpdateInterval = 480) ∧
    (command E s E.EFFECT_CMD_SET_CONFIG cmdSize d).2.1.mBand = s.mBand ∧
    (command E s E.EFFECT_CMD_SET_CONFIG cmdSize d).2.1.mLoudnessAdjustment
      = s.mLoudnessAdjustment ∧
    (command E s E.EFFECT_CMD_SET_CONFIG cmdSize d).2.1.mFade = s.mFade ∧
    (command E s E.EFFECT_CMD_SET_CONFIG cmdSize d).2.1.mNextUpdate = s.mNextUpdate := by
  have hcmd : command E s E.EFFECT_CMD_SET_CONFIG cmdSize d
      = (0, { s with
              toEffect := (E.configure s.toEffect d.config).2
              mNextUpdateInterval :=
                truncate ((E.configure s.toEffect d.config).2.mSamplingRate / 100) },
          Reply.status 0) := by
    unfold command
    simp only [if_true, hret, ne_eq, not_true_eq_false, if_false, toInt32]
    rw [wrapInt32_of_range _ hrange]
  rw [hcmd]
  refine ⟨rfl, ?_, rfl, rfl, rfl, rfl⟩
  intro h48
  show truncate ((E.configure s.toEffect d.config).2.mSamplingRate / 100) = 480
  rw [h48]
  have h : ((48000 : ℚ) / 100) = ((480 : Int) : ℚ) := by norm_num
  rw [h, truncate_intCast]

/-- C10: when the base configuration step fails with code `e ≠ 0`, the configure
command returns 0, replies exactly `e` and changes neither the six band gains, nor the
loudness reference, nor `mNextUpdateInterval` (nor any member outside the base state). -/
theorem C10_configure_failure (E : Env F Cfg) (s : EffectEqualizer F) (cmdSize : Nat)
    (d : CmdData Cfg) (hret : (E.configure s.toEffect d.config).1 ≠ 0) :
    command E s E.EFFECT_CMD_SET_CONFIG cmdSize d
      = (0, { s with toEffect := (E.configure s.toEffect d.config).2 },
          Reply.status (E.configure s.toEffect d.config).1) ∧
    (command E s E.EFFECT_CMD_SET_CONFIG cmdSize d).2.1.mBand = s.mBand ∧
    (command E s E.EFFECT_CMD_SET_CONFIG cmdSize d).2.1.mLoudnessAdjustment
      = s.mLoudnessAdjustment ∧
    (command E s E.EFFECT_CMD_SET_CONFIG cmdSize d).2.1.mNextUpdateInterval
      = s.mNextUpdateInterval := by
  have hcmd : command E s E.EFFECT_CMD_SET_CONFIG cmdSize d
      = (0, { s with toEffect := (E.configure s.toEffect d.config).2 },
          Reply.status (E.configure s.toEffect d.config).1) := by
    unfold command
    simp only [if_true, ne_eq, hret, not_false_eq_true]
  rw [hcmd]
  exact ⟨rfl, rfl, rfl, rfl⟩

theorem testEnv_configure_rate (e : Effect) (r : ℚ) :
    (testEnv.configure e (mkConfig 0 r).config).2.mSamplingRate = r := rfl

theorem truncate_480 : truncate ((48000 : ℚ) / 100) = 480 := by
  have h : ((48000 : ℚ) / 100) = ((480 : Int) : ℚ) := by norm_num
  rw [h, truncate_intCast]

/-- C9 in the concrete environment: the base step succeeds with sampling rate 48000 and the
interval becomes 480. -/
theorem C9_configure_success_witness :
    (testEnv.configure (init testEnv).toEffect (mkConfig 0 48000).config).1 = 0 ∧
    (command testEnv (init testEnv) testEnv.EFFECT_CMD_SET_CONFIG 56
      (mkConfig 0 48000)).2.1.mNextUpdateInterval = 480 ∧
    (command testEnv (init testEnv) testEnv.EFFECT_CMD_SET_CONFIG 56
      (mkConfig 0 48000)).2.2 = Reply.status 0 :=
  have h := C9_configure_success testEnv (init testEnv) 56 (mkConfig 0 48000) rfl
    (by rw [testEnv_configure_rate, truncate_480]; decide)
  ⟨rfl, h.2.1 (testEnv_configure_rate _ _), by rw [h.1]⟩

/-- C10 in the concrete environment: the base step fails with -22; the reply is -22 and the
interval stays 1000. -/
theorem C10_configure_failure_witness :
    (testEnv.configure (init testEnv).toEffect (mkConfig (-22) 48000).config).1 ≠ 0 ∧
    (command testEnv (init testEnv) testEnv.EFFECT_CMD_SET_CONFIG 56
      (mkConfig (-22) 48000)).2.2 = Reply.status (-22) ∧
    (command testEnv (init testEnv) testEnv.EFFECT_CMD_SET_CONFIG 56
      (mkConfig (-22) 48000)).2.1.mNextUpdateInterval = 1000 :=
  have h := C10_configure_failure testEnv (init testEnv) 56 (mkConfig (-22) 48000) (by decide)
  ⟨by decide, by rw [h.1]; rfl, by rw [h.2.2.2]; rfl⟩

end Configure

/-! ## The constructor and the static parameters -/

section Static

variable {F Cfg : Type}

open EffectEqualizer

/-- C11 (as stated, refuted): in the freshly constructed state the loudness reference
`mLoudnessAdjustment` is 10000, not 100. -/
theorem C11_fresh_state_counterexample :
    (init testEnv).mLoudnessAdjustment = 10000 ∧ (init testEnv).mLoudnessAdjustment ≠ 100 := by
  refine ⟨rfl, ?_⟩
  show (10000 : ℚ) ≠ 100
  norm_num

/-- C11 (amended): in a freshly constructed state the loudness reference is 10000.0 dB,
both loudness estimates are 50.0, all six band gains are 0, both energy accumulators
are 0 and the fade is 0 (and the countdown is 0 and the interval 1000). -/
theorem C11_fresh_state_amended (E : Env F Cfg) :
    (init E).mLoudnessAdjustment = 10000 ∧
    (init E).mLoudnessL = 50 ∧ (init E).mLoudnessR = 50 ∧
    (∀ i : Fin 6, (init E).mBand i = 0) ∧
    (init E).mPowerSquaredL = 0 ∧ (init E).mPowerSquaredR = 0 ∧
    (init E).mFade = 0 ∧
    (init E).mNextUpdate = 0 ∧ (init E).mNextUpdateInterval = 1000 :=
  ⟨rfl, rfl, rfl, fun _ => rfl, rfl, rfl, rfl, rfl, rfl⟩

/-- The center frequency of band `idx` in millihertz is the integer `15625 * 4 ^ idx`. -/
theorem centerFrequency_millihertz (idx : Fin 6) :
    (15.625 : ℚ) * (4 : ℚ) ^ (idx : Nat) * 1000
      = (((15625 * 4 ^ (idx : Nat) : Int)) : ℚ) := by
  fin_cases idx <;> norm_num

/-- C12: for every band index `idx` in 0..5 and every state, get-parameter `CENTER_FREQ`
returns 0, leaves the state alone and replies status 0, value size 4 and the value
`15.625 * 4^idx * 1000`, that is 15625, 62500, 250000, 1000000, 4000000, 16000000. -/
theorem C12_center_freq (E : Env F Cfg) (hE : E.distinct) (s : EffectEqualizer F)
    (cmdSize : Nat) (d : CmdData Cfg) (idx : Fin 6)
    (hd : d.param.psize = 8 ∧ d.param.word3 = E.EQ_PARAM_CENTER_FREQ ∧
      d.param.word4 = ((idx : Nat) : Int)) :
    command E s E.EFFECT_CMD_GET_PARAM cmdSize d
      = (0, s, Reply.reply2x4_1x4 0 4 (15625 * 4 ^ (idx : Nat))) ∧
    (15625 * 4 ^ (idx : Nat) : Int)
      = (![15625, 62500, 250000, 1000000, 4000000, 16000000] : Fin 6 → Int) idx := by
  obtain ⟨h8, hc, hi⟩ := hd
  have hne : E.EQ_PARAM_CENTER_FREQ ≠ E.EQ_PARAM_BAND_LEVEL := Ne.symm hE.2.2.2.2.2.2.1
  have hidx : 0 ≤ ((idx : Nat) : Int) ∧ ((idx : Nat) : Int) < 6 := by
    have := idx.isLt; omega
  have hrange : -2147483648 ≤ (15625 * 4 ^ (idx : Nat) : Int) ∧
      (15625 * 4 ^ (idx : Nat) : Int) ≤ 2147483647 := by
    fin_cases idx <;> simp
  constructor
  · rw [command_get E hE]
    unfold getParam
    simp [h8, hc, hi, hne, hidx]
    rw [centerFrequency_millihertz idx]
    unfold toInt32
    rw [truncate_intCast, wrapInt32_of_range _ hrange]
  · fin_cases idx <;> rfl

/-- C12 at band 5 of the concrete environment: the reply value is 16000000. -/
theorem C12_center_freq_witness :
    command testEnv (init testEnv) testEnv.EFFECT_CMD_GET_PARAM 20 (mkParam 8 0 3 5 0)
      = (0, init testEnv, Reply.reply2x4_1x4 0 4 (15625 * 4 ^ ((5 : Fin 6) : Nat))) ∧
    (15625 * 4 ^ ((5 : Fin 6) : Nat) : Int)
      = (![15625, 62500, 250000, 1000000, 4000000, 16000000] : Fin 6 → Int) 5 :=
  C12_center_freq testEnv testEnv_distinct (init testEnv) 20 (mkParam 8 0 3 5 0) 5
    ⟨rfl, rfl, rfl⟩

/-- C13: in every state (so in every reachable one) the get-parameter requests of
parameter size 4 return 0, leave the state unchanged and reply, independently of the
state: `NUM_BANDS` status 0, value size 2, value 6; `LEVEL_RANGE` status 0, value size
4, values -1000 and 1000; `NUM_PRESETS` status 0, value size 2, value 0. -/
theorem C13_static_parameters (E : Env F Cfg) (hE : E.distinct) (s : EffectEqualizer F)
    (cmdSize : Nat) (dBands dRange dPresets : CmdData Cfg)
    (hBands : dBands.param.psize = 4 ∧ dBands.param.word3 = E.EQ_PARAM_NUM_BANDS)
    (hRange : dRange.param.psize = 4 ∧ dRange.param.word3 = E.EQ_PARAM_LEVEL_RANGE)
    (hPresets : dPresets.param.psize = 4 ∧
      dPresets.param.word3 = E.EQ_PARAM_GET_NUM_OF_PRESETS) :
    command E s E.EFFECT_CMD_GET_PARAM cmdSize dBands = (0, s, Reply.reply1x4_1x2 0 2 6) ∧
    command E s E.EFFECT_CMD_GET_PARAM cmdSize dRange
      = (0, s, Reply.reply1x4_2x2 0 4 (-1000) 1000) ∧
    command E s E.EFFECT_CMD_GET_PARAM cmdSize dPresets = (0, s, Reply.reply1x4_1x2 0 2 0) := by
  have h1 : E.EQ_PARAM_LEVEL_RANGE ≠ E.EQ_PARAM_NUM_BANDS := Ne.symm hE.2.2.2.1
  have h2 : E.EQ_PARAM_GET_NUM_OF_PRESETS ≠ E.EQ_PARAM_NUM_BANDS := Ne.symm hE.2.2.2.2.1
  have h3 : E.EQ_PARAM_GET_NUM_OF_PRESETS ≠ E.EQ_PARAM_LEVEL_RANGE := Ne.symm hE.2.2.2.2.2.1
  rw [command_get E hE, command_get E hE, command_get E hE]
  unfold getParam
  simp [hBands.1, hBands.2, hRange.1, hRange.2, hPresets.1, hPresets.2, h1, h2, h3]

/-- C13 in the concrete environment, on the state left by setting band 1 to 300. -/
theorem C13_static_parameters_witness :
    command testEnv (command testEnv (init testEnv) testEnv.EFFECT_CMD_SET_PARAM 22
        (mkParam 8 2 2 1 300)).2.1 testEnv.EFFECT_CMD_GET_PARAM 16 (mkParam 4 0 0 0 0)
      = (0, (command testEnv (init testEnv) testEnv.EFFECT_CMD_SET_PARAM 22
          (mkParam 8 2 2 1 300)).2.1, Reply.reply1x4_1x2 0 2 6) ∧
    command testEnv (command testEnv (init testEnv) testEnv.EFFECT_CMD_SET_PARAM 22
        (mkParam 8 2 2 1 300)).2.1 testEnv.EFFECT_CMD_GET_PARAM 16 (mkParam 4 0 1 0 0)
      = (0, (command testEnv (init testEnv) testEnv.EFFECT_CMD_SET_PARAM 22
          (mkParam 8 2 2 1 300)).2.1, Reply.reply1x4_2x2 0 4 (-1000) 1000) ∧
    command testEnv (command testEnv (init testEnv) testEnv.EFFECT_CMD_SET_PARAM 22
        (mkParam 8 2 2 1 300)).2.1 testEnv.EFFECT_CMD_GET_PARAM 16 (mkParam 4 0 7 0 0)
      = (0, (command testEnv (init testEnv) testEnv.EFFECT_CMD_SET_PARAM 22
          (mkParam 8 2 2 1 300)).2.1, Reply.reply1x4_1x2 0 2 0) :=
  C13_static_parameters testEnv testEnv_distinct _ 16 (mkParam 4 0 0 0 0) (mkParam 4 0 1 0 0)
    (mkParam 4 0 7 0 0) ⟨rfl, rfl⟩ ⟨rfl, rfl⟩ ⟨rfl, rfl⟩

end Static

/-! ## The shelves configured by `refreshBands` -/

section Shelves

variable {F Cfg : Type}

open EffectEqualizer

theorem EffectEqualizer.getAdjustedBand_isSome_iff (s : EffectEqualizer F) (band : Int)
    (loudness : ℚ) :
    (getAdjustedBand s band loudness).isSome ↔ (0 ≤ band ∧ band < 6) := by
  constructor
  · intro h
    by_contra hb
    have hnone : arrayAt s.mBand band = none := arrayAt_eq_none _ _ (by omega)
    unfold getAdjustedBand at h
    simp [hnone] at h
  · intro hb
    have hfin : band = ((((⟨band.toNat, by omega⟩ : Fin 6)) : Nat) : Int) := by
      simp
      omega
    rw [hfin, getAdjustedBand_fin]
    rfl

/-- The shelf arguments written out: gain step and DC gain in terms of the in-table
values of `getAdjustedBand`. -/
theorem EffectEqualizer.shelfArgsIn_eq (s : EffectEqualizer F) (j : Fin 5) (L : ℚ) :
    shelfArgsIn s j L =
      { steps := s.mNextUpdateInterval
        centerFrequency := 2 * (15.625 * (4 : ℚ) ^ (j : Nat))
        samplingRate := s.mSamplingRate
        gaindB := getAdjustedBandIn s j.succ L - getAdjustedBandIn s j.castSucc L
        slope := 1
        overallGain := if j = 0 then getAdjustedBandIn s 0 L else 0 } := by
  unfold shelfArgsIn
  simp only [zpow_natCast, HighShelfArgs.mk.injEq, true_and, and_true]
  ring

theorem EffectEqualizer.getAdjustedBand_succ (s : EffectEqualizer F) (j : Fin 5) (L : ℚ) :
    getAdjustedBand s (((j : Nat) : Int) + 1) L = some (getAdjustedBandIn s j.succ L) := by
  have h1 : ((j : Nat) : Int) + 1 = (((j.succ : Fin 6) : Nat) : Int) := by simp
  rw [h1, getAdjustedBand_fin]

theorem EffectEqualizer.getAdjustedBand_castSucc (s : EffectEqualizer F) (j : Fin 5) (L : ℚ) :
    getAdjustedBand s ((j : Nat) : Int) L = some (getAdjustedBandIn s j.castSucc L) := by
  have h2 : ((j : Nat) : Int) = (((j.castSucc : Fin 6) : Nat) : Int) := by simp
  nth_rewrite 1 [h2]
  rw [getAdjustedBand_fin]

theorem EffectEqualizer.getAdjustedBand_zero (s : EffectEqualizer F) (L : ℚ) :
    getAdjustedBand s 0 L = some (getAdjustedBandIn s 0 L) :=
  getAdjustedBand_fin s 0 L

/-- C19: `getAdjustedBand` is defined exactly for band indices in 0..5 (index 6 is
outside the tables); every index `refreshBands` queries, `band + 1`, `band` and 0 for
`band` in 0..4, is inside, so `refreshBands` always returns and a rollover of `process`
fails only for a zero interval, never for an index; and the control protocol neither
reads nor writes `mBand` for a band index outside 0..5: the get reply then does not
depend on the state and the set leaves `mBand` as it was. -/
theorem C19_index_safety (E : Env F Cfg) (s : EffectEqualizer F) :
    (∀ (band : Int) (L : ℚ), (getAdjustedBand s band L).isSome ↔ (0 ≤ band ∧ band < 6)) ∧
    (∀ L : ℚ, getAdjustedBand s 6 L = none) ∧
    (∀ (j : Fin 5) (L : ℚ),
      (0 ≤ ((j : Nat) : Int) + 1 ∧ ((j : Nat) : Int) + 1 < 6) ∧
      (getAdjustedBand s (((j : Nat) : Int) + 1) L).isSome ∧
      (getAdjustedBand s ((j : Nat) : Int) L).isSome ∧
      (getAdjustedBand s 0 L).isSome ∧
      (shelfArgs s ((j : Nat) : Int) L).isSome) ∧
    (refreshBands E s).isSome ∧
    ((updateWindow E s).isSome ↔ s.mNextUpdateInterval ≠ 0) ∧
    (∀ (s2 : EffectEqualizer F) (cep : effect_param_t),
      ¬ (0 ≤ cep.word4 ∧ cep.word4 < 6) →
        getParam E s cep = getParam E s2 cep ∧ (setParam E s cep).1.mBand = s.mBand) := by
  refine ⟨fun band L => getAdjustedBand_isSome_iff s band L, ?_, ?_, ?_, ?_, ?_⟩
  · intro L
    have h := (getAdjustedBand_isSome_iff s 6 L).not.mpr (by omega)
    simpa using h
  · intro j L
    have hj := j.isLt
    refine ⟨by omega, ?_, ?_, ?_, ?_⟩
    · rw [getAdjustedBand_succ]; rfl
    · rw [getAdjustedBand_castSucc]; rfl
    · rw [getAdjustedBand_zero]; rfl
    · rw [shelfArgs_fin]; rfl
  · rw [refreshBands_eq]; rfl
  · constructor
    · intro h hz
      unfold updateWindow updateLoudnessEstimate at h
      simp [hz] at h
    · intro hz
      obtain ⟨s1, hs1, _⟩ := updateWindow_some E s hz
      rw [hs1]; rfl
  · intro s2 cep hb
    constructor
    · unfold getParam
      simp [hb]
    · unfold setParam
      simp only [hb, and_false, dite_false]
      split_ifs <;> rfl

/-- C19 at concrete inputs: a `BAND_LEVEL` get and set for band 6 on the fresh state of
the concrete environment. -/
theorem C19_index_safety_witness :
    ¬ (0 ≤ (mkParam 8 2 2 6 500).param.word4 ∧ (mkParam 8 2 2 6 500).param.word4 < 6) ∧
    getParam testEnv (init testEnv) (mkParam 8 2 2 6 500).param
      = getParam testEnv fullFadeState (mkParam 8 2 2 6 500).param ∧
    (setParam testEnv (init testEnv) (mkParam 8 2 2 6 500).param).1.mBand
      = (init testEnv).mBand :=
  ⟨by decide,
    (C19_index_safety testEnv (init testEnv)).2.2.2.2.2 fullFadeState
      (mkParam 8 2 2 6 500).param (by decide)⟩

end Shelves

/-! ## The return value of `process` -/

section ProcessReturn

variable {F Cfg : Type}

open EffectEqualizer

/-- A frame that returns keeps the base state and the interval, whatever the interval. -/
theorem EffectEqualizer.processFrame_base (E : Env F Cfg) (s : EffectEqualizer F)
    (frame : Int × Int) (r : EffectEqualizer F × (Int × Int))
    (h : processFrame E s frame = some r) :
    r.1.toEffect = s.toEffect ∧ r.1.mNextUpdateInterval = s.mNextUpdateInterval := by
  by_cases hN : s.mNextUpdateInterval = 0
  · by_cases hc : s.mNextUpdate = 0
    · exfalso
      unfold processFrame updateWindow updateLoudnessEstimate at h
      simp [hc, hN] at h
    · unfold processFrame at h
      simp only [hc, if_false, Option.some_bind, Option.some.injEq] at h
      rw [← h]
      exact ⟨rfl, rfl⟩
  · obtain ⟨r1, hr1, e1, _, _, e4, _⟩ := processFrame_some E s frame hN
    rw [hr1] at h
    have hr := Option.some.inj h
    rw [← hr]
    exact ⟨e1, e4⟩

theorem EffectEqualizer.processLoop_base (E : Env F Cfg) (input : List (Int × Int)) :
    ∀ (s : EffectEqualizer F) (r : EffectEqualizer F × List (Int × Int)),
      processLoop E s input = some r →
      r.1.toEffect = s.toEffect ∧ r.1.mNextUpdateInterval = s.mNextUpdateInterval := by
  induction input with
  | nil =>
    intro s r h
    simp only [processLoop, Option.some.injEq] at h
    rw [← h]
    exact ⟨rfl, rfl⟩
  | cons frame rest ih =>
    intro s r h
    simp only [processLoop] at h
    cases h1 : processFrame E s frame with
    | none => rw [h1] at h; simp at h
    | some r1 =>
      rw [h1, Option.some_bind] at h
      cases h2 : processLoop E r1.1 rest with
      | none => rw [h2] at h; simp at h
      | some r2 =>
        rw [h2, Option.some_bind, Option.some.injEq] at h
        obtain ⟨a1, a2⟩ := processFrame_base E s frame r1 h1
        obtain ⟨b1, b2⟩ := ih r1.1 r2 h2
        rw [← h]
        exact ⟨by rw [b1, a1], by rw [b2, a2]⟩

/-- The result of `process` in terms of the result of its loop. -/
theorem EffectEqualizer.process_eq_some (E : Env F Cfg) (s : EffectEqualizer F)
    (input : List (Int × Int)) (r : Int × EffectEqualizer F × List (Int × Int))
    (h : process E s input = some r) :
    processLoop E s input = some (r.2.1, r.2.2) ∧
    r.1 = (if r.2.1.mEnable = true ∨ r.2.1.mFade ≠ 0 then 0 else -E.ENODATA) := by
  unfold process at h
  cases h1 : processLoop E s input with
  | none => rw [h1] at h; simp at h
  | some r1 =>
    rw [h1, Option.some_bind, Option.some.injEq] at h
    rw [← h]
    exact ⟨rfl, rfl⟩

theorem EffectEqualizer.processLoop_length (E : Env F Cfg) (input : List (Int × Int)) :
    ∀ (s : EffectEqualizer F) (r : EffectEqualizer F × List (Int × Int)),
      processLoop E s input = some r → r.2.length = input.length := by
  induction input with
  | nil =>
    intro s r h
    simp only [processLoop, Option.some.injEq] at h
    rw [← h]
  | cons frame rest ih =>
    intro s r h
    simp only [processLoop] at h
    cases h1 : processFrame E s frame with
    | none => rw [h1] at h; simp at h
    | some r1 =>
      rw [h1, Option.some_bind] at h
      cases h2 : processLoop E r1.1 rest with
      | none => rw [h2] at h; simp at h
      | some r2 =>
        rw [h2, Option.some_bind, Option.some.injEq] at h
        rw [← h]
        simp only [List.length_cons, ih r1.1 r2 h2]

end ProcessReturn

/-! ## The loudness estimator -/

section Loudness

variable {F Cfg : Type}

open EffectEqualizer

/-- With a nonzero interval `updateLoudnessEstimate` returns: the previous estimate
less 0.1 when it exceeds the instantaneous level by more than 0.1, the instantaneous
level otherwise. -/
theorem EffectEqualizer.updateLoudnessEstimate_eq (E : Env F Cfg) (s : EffectEqualizer F)
    (p : ℚ) (pw : Int) (hN : s.mNextUpdateInterval ≠ 0) :
    updateLoudnessEstimate E s p pw
      = some (if p > signalPowerDb E s pw + 0.1 then p - 0.1 else signalPowerDb E s pw) := by
  unfold updateLoudnessEstimate signalPowerDb
  rw [if_neg hN]
  simp only []
  split_ifs <;> rfl

end Loudness

/-! ## The countdown and the interval -/

section Countdown

variable {F Cfg : Type}

open EffectEqualizer

/-- The configure command written out. -/
theorem EffectEqualizer.command_config_eq (E : Env F Cfg) (s : EffectEqualizer F)
    (cmdSize : Nat) (d : CmdData Cfg) :
    command E s E.EFFECT_CMD_SET_CONFIG cmdSize d
      = if (E.configure s.toEffect d.config).1 ≠ 0 then
          (0, { s with toEffect := (E.configure s.toEffect d.config).2 },
            Reply.status (E.configure s.toEffect d.config).1)
        else
          (0, { s with
                toEffect := (E.configure s.toEffect d.config).2
                mNextUpdateInterval :=
                  toInt32 ((E.configure s.toEffect d.config).2.mSamplingRate / 100) },
            Reply.status 0) := by
  unfold command
  simp only [if_true]

/-- A sampling rate of at least 100 Hz (below `2^31 * 100`) gives an interval in
`1 .. 2^31 - 1`. -/
theorem toInt32_rate (r : ℚ) (h : 100 ≤ r ∧ r < 214748364800) :
    0 < toInt32 (r / 100) ∧ toInt32 (r / 100) ≤ 2147483647 := by
  have h0 : (0 : ℚ) ≤ r / 100 := by
    apply div_nonneg _ (by norm_num)
    linarith [h.1]
  have h1 : (1 : Int) ≤ ⌊r / 100⌋ := by
    rw [Int.le_floor]
    rw [le_div_iff₀ (by norm_num)]
    push_cast
    linarith [h.1]
  have h2 : ⌊r / 100⌋ < 2147483648 := by
    rw [Int.floor_lt]
    rw [div_lt_iff₀ (by norm_num)]
    push_cast
    linarith [h.2]
  unfold toInt32
  rw [truncate_of_nonneg _ h0, wrapInt32_of_range _ (by omega)]
  omega

/-- The parameter commands do not touch the countdown or the interval. -/
theorem EffectEqualizer.setParam_countdown (E : Env F Cfg) (s : EffectEqualizer F)
    (cep : effect_param_t) :
    (setParam E s cep).1.mNextUpdate = s.mNextUpdate ∧
    (setParam E s cep).1.mNextUpdateInterval = s.mNextUpdateInterval := by
  unfold setParam
  split_ifs <;> exact ⟨rfl, rfl⟩

/-- With an interval in `1 .. 2^31 - 1` and a countdown in `0 .. 2^31 - 1` the loop
returns for every buffer, keeps the interval, keeps the countdown in `0 .. 2^31 - 1`,
and keeps a countdown that is at most the interval at most the interval. -/
theorem EffectEqualizer.processLoop_countdown (E : Env F Cfg) (input : List (Int × Int)) :
    ∀ s : EffectEqualizer F,
      0 < s.mNextUpdateInterval → s.mNextUpdateInterval ≤ 2147483647 →
      0 ≤ s.mNextUpdate → s.mNextUpdate ≤ 2147483647 →
      ∃ r, processLoop E s input = some r ∧
        r.1.mNextUpdateInterval = s.mNextUpdateInterval ∧
        0 ≤ r.1.mNextUpdate ∧ r.1.mNextUpdate ≤ 2147483647 ∧
        (s.mNextUpdate ≤ s.mNextUpdateInterval → r.1.mNextUpdate ≤ s.mNextUpdateInterval) := by
  induction input with
  | nil =>
    intro s _ _ h0 h1
    exact ⟨(s, []), rfl, rfl, h0, h1, fun h => h⟩
  | cons frame rest ih =>
    intro s hN hN32 hc0 hc32
    obtain ⟨r1, hr1, _, _, _, e4, e5, _⟩ := processFrame_some E s frame (ne_of_gt hN)
    have hc1 : r1.1.mNextUpdate
        = (if s.mNextUpdate = 0 then s.mNextUpdateInterval else s.mNextUpdate) - 1 := by
      rw [e5]
      apply wrapInt32_of_range
      split_ifs <;> omega
    have hb0 : 0 ≤ r1.1.mNextUpdate := by
      rw [hc1]; split_ifs <;> omega
    have hb1 : r1.1.mNextUpdate ≤ 2147483647 := by
      rw [hc1]; split_ifs <;> omega
    obtain ⟨r2, hr2, g1, g2, g3, g4⟩ := ih r1.1 (by rw [e4]; exact hN) (by rw [e4]; exact hN32)
      hb0 hb1
    refine ⟨(r2.1, r1.2 :: r2.2), ?_, ?_, g2, g3, ?_⟩
    · simp only [processLoop, hr1, hr2, Option.some_bind]
    · show r2.1.mNextUpdateInterval = s.mNextUpdateInterval
      rw [g1, e4]
    · intro hle
      show r2.1.mNextUpdate ≤ s.mNextUpdateInterval
      rw [← e4]
      apply g4
      rw [e4, hc1]
      split_ifs <;> omega

/-- The state after `process`, when it returns, is the state after the loop. -/
theorem EffectEqualizer.process_of_loop (E : Env F Cfg) (s : EffectEqualizer F)
    (input : List (Int × Int)) (r : EffectEqualizer F × List (Int × Int))
    (h : processLoop E s input = some r) :
    ∃ ret, process E s input = some (ret, r.1, r.2) := by
  unfold process
  rw [h]
  exact ⟨_, rfl⟩

/-- The invariant that does hold along every run whose configurations leave a sampling
rate in `[100, 2^31 * 100)`: the interval is in `1 .. 2^31 - 1` and the countdown in
`0 .. 2^31 - 1`. -/
theorem reachable_interval_pos (E : Env F Cfg) (hE : E.distinct) (s : EffectEqualizer F)
    (h : Reachable E (fun q => 100 ≤ q ∧ q < 214748364800) s) :
    0 < s.mNextUpdateInterval ∧ s.mNextUpdateInterval ≤ 2147483647 ∧
    0 ≤ s.mNextUpdate ∧ s.mNextUpdate ≤ 2147483647 := by
  induction h with
  | init => refine ⟨?_, ?_, ?_, ?_⟩ <;> simp [init]
  | configure s cmdSize d _ hrate ih =>
    rw [command_config_eq]
    by_cases hret : (E.configure s.toEffect d.config).1 = 0
    · rw [if_neg (not_not.mpr hret)]
      have := toInt32_rate _ (hrate hret)
      exact ⟨this.1, this.2, ih.2.2.1, ih.2.2.2⟩
    · rw [if_pos hret]
      exact ih
  | getParam s cmdSize d _ ih =>
    rw [command_get E hE]
    exact ih
  | setParam s cmdSize d _ ih =>
    rw [command_set E hE]
    obtain ⟨h1, h2⟩ := setParam_countdown E s d.param
    show 0 < (setParam E s d.param).1.mNextUpdateInterval ∧ _
    rw [h1, h2]
    exact ih
  | process s input r _ hproc ih =>
    obtain ⟨hloop, _⟩ := process_eq_some E s input r hproc
    obtain ⟨r2, hr2, g1, g2, g3, _⟩ :=
      processLoop_countdown E input s ih.1 ih.2.1 ih.2.2.1 ih.2.2.2
    rw [hloop] at hr2
    have hrr := Option.some.inj hr2
    have e1 : r.2.1 = r2.1 := by rw [← hrr]
    rw [e1, g1]
    exact ⟨ih.1, ih.2.1, g2, g3⟩

theorem toInt32_480 : toInt32 ((48000 : ℚ) / 100) = 480 := by
  unfold toInt32
  rw [truncate_480]
  decide

theorem toInt32_half : toInt32 ((50 : ℚ) / 100) = 0 := by
  have h0 : (0 : ℚ) ≤ 50 / 100 := by norm_num
  have hfl : ⌊(50 : ℚ) / 100⌋ = 0 := by rw [Int.floor_eq_iff]; norm_num
  unfold toInt32
  rw [truncate_of_nonneg _ h0, hfl]
  decide

/-- A successful configuration in the concrete environment changes the sampling rate
and the interval and keeps the countdown. -/
theorem testEnv_config (s : EffectEqualizer Unit) (cmdSize : Nat) (rate : ℚ) :
    (command testEnv s testEnv.EFFECT_CMD_SET_CONFIG cmdSize (mkConfig 0 rate)).2.1.mNextUpdate
      = s.mNextUpdate ∧
    (command testEnv s testEnv.EFFECT_CMD_SET_CONFIG cmdSize
      (mkConfig 0 rate)).2.1.mNextUpdateInterval = toInt32 (rate / 100) := by
  rw [command_config_eq]
  have hret : (testEnv.configure s.toEffect (mkConfig 0 rate).config).1 = 0 := rfl
  rw [if_neg (not_not.mpr hret)]
  exact ⟨rfl, rfl⟩

/-- C15 (as stated, refuted): from the fresh state of the concrete environment, one
frame through `process` leaves countdown 999, and a configuration at 48000 Hz then
makes the interval 480, below the countdown; and a configuration at 50 Hz (a sampling
rate > 0) makes the interval 0. Both states are reachable. -/
theorem C15_countdown_counterexample :
    (∃ r, process testEnv (init testEnv) [(0, 0)] = some r ∧
      Reachable testEnv (fun q => 0 < q)
        (command testEnv r.2.1 testEnv.EFFECT_CMD_SET_CONFIG 56 (mkConfig 0 48000)).2.1 ∧
      (command testEnv r.2.1 testEnv.EFFECT_CMD_SET_CONFIG 56
        (mkConfig 0 48000)).2.1.mNextUpdate = 999 ∧
      (command testEnv r.2.1 testEnv.EFFECT_CMD_SET_CONFIG 56
        (mkConfig 0 48000)).2.1.mNextUpdateInterval = 480) ∧
    (Reachable testEnv (fun q => 0 < q)
        (command testEnv (init testEnv) testEnv.EFFECT_CMD_SET_CONFIG 56 (mkConfig 0 50)).2.1 ∧
      (command testEnv (init testEnv) testEnv.EFFECT_CMD_SET_CONFIG 56
        (mkConfig 0 50)).2.1.mNextUpdateInterval = 0) := by
  constructor
  · obtain ⟨r0, hr0, _, _, _, _, e5, _⟩ :=
      processFrame_some testEnv (init testEnv) (0, 0) (by decide)
    have hloop : processLoop testEnv (init testEnv) [(0, 0)] = some (r0.1, [r0.2]) := by
      simp only [processLoop, hr0, Option.some_bind]
    obtain ⟨ret, hproc⟩ := process_of_loop testEnv (init testEnv) [(0, 0)] _ hloop
    have hc : r0.1.mNextUpdate = 999 := by
      rw [e5]
      decide
    have hcfg := testEnv_config r0.1 56 48000
    refine ⟨(ret, r0.1, [r0.2]), hproc, ?_, ?_, ?_⟩
    · apply Reachable.configure
      · exact Reachable.process (init testEnv) [(0, 0)] (ret, r0.1, [r0.2]) Reachable.init hproc
      · intro _
        rw [testEnv_configure_rate]
        norm_num
    · rw [hcfg.1, hc]
    · rw [hcfg.2, toInt32_480]
  · have hcfg := testEnv_config (init testEnv) 56 50
    constructor
    · apply Reachable.configure
      · exact Reachable.init
      · intro _
        rw [testEnv_configure_rate]
        norm_num
    · rw [hcfg.2, toInt32_half]

/-- C15 (amended): in every state reachable from the freshly constructed state by
configure commands that leave a sampling rate of at least 100 Hz (below `2^31 * 100`),
get/set-parameter commands and `process` calls, the interval is > 0 and the countdown
is ≥ 0. And from any state with `0 < interval` and `0 ≤ countdown ≤ interval` the
get/set-parameter commands keep both and `process` returns with the same interval and
`0 ≤ countdown ≤ interval`; a configure command may leave the countdown above the new
interval. -/
theorem C15_countdown_amended (E : Env F Cfg) (hE : E.distinct) :
    (∀ s : EffectEqualizer F, Reachable E (fun q => 100 ≤ q ∧ q < 214748364800) s →
      0 < s.mNextUpdateInterval ∧ 0 ≤ s.mNextUpdate) ∧
    (∀ t : EffectEqualizer F, 0 < t.mNextUpdateInterval → t.mNextUpdateInterval ≤ 2147483647 →
      0 ≤ t.mNextUpdate → t.mNextUpdate ≤ t.mNextUpdateInterval →
      (∀ (cmdSize : Nat) (d : CmdData Cfg),
        (command E t E.EFFECT_CMD_GET_PARAM cmdSize d).2.1.mNextUpdateInterval
          = t.mNextUpdateInterval ∧
        (command E t E.EFFECT_CMD_GET_PARAM cmdSize d).2.1.mNextUpdate = t.mNextUpdate ∧
        (command E t E.EFFECT_CMD_SET_PARAM cmdSize d).2.1.mNextUpdateInterval
          = t.mNextUpdateInterval ∧
        (command E t E.EFFECT_CMD_SET_PARAM cmdSize d).2.1.mNextUpdate = t.mNextUpdate) ∧
      (∀ input : List (Int × Int), ∃ r, process E t input = some r ∧
        r.2.1.mNextUpdateInterval = t.mNextUpdateInterval ∧
        0 ≤ r.2.1.mNextUpdate ∧ r.2.1.mNextUpdate ≤ t.mNextUpdateInterval)) := by
  constructor
  · intro s hs
    have h := reachable_interval_pos E hE s hs
    exact ⟨h.1, h.2.2.1⟩
  · intro t hN hN32 hc0 hcN
    constructor
    · intro cmdSize d
      rw [command_get E hE, command_set E hE]
      obtain ⟨h1, h2⟩ := setParam_countdown E t d.param
      exact ⟨rfl, rfl, h2, h1⟩
    · intro input
      obtain ⟨r, hr, g1, g2, _, g4⟩ := processLoop_countdown E input t hN hN32 hc0 (by omega)
      obtain ⟨ret, hproc⟩ := process_of_loop E t input r hr
      exact ⟨_, hproc, g1, g2, g4 hcN⟩

/-- C15 (amended) in the concrete environment: the state configured at 48000 Hz is
reachable and has a positive interval; and a two-frame buffer from the fresh state
keeps `0 ≤ countdown ≤ interval`. -/
theorem C15_countdown_amended_witness :
    Reachable testEnv (fun q => 100 ≤ q ∧ q < 214748364800) configured48000 ∧
    (0 < configured48000.mNextUpdateInterval ∧ 0 ≤ configured48000.mNextUpdate) ∧
    ∃ r, process testEnv (init testEnv) [(0, 0), (0, 0)] = some r ∧
      r.2.1.mNextUpdateInterval = (init testEnv).mNextUpdateInterval ∧
      0 ≤ r.2.1.mNextUpdate ∧ r.2.1.mNextUpdate ≤ (init testEnv).mNextUpdateInterval :=
  have hreach : Reachable testEnv (fun q => 100 ≤ q ∧ q < 214748364800) configured48000 :=
    Reachable.configure (init testEnv) 56 (mkConfig 0 48000) Reachable.init
      (fun _ => by rw [testEnv_configure_rate]; norm_num)
  ⟨hreach, (C15_countdown_amended testEnv testEnv_distinct).1 configured48000 hreach,
    ((C15_countdown_amended testEnv testEnv_distinct).2 (init testEnv) (by decide) (by decide)
      (by decide) (by decide)).2 [(0, 0), (0, 0)]⟩

end Countdown

/-! ## The energy accumulators -/

section Energy

variable {F Cfg : Type}

open EffectEqualizer

theorem wrapInt64_of_range (x : Int)
    (h : -9223372036854775808 ≤ x ∧ x ≤ 9223372036854775807) : wrapInt64 x = x := by
  unfold wrapInt64; omega

theorem sumSq_nonneg (l : List (Int × Int)) (f : Int × Int → Int) :
    0 ≤ (l.map (fun x => f x * f x)).sum := by
  apply List.sum_nonneg
  intro y hy
  obtain ⟨x, _, rfl⟩ := List.mem_map.mp hy
  exact mul_self_nonneg _

theorem sumSq_le (M : Int) (f : Int × Int → Int) (l : List (Int × Int))
    (h : ∀ x ∈ l, |f x| ≤ M) :
    (l.map (fun x => f x * f x)).sum ≤ (l.length : Int) * (M * M) := by
  induction l with
  | nil => simp
  | cons x rest ih =>
    have hx := abs_le.mp (h x (List.mem_cons_self _ _))
    have hsq : f x * f x ≤ M * M := by nlinarith [hx.1, hx.2]
    have hrest := ih (fun y hy => h y (List.mem_cons_of_mem _ hy))
    simp only [List.map_cons, List.sum_cons, List.length_cons]
    push_cast
    nlinarith

/-- Inside a window (no more frames than the countdown) every frame adds the square of
its sample to each accumulator, as long as the sums stay within `int64_t`. -/
theorem EffectEqualizer.processLoop_accumulate (E : Env F Cfg) (input : List (Int × Int)) :
    ∀ s : EffectEqualizer F, s.mNextUpdateInterval ≠ 0 →
      (input.length : Int) ≤ s.mNextUpdate → s.mNextUpdate ≤ 2147483647 →
      0 ≤ s.mPowerSquaredL →
      s.mPowerSquaredL + (input.map (fun x => x.1 * x.1)).sum ≤ 9223372036854775807 →
      0 ≤ s.mPowerSquaredR →
      s.mPowerSquaredR + (input.map (fun x => x.2 * x.2)).sum ≤ 9223372036854775807 →
      ∃ r, processLoop E s input = some r ∧
        r.1.mPowerSquaredL = s.mPowerSquaredL + (input.map (fun x => x.1 * x.1)).sum ∧
        r.1.mPowerSquaredR = s.mPowerSquaredR + (input.map (fun x => x.2 * x.2)).sum ∧
        r.1.mNextUpdate = s.mNextUpdate - (input.length : Int) := by
  induction input with
  | nil =>
    intro s _ _ _ _ _ _ _
    exact ⟨(s, []), rfl, by simp, by simp, by simp⟩
  | cons frame rest ih =>
    intro s hN hlen hc32 hL0 hL hR0 hR
    simp only [List.map_cons, List.sum_cons, List.length_cons] at hlen hL hR
    push_cast at hlen
    have hrestL := sumSq_nonneg rest (fun x => x.1)
    have hrestR := sumSq_nonneg rest (fun x => x.2)
    have hsqL : 0 ≤ frame.1 * frame.1 := mul_self_nonneg _
    have hsqR : 0 ≤ frame.2 * frame.2 := mul_self_nonneg _
    have hc : s.mNextUpdate ≠ 0 := by omega
    obtain ⟨r1, hr1, _, _, _, e4, e5, _, e7, e8, _⟩ := processFrame_some E s frame hN
    rw [if_neg hc, wrapInt32_of_range _ (by omega)] at e5
    rw [if_neg hc, wrapInt64_of_range _ (by omega)] at e7
    rw [if_neg hc, wrapInt64_of_range _ (by omega)] at e8
    obtain ⟨r2, hr2, g1, g2, g3⟩ := ih r1.1 (by rw [e4]; exact hN) (by rw [e5]; omega)
      (by rw [e5]; omega) (by rw [e7]; omega) (by rw [e7]; omega) (by rw [e8]; omega)
      (by rw [e8]; omega)
    refine ⟨(r2.1, r1.2 :: r2.2), ?_, ?_, ?_, ?_⟩
    · simp only [processLoop, hr1, hr2, Option.some_bind]
    · show r2.1.mPowerSquaredL = _
      rw [g1, e7]
      simp only [List.map_cons, List.sum_cons]
      ring
    · show r2.1.mPowerSquaredR = _
      rw [g2, e8]
      simp only [List.map_cons, List.sum_cons]
      ring
    · show r2.1.mNextUpdate = _
      rw [g3, e5]
      simp only [List.length_cons]
      push_cast
      ring

/-- From the start of a window (countdown 0) a buffer of at most `interval` frames
leaves in each accumulator the sum of the squares of its samples, as long as that sum
stays within `int64_t`. -/
theorem EffectEqualizer.processLoop_window (E : Env F Cfg) (s : EffectEqualizer F)
    (frame : Int × Int) (rest : List (Int × Int))
    (hc : s.mNextUpdate = 0)
    (hN : 0 < s.mNextUpdateInterval ∧ s.mNextUpdateInterval ≤ 2147483647)
    (hlen : ((frame :: rest).length : Int) ≤ s.mNextUpdateInterval)
    (hL : ((frame :: rest).map (fun x => x.1 * x.1)).sum ≤ 9223372036854775807)
    (hR : ((frame :: rest).map (fun x => x.2 * x.2)).sum ≤ 9223372036854775807) :
    ∃ r, processLoop E s (frame :: rest) = some r ∧
      r.1.mPowerSquaredL = ((frame :: rest).map (fun x => x.1 * x.1)).sum ∧
      r.1.mPowerSquaredR = ((frame :: rest).map (fun x => x.2 * x.2)).sum := by
  simp only [List.map_cons, List.sum_cons, List.length_cons] at hlen hL hR ⊢
  push_cast at hlen
  have hrestL := sumSq_nonneg rest (fun x => x.1)
  have hrestR := sumSq_nonneg rest (fun x => x.2)
  have hsqL : 0 ≤ frame.1 * frame.1 := mul_self_nonneg _
  have hsqR : 0 ≤ frame.2 * frame.2 := mul_self_nonneg _
  obtain ⟨r1, hr1, _, _, _, e4, e5, _, e7, e8, _⟩ :=
    processFrame_some E s frame (ne_of_gt hN.1)
  rw [if_pos hc, wrapInt32_of_range _ (by omega)] at e5
  rw [if_pos hc, wrapInt64_of_range _ (by omega)] at e7
  rw [if_pos hc, wrapInt64_of_range _ (by omega)] at e8
  obtain ⟨r2, hr2, g1, g2, _⟩ := processLoop_accumulate E rest r1.1
    (by rw [e4]; exact ne_of_gt hN.1) (by rw [e5]; omega) (by rw [e5]; omega)
    (by rw [e7]; omega) (by rw [e7]; omega) (by rw [e8]; omega) (by rw [e8]; omega)
  refine ⟨(r2.1, r1.2 :: r2.2), ?_, ?_, ?_⟩
  · simp only [processLoop, hr1, hr2, Option.some_bind]
  · show r2.1.mPowerSquaredL = _
    rw [g1, e7]
    ring
  · show r2.1.mPowerSquaredR = _
    rw [g2, e8]
    ring

/-- C18 (as stated, refuted): in the concrete environment configured at 48000 Hz
(interval 480 ≤ 960, countdown 0), two frames whose left sample is `-2^31` have squares
summing to `2^63`, above the `int64_t` maximum `2^63 - 1`, and leave the left
accumulator at `-2^63`: negative and not the sum of the squares. -/
theorem C18_energy_counterexample :
    configured48000.mNextUpdateInterval = 480 ∧ configured48000.mNextUpdate = 0 ∧
    (([(-2147483648, 0), (-2147483648, 0)] : List (Int × Int)).map
      (fun x => x.1 * x.1)).sum = 9223372036854775808 ∧
    ¬ ((9223372036854775808 : Int) ≤ 9223372036854775807) ∧
    ∃ r, processLoop testEnv configured48000 [(-2147483648, 0), (-2147483648, 0)] = some r ∧
      r.1.mPowerSquaredL = -9223372036854775808 ∧ r.1.mPowerSquaredL < 0 := by
  have hcfg := testEnv_config (init testEnv) 56 48000
  have hN : configured48000.mNextUpdateInterval = 480 := by
    unfold configured48000
    rw [hcfg.2, toInt32_480]
  have hc : configured48000.mNextUpdate = 0 := by
    unfold configured48000
    rw [hcfg.1]
    rfl
  refine ⟨hN, hc, by decide, by decide, ?_⟩
  obtain ⟨r1, hr1, _, _, _, e4, e5, _, e7, _⟩ :=
    processFrame_some testEnv configured48000 (-2147483648, 0) (by rw [hN]; decide)
  rw [if_pos hc, hN] at e5
  rw [if_pos hc] at e7
  have hc1 : r1.1.mNextUpdate ≠ 0 := by
    rw [e5]; decide
  obtain ⟨r2, hr2, _, _, _, _, _, _, f7, _⟩ :=
    processFrame_some testEnv r1.1 (-2147483648, 0) (by rw [e4, hN]; decide)
  rw [if_neg hc1, e7] at f7
  have hval : r2.1.mPowerSquaredL = -9223372036854775808 := by
    rw [f7]; decide
  refine ⟨(r2.1, [r1.2, r2.2]), ?_, hval, ?_⟩
  · simp only [processLoop, hr1, hr2, Option.some_bind]
  · show r2.1.mPowerSquaredL < 0
    rw [hval]; decide

/-- C18 (amended): a rollover resets both accumulators to 0; and from the start of a
window (countdown 0, interval `N` in `1 .. 2^31 - 1`), after each of the first
`n ≤ N` frames of the window each channel's accumulator is the sum of the squares of
that channel's `n` samples, is ≥ 0, and, when every sample has magnitude at most `M`
with `N * M^2 ≤ 2^63 - 1`, is at most `n * M^2 ≤ N * M^2` and within `int64_t`. For
`N ≤ 960` this allows `M` up to `2^26`, not `2^31`. -/
theorem C18_energy_amended (E : Env F Cfg) (s : EffectEqualizer F)
    (window : List (Int × Int)) (M : Int)
    (hc : s.mNextUpdate = 0)
    (hN : 0 < s.mNextUpdateInterval ∧ s.mNextUpdateInterval ≤ 2147483647)
    (hlen : 1 ≤ window.length ∧ (window.length : Int) ≤ s.mNextUpdateInterval)
    (hM : ∀ x ∈ window, |x.1| ≤ M ∧ |x.2| ≤ M)
    (hbound : s.mNextUpdateInterval * (M * M) ≤ 9223372036854775807) :
    (∃ s1, updateWindow E s = some s1 ∧ s1.mPowerSquaredL = 0 ∧ s1.mPowerSquaredR = 0) ∧
    ∃ r, processLoop E s window = some r ∧
      r.1.mPowerSquaredL = (window.map (fun x => x.1 * x.1)).sum ∧
      r.1.mPowerSquaredR = (window.map (fun x => x.2 * x.2)).sum ∧
      0 ≤ r.1.mPowerSquaredL ∧ 0 ≤ r.1.mPowerSquaredR ∧
      r.1.mPowerSquaredL ≤ (window.length : Int) * (M * M) ∧
      r.1.mPowerSquaredR ≤ (window.length : Int) * (M * M) ∧
      (window.length : Int) * (M * M) ≤ s.mNextUpdateInterval * (M * M) ∧
      r.1.mPowerSquaredL ≤ 9223372036854775807 ∧
      r.1.mPowerSquaredR ≤ 9223372036854775807 := by
  have hsL : (window.map (fun x => x.1 * x.1)).sum ≤ (window.length : Int) * (M * M) :=
    sumSq_le M (fun x => x.1) window (fun x hx => (hM x hx).1)
  have hsR : (window.map (fun x => x.2 * x.2)).sum ≤ (window.length : Int) * (M * M) :=
    sumSq_le M (fun x => x.2) window (fun x hx => (hM x hx).2)
  have hlenM : (window.length : Int) * (M * M) ≤ s.mNextUpdateInterval * (M * M) :=
    mul_le_mul_of_nonneg_right hlen.2 (mul_self_nonneg M)
  constructor
  · obtain ⟨s1, hs1, _, _, _, _, _, h6, h7, _⟩ := updateWindow_some E s (ne_of_gt hN.1)
    exact ⟨s1, hs1, h6, h7⟩
  · cases hw : window with
    | nil =>
      rw [hw] at hlen
      simp at hlen
    | cons frame rest =>
      rw [hw] at hlen hsL hsR hlenM
      obtain ⟨r, hr, g1, g2⟩ := processLoop_window E s frame rest hc hN hlen.2
        (by omega) (by omega)
      refine ⟨r, hr, g1, g2, ?_, ?_, ?_, ?_, hlenM, ?_, ?_⟩
      · rw [g1]; exact sumSq_nonneg _ (fun x => x.1)
      · rw [g2]; exact sumSq_nonneg _ (fun x => x.2)
      · rw [g1]; exact hsL
      · rw [g2]; exact hsR
      · rw [g1]; omega
      · rw [g2]; omega

/-- C18 (amended) in the concrete environment configured at 48000 Hz: two frames of
magnitude at most `2^26` leave the sums of their squares. -/
theorem C18_energy_amended_witness :
    configured48000.mNextUpdate = 0 ∧
    (0 < configured48000.mNextUpdateInterval ∧
      configured48000.mNextUpdateInterval ≤ 2147483647) ∧
    configured48000.mNextUpdateInterval * ((67108864 : Int) * 67108864)
      ≤ 9223372036854775807 ∧
    ∃ r, processLoop testEnv configured48000 [(67108864, -3), (-67108864, 5)] = some r ∧
      r.1.mPowerSquaredL
        = (([(67108864, -3), (-67108864, 5)] : List (Int × Int)).map
            (fun x => x.1 * x.1)).sum ∧
      r.1.mPowerSquaredR
        = (([(67108864, -3), (-67108864, 5)] : List (Int × Int)).map
            (fun x => x.2 * x.2)).sum ∧
      0 ≤ r.1.mPowerSquaredL ∧ r.1.mPowerSquaredL ≤ 9223372036854775807 :=
  have hcfg := testEnv_config (init testEnv) 56 48000
  have hN : configured48000.mNextUpdateInterval = 480 := by
    unfold configured48000
    rw [hcfg.2, toInt32_480]
  have hc : configured48000.mNextUpdate = 0 := by
    unfold configured48000
    rw [hcfg.1]
    rfl
  have hN2 : 0 < configured48000.mNextUpdateInterval ∧
      configured48000.mNextUpdateInterval ≤ 2147483647 := by
    rw [hN]; decide
  have hb : configured48000.mNextUpdateInterval * ((67108864 : Int) * 67108864)
      ≤ 9223372036854775807 := by
    rw [hN]; decide
  ⟨hc, hN2, hb,
    (C18_energy_amended testEnv configured48000 [(67108864, -3), (-67108864, 5)] 67108864
      hc hN2 (by rw [hN]; decide) (by decide) hb).2.elim
      fun r hr => ⟨r, hr.1, hr.2.1, hr.2.2.1, hr.2.2.2.1, hr.2.2.2.2.2.2.2.2.1⟩⟩

end Energy

/-! ## The return value of `process`: the claim -/

section ProcessReturnClaim

variable {F Cfg : Type}

open EffectEqualizer

/-- A rollover with interval 0 does not return: it divides by the interval. -/
theorem EffectEqualizer.updateWindow_zero_interval (E : Env F Cfg) (s : EffectEqualizer F)
    (h : s.mNextUpdateInterval = 0) : updateWindow E s = none := by
  unfold updateWindow updateLoudnessEstimate
  simp [h]

/-- C14 (as stated, refuted): the state left by a successful configuration at 50 Hz is
reachable and has interval 0 and countdown 0; there the first frame of a buffer is a
rollover, which divides the accumulated energy by the interval, and `process` returns
neither 0 nor `-ENODATA`: it does not return. -/
theorem C14_process_return_counterexample :
    Reachable testEnv (fun q => 0 < q) configured50 ∧
    configured50.mNextUpdateInterval = 0 ∧ configured50.mNextUpdate = 0 ∧
    process testEnv configured50 [(0, 0)] = none := by
  have hcfg := testEnv_config (init testEnv) 56 50
  have hN : configured50.mNextUpdateInterval = 0 := by
    unfold configured50
    rw [hcfg.2, toInt32_half]
  have hc : configured50.mNextUpdate = 0 := by
    unfold configured50
    rw [hcfg.1]
    rfl
  refine ⟨?_, hN, hc, ?_⟩
  · unfold configured50
    apply Reachable.configure
    · exact Reachable.init
    · intro _
      rw [testEnv_configure_rate]
      norm_num
  · unfold process processLoop processFrame
    rw [if_pos hc, updateWindow_zero_interval testEnv configured50 hN]
    rfl

/-- C14 (amended): `process` returns exactly when its loop over the frames returns, and
then hands back the state and the output the loop leaves after all frames, with the
return value `-ENODATA` if and only if in that state `mEnable` is false and `mFade = 0`,
and 0 otherwise; the output has one frame per input frame, `mEnable` is as before the
call, and the value is 0 whenever the state is enabled. It returns for every buffer in
every state whose interval is not 0; with interval 0 and countdown 0 it does not return
for any buffer that has a frame. -/
theorem C14_process_return_amended (E : Env F Cfg) (hE : E.distinct) (s : EffectEqualizer F)
    (input : List (Int × Int)) :
    (∀ r, process E s input = some r ↔
      (processLoop E s input = some (r.2.1, r.2.2) ∧
        r.1 = (if r.2.1.mEnable = false ∧ r.2.1.mFade = 0 then -E.ENODATA else 0))) ∧
    (∀ r, process E s input = some r →
      r.2.2.length = input.length ∧ r.2.1.mEnable = s.mEnable ∧
      (r.1 = -E.ENODATA ↔ (r.2.1.mEnable = false ∧ r.2.1.mFade = 0)) ∧
      (r.1 = 0 ↔ ¬ (r.2.1.mEnable = false ∧ r.2.1.mFade = 0)) ∧
      (s.mEnable = true → r.1 = 0)) ∧
    (s.mNextUpdateInterval ≠ 0 → ∃ r, process E s input = some r) ∧
    (s.mNextUpdateInterval = 0 → s.mNextUpdate = 0 → input ≠ [] →
      process E s input = none) := by
  have hno : E.ENODATA ≠ 0 := hE.2.2.2.2.2.2.2.2
  have hcode : ∀ t : EffectEqualizer F,
      (if t.mEnable = true ∨ t.mFade ≠ 0 then (0 : Int) else -E.ENODATA)
        = (if t.mEnable = false ∧ t.mFade = 0 then -E.ENODATA else 0) := by
    intro t
    cases hb : t.mEnable <;> by_cases hf : t.mFade = 0 <;> simp [hf]
  refine ⟨?_, ?_, ?_, ?_⟩
  · intro r
    constructor
    · intro hr
      obtain ⟨hloop, hret⟩ := process_eq_some E s input r hr
      exact ⟨hloop, by rw [hret, hcode]⟩
    · rintro ⟨hloop, hret⟩
      unfold process
      rw [hloop, Option.some_bind]
      show some (_, r.2.1, r.2.2) = some r
      rw [hcode, ← hret]
  · intro r hr
    obtain ⟨hloop, hret⟩ := process_eq_some E s input r hr
    rw [hcode] at hret
    obtain ⟨hbase, _⟩ := processLoop_base E input s _ hloop
    have hlen := processLoop_length E input s _ hloop
    have hen : r.2.1.mEnable = s.mEnable := by
      show r.2.1.toEffect.mEnable = s.toEffect.mEnable
      rw [hbase]
    refine ⟨hlen, hen, ?_, ?_, ?_⟩
    · constructor
      · intro h
        by_contra hc
        rw [if_neg hc] at hret
        rw [hret] at h
        exact hno (neg_eq_zero.mp h.symm)
      · intro hc
        rw [hret, if_pos hc]
    · constructor
      · intro h hc
        rw [if_pos hc] at hret
        rw [hret] at h
        exact hno (neg_eq_zero.mp h)
      · intro hc
        rw [hret, if_neg hc]
    · intro h
      rw [hret, if_neg]
      rintro ⟨h1, _⟩
      rw [hen, h] at h1
      exact Bool.noConfusion h1
  · intro hN
    obtain ⟨r, hr, _⟩ := processLoop_some E input s hN
    exact ⟨_, by unfold process; rw [hr]; rfl⟩
  · intro hN hc hin
    cases input with
    | nil => exact absurd rfl hin
    | cons frame rest =>
      have hframe : processFrame E s frame = none := by
        unfold processFrame
        rw [if_pos hc, updateWindow_zero_interval E s hN]
        rfl
      unfold process
      simp only [processLoop, hframe, Option.none_bind]

/-- C14 (amended) on the last window of a fade-out in the concrete environment
(disabled, fade 1, countdown 0): one frame is consumed, its rollover takes the fade to
0, and `process` returns `-ENODATA`. -/
theorem C14_process_return_amended_witness :
    lastFadeState.mNextUpdateInterval ≠ 0 ∧
    ∃ r, process testEnv lastFadeState [(5, -7)] = some r ∧
      processLoop testEnv lastFadeState [(5, -7)] = some (r.2.1, r.2.2) ∧
      r.2.2.length = 1 ∧ r.2.1.mFade = 0 ∧ r.1 = -testEnv.ENODATA := by
  have hN : lastFadeState.mNextUpdateInterval ≠ 0 := by decide
  have hthm := C14_process_return_amended testEnv testEnv_distinct lastFadeState [(5, -7)]
  obtain ⟨r, hr⟩ := hthm.2.2.1 hN
  obtain ⟨hloop, _⟩ := (hthm.1 r).mp hr
  have hloop1 := hloop
  obtain ⟨hlen, hen, hiff, _⟩ := hthm.2.1 r hr
  obtain ⟨r0, hr0, _, _, _, _, _, e6, _⟩ := processFrame_some testEnv lastFadeState (5, -7) hN
  have hloop0 : processLoop testEnv lastFadeState [(5, -7)] = some (r0.1, [r0.2]) := by
    simp only [processLoop, hr0, Option.some_bind]
  rw [hloop0] at hloop
  have hst : r.2.1 = r0.1 := (congrArg Prod.fst (Option.some.inj hloop)).symm
  have hfade : r.2.1.mFade = 0 := by
    rw [hst, e6]
    decide
  exact ⟨hN, r, hr, hloop1, hlen, hfade, hiff.mpr ⟨by rw [hen]; rfl, hfade⟩⟩

end ProcessReturnClaim

/-! ## Float32 rounding -/

section Float32

theorem roundHalfEven_bounds (m : ℚ) :
    ⌊m⌋ ≤ roundHalfEven m ∧ roundHalfEven m ≤ ⌊m⌋ + 1 := by
  unfold roundHalfEven
  split_ifs <;> omega

theorem roundHalfEven_error (m : ℚ) : |(roundHalfEven m : ℚ) - m| ≤ 1 / 2 := by
  have h1 : (⌊m⌋ : ℚ) ≤ m := Int.floor_le m
  have h2 : m < (⌊m⌋ : ℚ) + 1 := Int.lt_floor_add_one m
  rw [abs_le]
  unfold roundHalfEven
  split_ifs with ha hb hc
  · constructor <;> linarith
  · push_cast; constructor <;> linarith
  · have : m - ⌊m⌋ = 1 / 2 := le_antisymm (not_lt.mp hb) (not_lt.mp ha)
    constructor <;> linarith
  · have : m - ⌊m⌋ = 1 / 2 := le_antisymm (not_lt.mp hb) (not_lt.mp ha)
    push_cast; constructor <;> linarith

theorem roundHalfEven_intCast (n : Int) : roundHalfEven (n : ℚ) = n := by
  unfold roundHalfEven
  simp

theorem roundHalfEven_mono (a b : ℚ) (h : a ≤ b) : roundHalfEven a ≤ roundHalfEven b := by
  have ha := roundHalfEven_bounds a
  have hb := roundHalfEven_bounds b
  rcases lt_or_eq_of_le (Int.floor_mono h) with hlt | heq
  · omega
  · unfold roundHalfEven
    rw [heq]
    split_ifs <;> first | omega | (exfalso; linarith)

/-- A rational strictly within one half of an integer rounds to it. -/
theorem roundHalfEven_of_near (m : ℚ) (n : Int) (h : |m - (n : ℚ)| < 1 / 2) :
    roundHalfEven m = n := by
  rw [abs_lt] at h
  have hlo := roundHalfEven_mono ((n : ℚ) - 1 / 2) m (by linarith)
  have hhi := roundHalfEven_mono m ((n : ℚ) + 1 / 2) (by linarith)
  have herr := roundHalfEven_error m
  rw [abs_le] at herr
  have h1 : ((roundHalfEven m : Int) : ℚ) < (n : ℚ) + 1 := by linarith
  have h2 : (n : ℚ) - 1 < ((roundHalfEven m : Int) : ℚ) := by linarith
  have h3 : roundHalfEven m < n + 1 := by exact_mod_cast h1
  have h4 : n - 1 < roundHalfEven m := by exact_mod_cast h2
  omega

theorem f32Ulp_pos (a : ℚ) : 0 < f32Ulp a := by
  unfold f32Ulp
  exact zpow_pos (by norm_num) _

theorem f32Exponent_mono (a b : ℚ) (h0 : 0 < a) (h : a ≤ b) :
    f32Exponent a ≤ f32Exponent b := by
  unfold f32Exponent
  exact max_le_max (Int.log_mono_right h0 h) (le_refl _)

/-- A magnitude is below the top of its binade. -/
theorem lt_two_zpow_f32Exponent (a : ℚ) : a < (2 : ℚ) ^ (f32Exponent a + 1) := by
  have h1 : a < ((2 : Nat) : ℚ) ^ (Int.log 2 a + 1) := Int.lt_zpow_succ_log_self (by norm_num) a
  have h2 : ((2 : Nat) : ℚ) ^ (Int.log 2 a + 1) ≤ (2 : ℚ) ^ (f32Exponent a + 1) := by
    rw [Nat.cast_ofNat]
    apply zpow_le_zpow_right₀ (by norm_num)
    unfold f32Exponent
    have := le_max_left (Int.log 2 a) (-126)
    omega
  exact lt_of_lt_of_le h1 h2

/-- A normal magnitude is at least the bottom of its binade. -/
theorem two_zpow_f32Exponent_le (a : ℚ) (h0 : 0 < a) (he : -126 < f32Exponent a) :
    (2 : ℚ) ^ f32Exponent a ≤ a := by
  have hlog : f32Exponent a = Int.log 2 a := by
    unfold f32Exponent at he ⊢
    rcases le_total (Int.log 2 a) (-126) with h | h
    · rw [max_eq_right h] at he; omega
    · exact max_eq_left h
  rw [hlog]
  have := Int.zpow_log_le_self (b := 2) (r := a) (by norm_num) h0
  rwa [Nat.cast_ofNat] at this

/-- The exponent of a magnitude in the binade `[2^e, 2^(e+1))`, or below `2^(-125)` for
`e = -126`. -/
theorem f32Exponent_eq (a : ℚ) (e : Int) (h0 : 0 < a) (he : -126 ≤ e)
    (hlo : (2 : ℚ) ^ e ≤ a ∨ e = -126) (hhi : a < (2 : ℚ) ^ (e + 1)) :
    f32Exponent a = e := by
  have hlt : Int.log 2 a < e + 1 := by
    rw [← Int.lt_zpow_iff_log_lt (by norm_num) h0, Nat.cast_ofNat]
    exact hhi
  unfold f32Exponent
  rcases hlo with hlo | hlo
  · have hle : e ≤ Int.log 2 a := by
      rw [← Int.zpow_le_iff_le_log (by norm_num) h0, Nat.cast_ofNat]
      exact hlo
    rw [max_eq_left (by omega)]
    omega
  · rcases le_total (Int.log 2 a) (-126) with h | h
    · rw [max_eq_right h]; omega
    · rw [max_eq_left h]; omega

theorem roundF32Abs_nonneg (a : ℚ) (h0 : 0 ≤ a) : 0 ≤ roundF32Abs a := by
  unfold roundF32Abs
  have hu := f32Ulp_pos a
  have hm : 0 ≤ a / f32Ulp a := div_nonneg h0 (le_of_lt hu)
  have hf : 0 ≤ ⌊a / f32Ulp a⌋ := Int.floor_nonneg.mpr hm
  have hb := (roundHalfEven_bounds (a / f32Ulp a)).1
  have hr : (0 : ℚ) ≤ ((roundHalfEven (a / f32Ulp a) : Int) : ℚ) := by
    exact_mod_cast le_trans hf hb
  exact mul_nonneg hr (le_of_lt hu)

theorem roundF32Abs_zero : roundF32Abs 0 = 0 := by
  unfold roundF32Abs
  rw [zero_div]
  have : roundHalfEven 0 = 0 := by
    have := roundHalfEven_intCast 0
    simpa using this
  rw [this]
  simp

/-- The float32 nearest to a magnitude of the binade `[2^e, 2^(e+1))` (or below
`2^(-125)` for `e = -126`) that is strictly within half a grid step of `n` grid steps. -/
theorem roundF32Abs_eq (a : ℚ) (e n : Int) (h0 : 0 < a) (he : -126 ≤ e)
    (hlo : (2 : ℚ) ^ e ≤ a ∨ e = -126) (hhi : a < (2 : ℚ) ^ (e + 1))
    (hn : |a / (2 : ℚ) ^ (e - 23) - (n : ℚ)| < 1 / 2) :
    roundF32Abs a = (n : ℚ) * (2 : ℚ) ^ (e - 23) := by
  unfold roundF32Abs f32Ulp
  rw [f32Exponent_eq a e h0 he hlo hhi, roundHalfEven_of_near _ n hn]

theorem two_zpow_succ (e : Int) : (2 : ℚ) ^ (e + 1) = 16777216 * (2 : ℚ) ^ (e - 23) := by
  have h : (2 : ℚ) ^ (e + 1) = (2 : ℚ) ^ (24 : Int) * (2 : ℚ) ^ (e - 23) := by
    rw [← zpow_add₀ (by norm_num : (2 : ℚ) ≠ 0)]
    congr 1
    ring
  rw [h]
  norm_num

theorem two_zpow_self (e : Int) : (2 : ℚ) ^ e = 8388608 * (2 : ℚ) ^ (e - 23) := by
  have h : (2 : ℚ) ^ e = (2 : ℚ) ^ (23 : Int) * (2 : ℚ) ^ (e - 23) := by
    rw [← zpow_add₀ (by norm_num : (2 : ℚ) ≠ 0)]
    congr 1
    ring
  rw [h]
  norm_num

/-- Rounding does not leave the binade upwards. -/
theorem roundF32Abs_le_top (a : ℚ) :
    roundF32Abs a ≤ (2 : ℚ) ^ (f32Exponent a + 1) := by
  have hu : 0 < (2 : ℚ) ^ (f32Exponent a - 23) := zpow_pos (by norm_num) _
  have hlt := lt_two_zpow_f32Exponent a
  rw [two_zpow_succ] at hlt ⊢
  have hm : a / (2 : ℚ) ^ (f32Exponent a - 23) ≤ ((16777216 : Int) : ℚ) := by
    rw [div_le_iff₀ hu]
    push_cast
    exact le_of_lt hlt
  have hr := roundHalfEven_mono _ _ hm
  rw [roundHalfEven_intCast] at hr
  have hr2 : ((roundHalfEven (a / (2 : ℚ) ^ (f32Exponent a - 23)) : Int) : ℚ) ≤ 16777216 := by
    exact_mod_cast hr
  unfold roundF32Abs f32Ulp
  exact mul_le_mul_of_nonneg_right hr2 (le_of_lt hu)

/-- Rounding does not leave a normal binade downwards. -/
theorem bottom_le_roundF32Abs (a : ℚ) (h0 : 0 < a) (he : -126 < f32Exponent a) :
    (2 : ℚ) ^ f32Exponent a ≤ roundF32Abs a := by
  have hu : 0 < (2 : ℚ) ^ (f32Exponent a - 23) := zpow_pos (by norm_num) _
  have hle := two_zpow_f32Exponent_le a h0 he
  rw [two_zpow_self] at hle ⊢
  have hm : ((8388608 : Int) : ℚ) ≤ a / (2 : ℚ) ^ (f32Exponent a - 23) := by
    rw [le_div_iff₀ hu]
    push_cast
    exact hle
  have hr := roundHalfEven_mono _ _ hm
  rw [roundHalfEven_intCast] at hr
  have hr2 : (8388608 : ℚ) ≤ ((roundHalfEven (a / (2 : ℚ) ^ (f32Exponent a - 23)) : Int) : ℚ) := by
    exact_mod_cast hr
  unfold roundF32Abs f32Ulp
  exact mul_le_mul_of_nonneg_right hr2 (le_of_lt hu)

theorem roundF32Abs_mono (a b : ℚ) (h0 : 0 ≤ a) (h : a ≤ b) :
    roundF32Abs a ≤ roundF32Abs b := by
  rcases eq_or_lt_of_le h0 with hz | hpos
  · rw [← hz, roundF32Abs_zero]
    exact roundF32Abs_nonneg b (le_trans h0 h)
  · have hb : 0 < b := lt_of_lt_of_le hpos h
    rcases lt_or_eq_of_le (f32Exponent_mono a b hpos h) with hlt | heq
    · have h1 := roundF32Abs_le_top a
      have h2 : (2 : ℚ) ^ (f32Exponent a + 1) ≤ (2 : ℚ) ^ f32Exponent b :=
        zpow_le_zpow_right₀ (by norm_num) (by omega)
      have hsub : -126 < f32Exponent b := by
        have : -126 ≤ f32Exponent a := le_max_right _ _
        omega
      have h3 := bottom_le_roundF32Abs b hb hsub
      linarith
    · have hu := f32Ulp_pos b
      unfold roundF32Abs f32Ulp at *
      rw [heq]
      have hm : a / (2 : ℚ) ^ (f32Exponent b - 23) ≤ b / (2 : ℚ) ^ (f32Exponent b - 23) :=
        div_le_div_of_nonneg_right h (le_of_lt hu)
      have hr := roundHalfEven_mono _ _ hm
      have hr2 : ((roundHalfEven (a / (2 : ℚ) ^ (f32Exponent b - 23)) : Int) : ℚ)
          ≤ ((roundHalfEven (b / (2 : ℚ) ^ (f32Exponent b - 23)) : Int) : ℚ) := by
        exact_mod_cast hr
      exact mul_le_mul_of_nonneg_right hr2 (le_of_lt hu)

/-- Rounding to float32 is monotone. -/
theorem roundF32_mono (x y : ℚ) (h : x ≤ y) : roundF32 x ≤ roundF32 y := by
  unfold roundF32
  by_cases hx : 0 ≤ x
  · have hy : 0 ≤ y := le_trans hx h
    rw [if_pos hx, if_pos hy]
    exact roundF32Abs_mono x y hx h
  · rw [if_neg hx]
    have hx' : 0 ≤ -x := by linarith
    have hnx := roundF32Abs_nonneg (-x) hx'
    by_cases hy : 0 ≤ y
    · rw [if_pos hy]
      have := roundF32Abs_nonneg y hy
      linarith
    · rw [if_neg hy]
      have := roundF32Abs_mono (-y) (-x) (by linarith) (by linarith)
      linarith

/-- Rounding to float32 moves a value by at most half the grid spacing at its
magnitude. -/
theorem roundF32_error (x : ℚ) : |roundF32 x - x| ≤ f32Ulp |x| / 2 := by
  have key : ∀ a : ℚ, |roundF32Abs a - a| ≤ f32Ulp a / 2 := by
    intro a
    have hu := f32Ulp_pos a
    have herr := roundHalfEven_error (a / f32Ulp a)
    unfold roundF32Abs
    have hrew : ((roundHalfEven (a / f32Ulp a) : Int) : ℚ) * f32Ulp a - a
        = (((roundHalfEven (a / f32Ulp a) : Int) : ℚ) - a / f32Ulp a) * f32Ulp a := by
      field_simp
    rw [hrew, abs_mul, abs_of_pos hu]
    calc |((roundHalfEven (a / f32Ulp a) : Int) : ℚ) - a / f32Ulp a| * f32Ulp a
        ≤ 1 / 2 * f32Ulp a := mul_le_mul_of_nonneg_right herr (le_of_lt hu)
      _ = f32Ulp a / 2 := by ring
  unfold roundF32
  by_cases hx : 0 ≤ x
  · rw [if_pos hx, abs_of_nonneg hx]
    exact key x
  · rw [if_neg hx, abs_of_neg (not_le.mp hx)]
    have := key (-x)
    have hrew : -roundF32Abs (-x) - x = -(roundF32Abs (-x) - -x) := by ring
    rw [hrew, abs_neg]
    exact this

/-- The rounding of a positive value, from its binade and its nearest grid point. -/
theorem roundF32_pos_eq (x : ℚ) (e n : Int) (h0 : 0 < x) (he : -126 ≤ e)
    (hlo : (2 : ℚ) ^ e ≤ x ∨ e = -126) (hhi : x < (2 : ℚ) ^ (e + 1))
    (hn : |x / (2 : ℚ) ^ (e - 23) - (n : ℚ)| < 1 / 2) :
    roundF32 x = (n : ℚ) * (2 : ℚ) ^ (e - 23) := by
  unfold roundF32
  rw [if_pos (le_of_lt h0)]
  exact roundF32Abs_eq x e n h0 he hlo hhi hn

/-- The rounding of a negative value, from the binade and the nearest grid point of
its magnitude. -/
theorem roundF32_neg_eq (x : ℚ) (e n : Int) (h0 : x < 0) (he : -126 ≤ e)
    (hlo : (2 : ℚ) ^ e ≤ -x ∨ e = -126) (hhi : -x < (2 : ℚ) ^ (e + 1))
    (hn : |-x / (2 : ℚ) ^ (e - 23) - (n : ℚ)| < 1 / 2) :
    roundF32 x = -((n : ℚ) * (2 : ℚ) ^ (e - 23)) := by
  unfold roundF32
  rw [if_neg (not_le.mpr h0)]
  rw [roundF32Abs_eq (-x) e n (by linarith) he hlo hhi hn]

theorem roundF32_zero : roundF32 0 = 0 := by
  unfold roundF32
  rw [if_pos (le_refl _)]
  exact roundF32Abs_zero

/-- The literal `0.1f`. -/
theorem roundF32_tenth : roundF32 0.1 = 13421773 / 134217728 := by
  rw [roundF32_pos_eq 0.1 (-4) 13421773 (by norm_num) (by norm_num) (Or.inl (by norm_num))
    (by norm_num) (by rw [abs_lt]; constructor <;> norm_num)]
  norm_num

end Float32

/-! ## The loudness estimator in float32 -/

section LoudnessF32

variable {F Cfg : Type}

open EffectEqualizer

/-- The step on two numbers: one rounded subtraction of `0.1f` when the estimate exceeds
the rounded sum of the level and `0.1f`, the level otherwise. -/
theorem loudnessStepF32_val (p s : ℚ) :
    loudnessStepF32 (F32.val p) (F32.val s)
      = if p > roundF32 (s + roundF32 0.1) then F32.val (roundF32 (p - roundF32 0.1))
        else F32.val s := by
  unfold loudnessStepF32
  simp only [F32.gt, F32.add, F32.sub, F32.ofRat, decide_eq_true_eq]

/-- A float is at most the rounded sum of itself and `0.1f`. -/
theorem le_roundF32_add_tenth (s : ℚ) (hs : roundF32 s = s) :
    s ≤ roundF32 (s + roundF32 0.1) := by
  have hc : (0 : ℚ) ≤ roundF32 0.1 := by rw [roundF32_tenth]; norm_num
  have := roundF32_mono s (s + roundF32 0.1) (by linarith)
  rwa [hs] at this

theorem loudnessAfterF32_add (sig : F32) (a b : Nat) : ∀ l : F32,
    loudnessAfterF32 sig (a + b) l = loudnessAfterF32 sig b (loudnessAfterF32 sig a l) := by
  induction a with
  | zero =>
    intro l
    simp [loudnessAfterF32]
  | succ a ih =>
    intro l
    have h : a + 1 + b = (a + b) + 1 := by omega
    rw [h]
    simp only [loudnessAfterF32]
    exact ih _

/-- While the estimate exceeds the rounded sum of the level and `0.1f`, each window is
one rounded subtraction of `0.1f`. -/
theorem loudnessAfterF32_decay (s : ℚ) (k : Nat) : ∀ p : ℚ,
    (∀ j : Nat, j < k →
      (fun x => roundF32 (x - roundF32 0.1))^[j] p > roundF32 (s + roundF32 0.1)) →
    loudnessAfterF32 (F32.val s) k (F32.val p)
      = F32.val ((fun x => roundF32 (x - roundF32 0.1))^[k] p) := by
  induction k with
  | zero =>
    intro p _
    simp [loudnessAfterF32]
  | succ k ih =>
    intro p h
    have h0 : p > roundF32 (s + roundF32 0.1) := by
      have := h 0 (by omega)
      simpa using this
    simp only [loudnessAfterF32]
    rw [loudnessStepF32_val, if_pos h0, ih (roundF32 (p - roundF32 0.1))]
    · rw [Function.iterate_succ_apply]
    · intro j hj
      have := h (j + 1) (by omega)
      rwa [Function.iterate_succ_apply] at this

/-- Once the estimate is the level it stays the level. -/
theorem loudnessAfterF32_stay (s : ℚ) (hs : roundF32 s = s) (m : Nat) :
    loudnessAfterF32 (F32.val s) m (F32.val s) = F32.val s := by
  induction m with
  | zero => simp [loudnessAfterF32]
  | succ m ih =>
    simp only [loudnessAfterF32]
    rw [loudnessStepF32_val, if_neg (not_lt.mpr (le_roundF32_add_tenth s hs))]
    exact ih

/-- From an estimate that does not exceed the rounded sum of the level and `0.1f` every
further window leaves the level. -/
theorem loudnessAfterF32_snap (s : ℚ) (hs : roundF32 s = s) (m : Nat) (p : ℚ)
    (hp : p ≤ roundF32 (s + roundF32 0.1)) :
    loudnessAfterF32 (F32.val s) (m + 1) (F32.val p) = F32.val s := by
  simp only [loudnessAfterF32]
  rw [loudnessStepF32_val, if_neg (not_lt.mpr hp)]
  exact loudnessAfterF32_stay s hs m

/-- C16 (amended): on float32 values, `updateLoudnessEstimate` computes the
instantaneous level of the window on line 249 (the interval being non-zero; with
interval 0 the division does not return) and replaces the previous estimate `p` by the
step of lines 251-255 at that level. With `sig` the level, the step yields `p - 0.1f`
rounded to float32 if `p` exceeds `sig + 0.1f` rounded to float32, and `sig` otherwise
(also when `sig` or `p` is NaN). The decayed value is within half a float32 grid step
plus `0.1f - 0.1` of `p - 0.1`, and the new estimate is never below `sig`. For a
constant level and `K` the first window count at which the estimate no longer exceeds
the rounded `sig + 0.1f`, the estimate after `k ≤ K` windows is the `k`-fold rounded
subtraction of `0.1f` from `p`, and after every `k > K` windows it is `sig`. -/
theorem C16_loudness_estimator_amended (E : Env F Cfg) (st : EffectEqualizer F)
    (powerSquared : Int) (p sig : ℚ) (hp : roundF32 p = p) (hsig : roundF32 sig = sig) :
    (st.mNextUpdateInterval ≠ 0 →
      ∃ level : F32, signalPowerDbF32 E st powerSquared = some level ∧
        updateLoudnessEstimateF32 E st (F32.val p) powerSquared
          = some (loudnessStepF32 (F32.val p) level)) ∧
    (st.mNextUpdateInterval = 0 →
      updateLoudnessEstimateF32 E st (F32.val p) powerSquared = none) ∧
    (loudnessStepF32 (F32.val p) (F32.val sig)
      = if p > roundF32 (sig + roundF32 0.1) then F32.val (roundF32 (p - roundF32 0.1))
        else F32.val sig) ∧
    roundF32 0.1 = 13421773 / 134217728 ∧
    loudnessStepF32 (F32.val p) F32.nan = F32.nan ∧
    loudnessStepF32 F32.nan (F32.val sig) = F32.val sig ∧
    |roundF32 (p - roundF32 0.1) - (p - 0.1)|
      ≤ f32Ulp |p - roundF32 0.1| / 2 + 1 / 671088640 ∧
    (∃ q : ℚ, loudnessStepF32 (F32.val p) (F32.val sig) = F32.val q ∧ sig ≤ q) ∧
    (∀ K : Nat,
      (∀ j : Nat, j < K →
        (fun x => roundF32 (x - roundF32 0.1))^[j] p > roundF32 (sig + roundF32 0.1)) →
      (∀ k : Nat, k ≤ K → loudnessAfterF32 (F32.val sig) k (F32.val p)
        = F32.val ((fun x => roundF32 (x - roundF32 0.1))^[k] p)) ∧
      ((fun x => roundF32 (x - roundF32 0.1))^[K] p ≤ roundF32 (sig + roundF32 0.1) →
        ∀ k : Nat, K < k → loudnessAfterF32 (F32.val sig) k (F32.val p) = F32.val sig)) := by
  refine ⟨?_, ?_, loudnessStepF32_val p sig, roundF32_tenth, rfl, rfl, ?_, ?_, ?_⟩
  · intro hN
    unfold updateLoudnessEstimateF32 signalPowerDbF32
    rw [if_neg hN]
    exact ⟨_, rfl, rfl⟩
  · intro hN
    unfold updateLoudnessEstimateF32 signalPowerDbF32
    rw [if_pos hN]
    rfl
  · have herr := roundF32_error (p - roundF32 0.1)
    have hsplit : roundF32 (p - roundF32 0.1) - (p - 0.1)
        = (roundF32 (p - roundF32 0.1) - (p - roundF32 0.1)) + (0.1 - roundF32 0.1) := by ring
    have hc : |(0.1 : ℚ) - roundF32 0.1| = 1 / 671088640 := by
      rw [roundF32_tenth]
      norm_num [abs_of_neg]
    rw [hsplit]
    calc |(roundF32 (p - roundF32 0.1) - (p - roundF32 0.1)) + (0.1 - roundF32 0.1)|
        ≤ |roundF32 (p - roundF32 0.1) - (p - roundF32 0.1)| + |(0.1 : ℚ) - roundF32 0.1| :=
          abs_add _ _
      _ ≤ f32Ulp |p - roundF32 0.1| / 2 + 1 / 671088640 := by rw [hc]; linarith
  · rw [loudnessStepF32_val]
    split_ifs with h
    · refine ⟨_, rfl, ?_⟩
      have hge : sig + roundF32 0.1 ≤ p := by
        by_contra hlt
        have := roundF32_mono p (sig + roundF32 0.1) (le_of_lt (not_le.mp hlt))
        rw [hp] at this
        linarith
      have := roundF32_mono sig (p - roundF32 0.1) (by linarith)
      rwa [hsig] at this
    · exact ⟨_, rfl, le_refl _⟩
  · intro K hK
    constructor
    · intro k hk
      exact loudnessAfterF32_decay sig k p (fun j hj => hK j (by omega))
    · intro hsnap k hk
      obtain ⟨m, rfl⟩ : ∃ m, k = K + (m + 1) := ⟨k - K - 1, by omega⟩
      rw [loudnessAfterF32_add, loudnessAfterF32_decay sig K p hK]
      exact loudnessAfterF32_snap sig hsig m _ hsnap

theorem roundF32_neg_four : roundF32 (-4) = -4 := by
  rw [roundF32_neg_eq (-4) 2 8388608 (by norm_num) (by norm_num) (Or.inl (by norm_num))
    (by norm_num) (by rw [abs_lt]; constructor <;> norm_num)]
  norm_num

theorem roundF32_neg_seven_halves : roundF32 (-7 / 2) = -7 / 2 := by
  rw [roundF32_neg_eq (-7 / 2) 1 14680064 (by norm_num) (by norm_num) (Or.inl (by norm_num))
    (by norm_num) (by rw [abs_lt]; constructor <;> norm_num)]
  norm_num

/-- The level -4 plus `0.1f`, rounded. -/
theorem roundF32_level : roundF32 (-4 + roundF32 0.1) = -8178893 / 2097152 := by
  rw [roundF32_tenth,
    roundF32_neg_eq _ 1 16357786 (by norm_num) (by norm_num) (Or.inl (by norm_num))
      (by norm_num) (by rw [abs_lt]; constructor <;> norm_num)]
  norm_num

theorem roundF32_decay_1 : roundF32 (-7 / 2 - roundF32 0.1) = -7549747 / 2097152 := by
  rw [roundF32_tenth,
    roundF32_neg_eq _ 1 15099494 (by norm_num) (by norm_num) (Or.inl (by norm_num))
      (by norm_num) (by rw [abs_lt]; constructor <;> norm_num)]
  norm_num

theorem roundF32_decay_2 :
    roundF32 (-7549747 / 2097152 - roundF32 0.1) = -3879731 / 1048576 := by
  rw [roundF32_tenth,
    roundF32_neg_eq _ 1 15518924 (by norm_num) (by norm_num) (Or.inl (by norm_num))
      (by norm_num) (by rw [abs_lt]; constructor <;> norm_num)]
  norm_num

theorem roundF32_decay_3 :
    roundF32 (-3879731 / 1048576 - roundF32 0.1) = -7969177 / 2097152 := by
  rw [roundF32_tenth,
    roundF32_neg_eq _ 1 15938354 (by norm_num) (by norm_num) (Or.inl (by norm_num))
      (by norm_num) (by rw [abs_lt]; constructor <;> norm_num)]
  norm_num

theorem roundF32_decay_4 :
    roundF32 (-7969177 / 2097152 - roundF32 0.1) = -2044723 / 524288 := by
  rw [roundF32_tenth,
    roundF32_neg_eq _ 1 16357784 (by norm_num) (by norm_num) (Or.inl (by norm_num))
      (by norm_num) (by rw [abs_lt]; constructor <;> norm_num)]
  norm_num

theorem roundF32_decay_5 :
    roundF32 (-2044723 / 524288 - roundF32 0.1) = -8388607 / 2097152 := by
  rw [roundF32_tenth,
    roundF32_neg_eq _ 1 16777214 (by norm_num) (by norm_num) (Or.inl (by norm_num))
      (by norm_num) (by rw [abs_lt]; constructor <;> norm_num)]
  norm_num

/-- One decaying window at the level -4, from the value of the rounded subtraction. -/
theorem loudnessStepF32_decay (p q : ℚ) (hgt : p > -8178893 / 2097152)
    (hq : roundF32 (p - roundF32 0.1) = q) :
    loudnessStepF32 (F32.val p) (F32.val (-4)) = F32.val q := by
  rw [loudnessStepF32_val, roundF32_level, if_pos hgt, hq]

/-- C16 (as stated, refuted): the estimate -3.5 and the level -4 are float32 numbers
with `-3.5 - 0.1 * j > -4 + 0.1` for `j < 4` and `-3.5 - 0.1 * 4 ≤ -4 + 0.1`, so the
claim gives -3.6 after one window and the level -4 after five. The code has
-3.5999999046... after one window and -3.9999995231... after five: it has not reached
the level yet. -/
theorem C16_loudness_estimator_counterexample :
    roundF32 (-7 / 2) = -7 / 2 ∧ roundF32 (-4) = -4 ∧
    (∀ j : Nat, j < 4 → (-7 / 2 : ℚ) - 0.1 * (j : ℚ) > -4 + 0.1) ∧
    (-7 / 2 : ℚ) - 0.1 * ((4 : Nat) : ℚ) ≤ -4 + 0.1 ∧
    loudnessAfterF32 (F32.val (-4)) 1 (F32.val (-7 / 2)) = F32.val (-7549747 / 2097152) ∧
    (-7549747 / 2097152 : ℚ) ≠ -7 / 2 - 0.1 * ((1 : Nat) : ℚ) ∧
    loudnessAfterF32 (F32.val (-4)) 5 (F32.val (-7 / 2)) = F32.val (-8388607 / 2097152) ∧
    (-8388607 / 2097152 : ℚ) ≠ -4 := by
  refine ⟨roundF32_neg_seven_halves, roundF32_neg_four, ?_, by norm_num, ?_, by norm_num, ?_,
    by norm_num⟩
  · intro j hj
    interval_cases j <;> norm_num
  · simp only [loudnessAfterF32]
    exact loudnessStepF32_decay _ _ (by norm_num) roundF32_decay_1
  · simp only [loudnessAfterF32]
    rw [loudnessStepF32_decay _ _ (by norm_num) roundF32_decay_1,
      loudnessStepF32_decay _ _ (by norm_num) roundF32_decay_2,
      loudnessStepF32_decay _ _ (by norm_num) roundF32_decay_3,
      loudnessStepF32_decay _ _ (by norm_num) roundF32_decay_4,
      loudnessStepF32_decay _ _ (by norm_num) roundF32_decay_5]

/-- C16 (amended) in the concrete environment configured at 48000 Hz, at the estimate
-3.5 and the level -4: the function applies the step at the level of line 249, and one
window at the level -4 yields the rounded `-3.5 - 0.1f`, which is not below the
level. -/
theorem C16_loudness_estimator_amended_witness :
    roundF32 (-7 / 2) = -7 / 2 ∧ roundF32 (-4) = -4 ∧
    configured48000.mNextUpdateInterval ≠ 0 ∧
    (∃ level : F32, signalPowerDbF32 testEnv configured48000 0 = some level ∧
      updateLoudnessEstimateF32 testEnv configured48000 (F32.val (-7 / 2)) 0
        = some (loudnessStepF32 (F32.val (-7 / 2)) level)) ∧
    (∀ j : Nat, j < 1 →
      (fun x => roundF32 (x - roundF32 0.1))^[j] (-7 / 2) > roundF32 (-4 + roundF32 0.1)) ∧
    loudnessAfterF32 (F32.val (-4)) 1 (F32.val (-7 / 2))
      = F32.val ((fun x => roundF32 (x - roundF32 0.1))^[1] (-7 / 2)) ∧
    (∃ q : ℚ, loudnessStepF32 (F32.val (-7 / 2)) (F32.val (-4)) = F32.val q ∧
      -4 ≤ q) :=
  have hN : configured48000.mNextUpdateInterval ≠ 0 := by
    have hcfg := testEnv_config (init testEnv) 56 48000
    unfold configured48000
    rw [hcfg.2, toInt32_480]
    decide
  have hdecay : ∀ j : Nat, j < 1 →
      (fun x => roundF32 (x - roundF32 0.1))^[j] (-7 / 2)
        > roundF32 (-4 + roundF32 0.1) := by
    intro j hj
    interval_cases j
    rw [roundF32_level]
    norm_num
  have h := C16_loudness_estimator_amended testEnv configured48000 0 (-7 / 2) (-4)
    roundF32_neg_seven_halves roundF32_neg_four
  ⟨roundF32_neg_seven_halves, roundF32_neg_four, hN, h.1 hN, hdecay,
    (h.2.2.2.2.2.2.2.2 1 hdecay).1 1 (le_refl 1), h.2.2.2.2.2.2.2.1⟩

end LoudnessF32

/-! ## The bypass in float32 -/

section BypassF32

variable {F Cfg : Type}

open EffectEqualizer

theorem roundF32_hundred : roundF32 100 = 100 := by
  rw [roundF32_pos_eq 100 6 13107200 (by norm_num) (by norm_num) (Or.inl (by norm_num))
    (by norm_num) (by rw [abs_lt]; constructor <;> norm_num)]
  norm_num

theorem roundF32_twenty : roundF32 20 = 20 := by
  rw [roundF32_pos_eq 20 4 10485760 (by norm_num) (by norm_num) (Or.inl (by norm_num))
    (by norm_num) (by rw [abs_lt]; constructor <;> norm_num)]
  norm_num

theorem roundF32_eighty : roundF32 80 = 80 := by
  rw [roundF32_pos_eq 80 6 10485760 (by norm_num) (by norm_num) (Or.inl (by norm_num))
    (by norm_num) (by rw [abs_lt]; constructor <;> norm_num)]
  norm_num

/-- The divisor `100.0f - 20.0f` is 80. -/
theorem F32_sub_hundred_twenty : F32.sub (F32.ofRat 100) (F32.ofRat 20) = F32.val 80 := by
  show F32.val (roundF32 (roundF32 100 - roundF32 20)) = F32.val 80
  rw [roundF32_hundred, roundF32_twenty]
  norm_num
  exact roundF32_eighty

/-- The factor `mFade / 100.f` is 0 at fade 0. -/
theorem F32_fade_zero : F32.div (F32.ofRat ((0 : Int) : ℚ)) (F32.ofRat 100) = F32.val 0 := by
  show (if roundF32 100 = 0 then F32.nan
    else F32.val (roundF32 (roundF32 ((0 : Int) : ℚ) / roundF32 100))) = F32.val 0
  rw [roundF32_hundred, if_neg (by norm_num), Int.cast_zero, roundF32_zero, zero_div,
    roundF32_zero]

/-- A number times the float 0 is 0. -/
theorem F32_mul_zero (q : ℚ) : F32.mul (F32.val q) (F32.val 0) = F32.val 0 := by
  show F32.val (roundF32 (q * 0)) = F32.val 0
  rw [mul_zero, roundF32_zero]

theorem F32_ite_val (c : Bool) (a b : ℚ) :
    (if c = true then F32.val a else F32.val b) = F32.val (if c = true then a else b) := by
  cases c <;> rfl

/-- A number divided by the float 80 is a number. -/
theorem F32_div_eighty (a : ℚ) : F32.div (F32.val a) (F32.val 80) = F32.val (roundF32 (a / 80)) := by
  show (if (80 : ℚ) = 0 then F32.nan else F32.val (roundF32 (a / 80))) = _
  rw [if_neg (by norm_num)]

/-- The normalised level of a number is a number. -/
theorem loudnessLevelF32_val (s : EffectEqualizer F) (L : ℚ) :
    ∃ t : ℚ, loudnessLevelF32 s (F32.val L) = F32.val t := by
  unfold loudnessLevelF32
  rw [F32_sub_hundred_twenty]
  simp only [F32.ofRat, F32.add]
  rw [F32_ite_val, F32_ite_val]
  simp only [F32.sub]
  rw [F32_div_eighty]
  exact ⟨_, rfl⟩

/-- The normalised level of NaN is NaN. -/
theorem loudnessLevelF32_nan (s : EffectEqualizer F) : loudnessLevelF32 s F32.nan = F32.nan := by
  unfold loudnessLevelF32
  simp [F32.add, F32.gt, F32.lt, F32.sub, F32.div]

/-- At fade 0 the float `getAdjustedBand` returns 0 for a loudness that is a number. -/
theorem getAdjustedBandF32_fade_zero (s : EffectEqualizer F) (hfade : s.mFade = 0)
    (b : Fin 6) (L : ℚ) :
    getAdjustedBandF32 s ((b : Nat) : Int) (F32.val L) = some (F32.val 0) := by
  obtain ⟨t, ht⟩ := loudnessLevelF32_val s L
  unfold getAdjustedBandF32
  simp only [arrayAt_fin, Option.some_bind, ht, hfade, F32_fade_zero]
  simp only [F32.add, F32.sub, F32.mul, F32.ofRat, mul_zero, roundF32_zero]

/-- For a NaN loudness the float `getAdjustedBand` returns NaN, at every fade. -/
theorem getAdjustedBandF32_nan (s : EffectEqualizer F) (b : Fin 6) :
    getAdjustedBandF32 s ((b : Nat) : Int) F32.nan = some F32.nan := by
  unfold getAdjustedBandF32
  simp only [arrayAt_fin, Option.some_bind, loudnessLevelF32_nan]
  simp [F32.add, F32.sub, F32.mul, F32.ofRat]

/-- At fade 0, on estimates that are numbers, `getAdjustedBand` returns 0 for every
band index in 0..5 and every shelf `refreshBands` configures has gain step 0 and DC
gain 0. -/
theorem EffectEqualizer.refreshBands_fade_zero (E : Env F Cfg) (s : EffectEqualizer F) (hfade : s.mFade = 0) :
    (∀ (b : Fin 6) (L : ℚ), getAdjustedBand s ((b : Nat) : Int) L = some 0) ∧
    (∀ (j : Fin 5) (L : ℚ), shelfArgs s ((j : Nat) : Int) L = some
      { steps := s.mNextUpdateInterval
        centerFrequency := 2 * (15.625 * (4 : ℚ) ^ (j : Nat))
        samplingRate := s.mSamplingRate
        gaindB := 0
        slope := 1
        overallGain := 0 }) ∧
    refreshBands E s = some { s with
      mFilterL := fun j => E.setHighShelf (s.mFilterL j)
        { steps := s.mNextUpdateInterval
          centerFrequency := 2 * (15.625 * (4 : ℚ) ^ (j : Nat))
          samplingRate := s.mSamplingRate
          gaindB := 0
          slope := 1
          overallGain := 0 }
      mFilterR := fun j => E.setHighShelf (s.mFilterR j)
        { steps := s.mNextUpdateInterval
          centerFrequency := 2 * (15.625 * (4 : ℚ) ^ (j : Nat))
          samplingRate := s.mSamplingRate
          gaindB := 0
          slope := 1
          overallGain := 0 } } := by
  have hz : ∀ (b : Fin 6) (L : ℚ), getAdjustedBandIn s b L = 0 := by
    intro b L
    unfold getAdjustedBandIn
    rw [hfade]
    simp
  have ha : ∀ (j : Fin 5) (L : ℚ), shelfArgsIn s j L =
      { steps := s.mNextUpdateInterval
        centerFrequency := 2 * (15.625 * (4 : ℚ) ^ (j : Nat))
        samplingRate := s.mSamplingRate
        gaindB := 0
        slope := 1
        overallGain := 0 } := by
    intro j L
    rw [shelfArgsIn_eq]
    simp [hz]
  refine ⟨?_, ?_, ?_⟩
  · intro b L
    rw [getAdjustedBand_fin, hz]
  · intro j L
    rw [shelfArgs_fin, ha]
  · rw [refreshBands_eq]
    simp only [ha]

theorem shelfGainsF32_fade_zero (s : EffectEqualizer F) (hfade : s.mFade = 0) (j : Fin 5)
    (L : ℚ) :
    shelfGainsF32 s ((j : Nat) : Int) (F32.val L) = some (F32.val 0, F32.val 0) := by
  have h1 : ((j : Nat) : Int) + 1 = (((j.succ : Fin 6) : Nat) : Int) := by simp
  have h2 : ((j : Nat) : Int) = (((j.castSucc : Fin 6) : Nat) : Int) := by simp
  have h0 : (0 : Int) = (((0 : Fin 6) : Nat) : Int) := rfl
  have hsub : F32.sub (F32.val 0) (F32.val 0) = F32.val 0 := by
    show F32.val (roundF32 (0 - 0)) = F32.val 0
    rw [sub_zero, roundF32_zero]
  have hzero : F32.ofRat 0 = F32.val 0 := by
    show F32.val (roundF32 0) = F32.val 0
    rw [roundF32_zero]
  unfold shelfGainsF32
  rw [h1, getAdjustedBandF32_fade_zero s hfade]
  nth_rewrite 1 [h2]
  rw [getAdjustedBandF32_fade_zero s hfade, h0, getAdjustedBandF32_fade_zero s hfade, hzero]
  simp only [Option.some_bind, hsub]
  split_ifs <;> rfl

theorem shelfGainsF32_nan (s : EffectEqualizer F) (j : Fin 5) :
    shelfGainsF32 s ((j : Nat) : Int) F32.nan
      = some (F32.nan, if j = 0 then F32.nan else F32.ofRat 0) := by
  have h1 : ((j : Nat) : Int) + 1 = (((j.succ : Fin 6) : Nat) : Int) := by simp
  have h2 : ((j : Nat) : Int) = (((j.castSucc : Fin 6) : Nat) : Int) := by simp
  have h0 : (0 : Int) = (((0 : Fin 6) : Nat) : Int) := rfl
  have hz : (((j : Nat) : Int) = 0) ↔ j = 0 := by
    constructor
    · intro h; apply Fin.ext; simp; omega
    · intro h; rw [h]; rfl
  unfold shelfGainsF32
  rw [h1, getAdjustedBandF32_nan]
  nth_rewrite 1 [h2]
  rw [getAdjustedBandF32_nan, h0, getAdjustedBandF32_nan]
  by_cases hj : j = 0
  · simp [hj, F32.sub]
  · simp [hj, hz, F32.sub]

theorem roundF32_two_pow_48 : roundF32 ((2 : ℚ) ^ 48) = (2 : ℚ) ^ 48 := by
  rw [roundF32_pos_eq _ 48 8388608 (by norm_num) (by norm_num) (Or.inl (by norm_num))
    (by norm_num) (by rw [abs_lt]; constructor <;> norm_num)]
  norm_num

theorem roundF32_neg_two_pow_15 : roundF32 (-32768) = -32768 := by
  rw [roundF32_neg_eq _ 15 8388608 (by norm_num) (by norm_num) (Or.inl (by norm_num))
    (by norm_num) (by rw [abs_lt]; constructor <;> norm_num)]
  norm_num

theorem roundF32_neg_two_pow_neg_33 :
    roundF32 (-32768 / (2 : ℚ) ^ 48) = -(1 / 8589934592) := by
  rw [roundF32_neg_eq _ (-33) 8388608 (by norm_num) (by norm_num) (Or.inl (by norm_num))
    (by norm_num) (by rw [abs_lt]; constructor <;> norm_num)]
  norm_num

/-- The literal `1e-10f`. -/
theorem roundF32_tiny : roundF32 1e-10 = 14411519 / 144115188075855872 := by
  rw [roundF32_pos_eq _ (-34) 14411519 (by norm_num) (by norm_num) (Or.inl (by norm_num))
    (by norm_num) (by rw [abs_lt]; constructor <;> norm_num)]
  norm_num

theorem roundF32_neg_logArg :
    roundF32 (-(1 / 8589934592) + 14411519 / 144115188075855872)
      = -(2365697 / 144115188075855872) := by
  rw [roundF32_neg_eq _ (-36) 9462788 (by norm_num) (by norm_num) (Or.inl (by norm_num))
    (by norm_num) (by rw [abs_lt]; constructor <;> norm_num)]
  norm_num

theorem F32_nan_div (x : F32) : F32.div F32.nan x = F32.nan := by
  cases x <;> rfl

theorem F32_nan_mul (x : F32) : F32.mul F32.nan x = F32.nan := by
  cases x <;> rfl

theorem F32_add_nan (x : F32) : F32.add x F32.nan = F32.nan := by
  cases x <;> rfl

/-- The argument of `logf` on line 249 is negative when the mean square is at most
`-2^15`. -/
theorem logArg_neg (m : Int) (hm : m ≤ -32768) :
    ∃ a : ℚ, F32.add (F32.div (F32.ofRat (m : ℚ)) (F32.ofRat ((2 : ℚ) ^ 48)))
      (F32.ofRat 1e-10) = F32.val a ∧ a < 0 := by
  have h48 : (2 : ℚ) ^ 48 ≠ 0 := by norm_num
  refine ⟨roundF32 (roundF32 (roundF32 (m : ℚ) / (2 : ℚ) ^ 48) + roundF32 1e-10), ?_, ?_⟩
  · show (if roundF32 ((2 : ℚ) ^ 48) = 0 then F32.nan
        else F32.val (roundF32 (roundF32 (m : ℚ) / roundF32 ((2 : ℚ) ^ 48)))).add
        (F32.val (roundF32 1e-10)) = _
    rw [roundF32_two_pow_48, if_neg h48]
    rfl
  · have hmq : (m : ℚ) ≤ -32768 := by exact_mod_cast hm
    have h1 : roundF32 (m : ℚ) ≤ -32768 := by
      have := roundF32_mono _ _ hmq
      rwa [roundF32_neg_two_pow_15] at this
    have h2 : roundF32 (roundF32 (m : ℚ) / (2 : ℚ) ^ 48) ≤ -(1 / 8589934592) := by
      have hdiv : roundF32 (m : ℚ) / (2 : ℚ) ^ 48 ≤ -32768 / (2 : ℚ) ^ 48 :=
        div_le_div_of_nonneg_right h1 (by norm_num)
      have := roundF32_mono _ _ hdiv
      rwa [roundF32_neg_two_pow_neg_33] at this
    have h3 : roundF32 (roundF32 (m : ℚ) / (2 : ℚ) ^ 48) + roundF32 1e-10
        ≤ -(1 / 8589934592) + 14411519 / 144115188075855872 := by
      rw [roundF32_tiny]
      linarith
    have := roundF32_mono _ _ h3
    rw [roundF32_neg_logArg] at this
    have hneg : -(2365697 / 144115188075855872 : ℚ) < 0 := by norm_num
    exact lt_of_le_of_lt this hneg

/-- Line 249 yields NaN when the mean square of the window is at most `-2^15`: the
argument of `logf` is negative. -/
theorem signalPowerDbF32_nan (E : Env F Cfg) (s : EffectEqualizer F) (powerSquared : Int)
    (hN : s.mNextUpdateInterval ≠ 0)
    (hm : wrapInt64 (powerSquared.tdiv s.mNextUpdateInterval) ≤ -32768) :
    signalPowerDbF32 E s powerSquared = some F32.nan := by
  obtain ⟨a, ha, hneg⟩ := logArg_neg _ hm
  have hlog : logfF32 E (F32.val a) = F32.nan := by
    show (if a ≤ 0 then F32.nan else F32.val (roundF32 (E.logf a))) = F32.nan
    rw [if_pos (le_of_lt hneg)]
  have key : ∀ x : F32, x = F32.val a →
      F32.add (F32.ofRat 96)
        (F32.mul (F32.div (logfF32 E x) (logfF32 E (F32.ofRat 10))) (F32.ofRat 10))
        = F32.nan := by
    intro x hx
    rw [hx, hlog, F32_nan_div, F32_nan_mul, F32_add_nan]
  unfold signalPowerDbF32
  rw [if_neg hN]
  exact congrArg some (key _ ha)

/-- With a mean square at most `-2^15` the whole of `updateLoudnessEstimate` leaves NaN
in the estimate, whatever the estimate was. -/
theorem updateLoudnessEstimateF32_nan (E : Env F Cfg) (s : EffectEqualizer F)
    (loudness : F32) (powerSquared : Int) (hN : s.mNextUpdateInterval ≠ 0)
    (hm : wrapInt64 (powerSquared.tdiv s.mNextUpdateInterval) ≤ -32768) :
    updateLoudnessEstimateF32 E s loudness powerSquared = some F32.nan := by
  unfold updateLoudnessEstimateF32
  rw [signalPowerDbF32_nan E s powerSquared hN hm]
  cases loudness <;> rfl

/-- C20 (as stated, refuted): configured at 48000 Hz (interval 480), the left
accumulator `-2^63` that two frames of `-2^31` leave has the mean square
`-19215358410114116`, line 249 takes `logf` of a negative number and the estimate
becomes NaN; for a NaN estimate `getAdjustedBand` returns NaN at fade 0, not 0, and
shelf 0 gets a NaN gain step and a NaN DC gain. -/
theorem C20_bypass_flat_counterexample :
    (init testEnv).mFade = 0 ∧
    configured48000.mNextUpdateInterval = 480 ∧
    wrapInt64 ((-9223372036854775808 : Int).tdiv 480) = -19215358410114116 ∧
    signalPowerDbF32 testEnv configured48000 (-9223372036854775808) = some F32.nan ∧
    updateLoudnessEstimateF32 testEnv configured48000 (F32.val 50) (-9223372036854775808)
      = some F32.nan ∧
    getAdjustedBandF32 (init testEnv) 0 F32.nan = some F32.nan ∧
    F32.nan ≠ F32.val 0 ∧
    shelfGainsF32 (init testEnv) 0 F32.nan = some (F32.nan, F32.nan) := by
  have hcfg := testEnv_config (init testEnv) 56 48000
  have hN : configured48000.mNextUpdateInterval = 480 := by
    unfold configured48000
    rw [hcfg.2, toInt32_480]
  have hN0 : configured48000.mNextUpdateInterval ≠ 0 := by
    rw [hN]; decide
  have hm : wrapInt64 ((-9223372036854775808 : Int).tdiv
      configured48000.mNextUpdateInterval) ≤ -32768 := by
    rw [hN]; decide
  refine ⟨rfl, hN, by decide, signalPowerDbF32_nan _ _ _ hN0 hm,
    updateLoudnessEstimateF32_nan _ _ _ _ hN0 hm,
    getAdjustedBandF32_nan (init testEnv) 0, by decide, ?_⟩
  have h := shelfGainsF32_nan (init testEnv) 0
  simpa using h

/-- C20 (amended): whenever `mFade = 0`, `getAdjustedBand` returns 0 for every band
index in 0..5 and every loudness estimate that is not NaN, whatever the loudness
reference and the user band gains, so for estimates that are not NaN every shelf
`refreshBands` configures (five per channel) has gain step 0 and DC gain 0. For a NaN
estimate `getAdjustedBand` returns NaN, and the shelves of that channel get a NaN gain
step (and shelf 0 a NaN DC gain). -/
theorem C20_bypass_flat_amended (E : Env F Cfg) (s : EffectEqualizer F)
    (hfade : s.mFade = 0) :
    (∀ (b : Fin 6) (L : ℚ),
      getAdjustedBandF32 s ((b : Nat) : Int) (F32.val L) = some (F32.val 0)) ∧
    (∀ (j : Fin 5) (L : ℚ),
      shelfGainsF32 s ((j : Nat) : Int) (F32.val L) = some (F32.val 0, F32.val 0)) ∧
    (∀ b : Fin 6, getAdjustedBandF32 s ((b : Nat) : Int) F32.nan = some F32.nan) ∧
    (∀ j : Fin 5, shelfGainsF32 s ((j : Nat) : Int) F32.nan
      = some (F32.nan, if j = 0 then F32.nan else F32.ofRat 0)) ∧
    (∀ (b : Fin 6) (L : ℚ), getAdjustedBand s ((b : Nat) : Int) L = some 0) ∧
    (∀ (j : Fin 5) (L : ℚ), shelfArgs s ((j : Nat) : Int) L = some
      { steps := s.mNextUpdateInterval
        centerFrequency := 2 * (15.625 * (4 : ℚ) ^ (j : Nat))
        samplingRate := s.mSamplingRate
        gaindB := 0
        slope := 1
        overallGain := 0 }) ∧
    refreshBands E s = some { s with
      mFilterL := fun j => E.setHighShelf (s.mFilterL j)
        { steps := s.mNextUpdateInterval
          centerFrequency := 2 * (15.625 * (4 : ℚ) ^ (j : Nat))
          samplingRate := s.mSamplingRate
          gaindB := 0
          slope := 1
          overallGain := 0 }
      mFilterR := fun j => E.setHighShelf (s.mFilterR j)
        { steps := s.mNextUpdateInterval
          centerFrequency := 2 * (15.625 * (4 : ℚ) ^ (j : Nat))
          samplingRate := s.mSamplingRate
          gaindB := 0
          slope := 1
          overallGain := 0 } } := by
  obtain ⟨h1, h2, h3⟩ := refreshBands_fade_zero E s hfade
  exact ⟨getAdjustedBandF32_fade_zero s hfade, shelfGainsF32_fade_zero s hfade,
    getAdjustedBandF32_nan s, shelfGainsF32_nan s, h1, h2, h3⟩

/-- C20 (amended) on the fresh state of the concrete environment (fade 0): band 0 at
loudness 50 gets gain 0. -/
theorem C20_bypass_flat_amended_witness :
    (init testEnv).mFade = 0 ∧
    getAdjustedBandF32 (init testEnv) (((0 : Fin 6) : Nat) : Int) (F32.val 50)
      = some (F32.val 0) ∧
    getAdjustedBand (init testEnv) (((0 : Fin 6) : Nat) : Int) 50 = some 0 :=
  ⟨rfl, (C20_bypass_flat_amended testEnv (init testEnv) rfl).1 0 50,
    (C20_bypass_flat_amended testEnv (init testEnv) rfl).2.2.2.2.1 0 50⟩

end BypassF32
